import Mathlib

/-! PMG ProspecPro: verification of the API-client layer

A shallow embedding of the registry client (`cnpj.js`), the AI client and its
rate limiter (`ai.js`), the recommendation engine (`ml-categorization.js`), the
menu processing (`data-processor.js`), the social client (`social.js`), the
maps client (`maps.js`) and the validator of the form (`script.js`), with the
properties the design document states about them.

Conventions of the embedding
* a JavaScript string is the list of its UTF-16 code units, each carried by a
  `Char`; `length` is the length of that list;
* a JavaScript number that can be `NaN` is an `Option`, `none` standing for
  `NaN`;
* `Date.now()` and the answers of the network are inputs of the functions that
  read them; mutable objects are passed and returned explicitly.
-/

namespace Prospetor

/-- A JavaScript string: the sequence of its code units. -/
abbrev JSString := List Char

/-! ## `CNPJApi.validateCNPJ` (cnpj.js, lines 283-312) -/

/-- The code units that `Number` skips as white space (`StrWhiteSpaceChar`):
a string made of one of them converts to `0`. -/
def isStrWhiteSpace (c : Char) : Bool :=
  let n := c.toNat
  n = 0x09 || n = 0x0A || n = 0x0B || n = 0x0C || n = 0x0D || n = 0x20 ||
  n = 0xA0 || n = 0x1680 || (0x2000 ≤ n && n ≤ 0x200A) || n = 0x2028 ||
  n = 0x2029 || n = 0x202F || n = 0x205F || n = 0x3000 || n = 0xFEFF

/-- The regular-expression class `\d`: the ten ASCII digits. -/
def isDigitChar (c : Char) : Bool := 48 ≤ c.toNat && c.toNat ≤ 57

/-- `Number(ch)` for a string of one code unit, as `cnpj.split('').map(Number)`
applies it: a digit gives its value, white space gives `0`, anything else
gives `NaN`. -/
def toNumber (c : Char) : Option Nat :=
  if isDigitChar c then some (c.toNat - 48)
  else if isStrWhiteSpace c then some 0
  else none

/-- The test `/^(\d)\1+$/`: a digit followed by one or more copies of itself,
up to the end of the string. -/
def repeatedDigit : JSString → Bool
  | [] => false
  | c :: rest => isDigitChar c && !rest.isEmpty && rest.all (fun d => d == c)

/-- Addition of numbers, `NaN` absorbing. -/
def numAdd : Option Nat → Option Nat → Option Nat
  | some a, some b => some (a + b)
  | _, _ => none

/-- Multiplication of numbers, `NaN` absorbing. -/
def numMul : Option Nat → Option Nat → Option Nat
  | some a, some b => some (a * b)
  | _, _ => none

/-- Strict equality `===` on numbers: `NaN` equals nothing. -/
def strictEq : Option Nat → Option Nat → Bool
  | some a, some b => a == b
  | _, _ => false

/-- One turn of the body of either `for` loop of `validateCNPJ`:
`sum += digits[i] * weight; weight = weight === 2 ? 9 : weight - 1`. -/
def weightStep (digits : List (Option Nat)) (acc : Option Nat × Nat) (i : Nat) :
    Option Nat × Nat :=
  (numAdd acc.1 (numMul (digits.getD i none) (some acc.2)),
   if acc.2 = 2 then 9 else acc.2 - 1)

/-- The loop `for (let i = 0; i < n; i++)` started with `sum = 0` and the given
first weight; the result is the final `sum`. -/
def weightedLoop (digits : List (Option Nat)) (n weight : Nat) : Option Nat :=
  ((List.range n).foldl (weightStep digits) (some 0, weight)).1

/-- The expression `sum % 11 < 2 ? 0 : 11 - (sum % 11)`; on `NaN` the comparison
is false and the subtraction gives `NaN`. -/
def checkOf : Option Nat → Option Nat
  | some s => some (if s % 11 < 2 then 0 else 11 - s % 11)
  | none => none

/-- The method `validateCNPJ(cnpj)` of `CNPJApi`. -/
def validateCNPJ (cnpj : JSString) : Bool :=
  if cnpj.isEmpty || cnpj.length != 14 then false
  else if repeatedDigit cnpj then false
  else
    let digits := cnpj.map toNumber
    let firstCheck := checkOf (weightedLoop digits 12 5)
    if !strictEq (digits.getD 12 none) firstCheck then false
    else
      let secondCheck := checkOf (weightedLoop digits 13 6)
      strictEq (digits.getD 13 none) secondCheck

/-! ### The check-digit rule in the words of the design document -/

/-- Weights of the first check digit. -/
def w1 : List Nat := [5, 4, 3, 2, 9, 8, 7, 6, 5, 4, 3, 2]

/-- Weights of the second check digit. -/
def w2 : List Nat := [6, 5, 4, 3, 2, 9, 8, 7, 6, 5, 4, 3, 2]

/-- The decimal value of a digit character. -/
def digitValue (c : Char) : Nat := c.toNat - 48

/-- The sum of `digit[i] * w[i]` over the length of the weight list. -/
def weightedSum (s : JSString) (w : List Nat) : Nat :=
  (List.zipWith (fun c k => digitValue c * k) s w).sum

/-- The check digit of a weighted sum: `0` when `S mod 11 < 2`, else
`11 - S mod 11`. -/
def specCheckDigit (S : Nat) : Nat := if S % 11 < 2 then 0 else 11 - S % 11

/-- The acceptance condition of the specification on a string of 14 digits. -/
def SpecValid (s : JSString) : Prop :=
  (¬ ∃ c, s = List.replicate 14 c) ∧
  digitValue (s.getD 12 '0') = specCheckDigit (weightedSum s w1) ∧
  digitValue (s.getD 13 '0') = specCheckDigit (weightedSum s w2)

/-! ## `RateLimiter` (ai.js, lines 512-528) -/

/-- The class `RateLimiter`: `maxRequests`, `windowMs` and the recorded
timestamps `requests`, oldest first. -/
structure RateLimiter where
  maxRequests : Int
  windowMs : Int
  requests : List Int

/-- The constructor: `new RateLimiter({ requests, window })`. -/
def RateLimiter.create (requests window : Int) : RateLimiter :=
  { maxRequests := requests, windowMs := window, requests := [] }

/-- The method `canMakeRequest()`, with `now` the value of `Date.now()`: the
timestamps are filtered by `now - time < windowMs`, the filtered list is stored
back, and the answer is `requests.length < maxRequests`. -/
def RateLimiter.canMakeRequest (r : RateLimiter) (now : Int) : RateLimiter × Bool :=
  let kept := r.requests.filter (fun time => decide (now - time < r.windowMs))
  ({ r with requests := kept }, decide ((kept.length : Int) < r.maxRequests))

/-- The method `recordRequest()`: `requests.push(Date.now())`. -/
def RateLimiter.recordRequest (r : RateLimiter) (now : Int) : RateLimiter :=
  { r with requests := r.requests ++ [now] }

/-! ## JavaScript values, errors and the network -/

/-- A thrown error object, by its `name` and `message`. -/
structure JsError where
  name : JSString
  message : JSString

/-- The expression `new Error(message)`. -/
def mkError (message : JSString) : JsError :=
  { name := "Error".toList, message := message }

/-- A value read from a response body by `response.json()`, or `undefined`
(what reading an absent property gives). Numbers are exact rationals. -/
inductive Json where
  | undefined
  | null
  | bool (b : Bool)
  | num (n : ℚ)
  | str (s : JSString)
  | arr (items : List Json)
  | obj (fields : List (JSString × Json))

/-- Truthiness of a value, as `if (v)`, `!v` and `a || b` test it. -/
def Json.truthy : Json → Bool
  | .undefined => false
  | .null => false
  | .bool b => b
  | .num n => decide (n ≠ 0)
  | .str s => !s.isEmpty
  | .arr _ => true
  | .obj _ => true

/-- The property read `data.key` on a value other than `null` and `undefined`,
for the keys `status`, `erro` and `message`: objects are looked up, every other
value has no such property. -/
def Json.getField (data : Json) (key : JSString) : Json :=
  match data with
  | .obj fields => (fields.lookup key).getD .undefined
  | _ => .undefined

/-- The expression `a || b`. -/
def Json.orElse (a b : Json) : Json := if a.truthy then a else b

/-- The comparison `v === 'text'` against a string literal. -/
def Json.isString (v : Json) (text : JSString) : Bool :=
  match v with
  | .str s => s == text
  | _ => false

/-- What the JavaScript engine fixes and the source does not: the text
`String(v)` of a value that is not a string, and the message of the `TypeError`
raised by reading a property of `null`. -/
structure Engine where
  display : Json → JSString
  nullPropertyMessage : JSString

/-- The conversion `String(v)` that `new Error(v)` applies to its argument. -/
def Engine.toStr (engine : Engine) : Json → JSString
  | .str s => s
  | v => engine.display v

/-- A response of `fetch`: its status line and what `await response.json()`
gives (a value, or the error it rejects with). -/
structure FetchResponse where
  status : Nat
  statusText : JSString
  json : Except JsError Json

/-- The property `response.ok`: the status is in the range 200-299. -/
def FetchResponse.ok (response : FetchResponse) : Bool :=
  decide (200 ≤ response.status) && decide (response.status ≤ 299)

/-- The outcome of awaiting `fetch(url, ...)`: the promise rejects (network
failure, abort on timeout) or resolves to a response. -/
inductive FetchOutcome where
  | rejected (e : JsError)
  | resolved (response : FetchResponse)

/-! ## `CacheManager` -/

/-- Modelled from the spec: `CacheManager`, the TTL key/value store of every
client, whose class is not among the sources. An entry is
`{key, value, expiresAt}`. -/
structure CacheEntry (ρ : Type) where
  key : JSString
  value : ρ
  expiresAt : Int

/-- Modelled from the spec: the content of a `CacheManager`, newest entry
first. -/
abbrev Cache (ρ : Type) := List (CacheEntry ρ)

/-- Modelled from the spec: `CacheManager.get(key)` at clock value `now`; an
expired entry is never returned, the lookup acts as if it were absent. -/
def Cache.get {ρ : Type} (cache : Cache ρ) (key : JSString) (now : Int) : Option ρ :=
  match cache.find? (fun e => e.key == key) with
  | some e => if now < e.expiresAt then some e.value else none
  | none => none

/-- Modelled from the spec: `CacheManager.set(key, value, ttl)` at clock value
`now`; the entry expires once `ttl` has elapsed. -/
def Cache.set {ρ : Type} (cache : Cache ρ) (key : JSString) (value : ρ) (ttl now : Int) :
    Cache ρ :=
  { key := key, value := value, expiresAt := now + ttl } ::
    cache.filter (fun e => !(e.key == key))

/-- The constant `CACHE_CONFIG.company` (api-keys.js): 24 hours. -/
def CACHE_CONFIG_company : Int := 86400000

/-! ## `CNPJApi.getCompanyData` and `CNPJApi.queryAPI` (cnpj.js, lines 9-94) -/

/-- What surrounds one call of `getCompanyData`: the engine, the answer of the
network to each URL, the method `processCompanyData` (which returns the
normalised record or throws), and the values of `Date.now()` at the cache
lookup, at the limiter check, at the cache write and at `recordRequest`. -/
structure Env (ρ : Type) where
  engine : Engine
  net : JSString → FetchOutcome
  processCompanyData : Json → Except JsError ρ
  tGet : Int
  tCheck : Int
  tSet : Int
  tRecord : Int

/-- The `try` block of `queryAPI(baseUrl, cnpj)`. -/
def queryAPITry {ρ : Type} (env : Env ρ) (baseUrl cnpj : JSString) : Except JsError Json :=
  let url := baseUrl ++ cnpj
  match env.net url with
  | .rejected e => .error e
  | .resolved response =>
    if !response.ok then
      if response.status = 429 then
        .error (mkError "Limite de requisições atingido".toList)
      else if response.status = 404 then
        .error (mkError "CNPJ não encontrado".toList)
      else
        .error (mkError ("HTTP ".toList ++ (Nat.repr response.status).toList ++
          ": ".toList ++ response.statusText))
    else
      match response.json with
      | .error e => .error e
      | .ok .null =>
        .error { name := "TypeError".toList, message := env.engine.nullPropertyMessage }
      | .ok data =>
        if (data.getField "status".toList).isString "ERROR".toList ||
            (data.getField "erro".toList).truthy then
          .error (mkError (env.engine.toStr
            ((data.getField "message".toList).orElse
              ((data.getField "erro".toList).orElse (.str "Erro na consulta".toList)))))
        else .ok data

/-- The method `queryAPI(baseUrl, cnpj)`: the `try` block, and the `catch` that
turns an `AbortError` into the timeout error and rethrows anything else. -/
def queryAPI {ρ : Type} (env : Env ρ) (baseUrl cnpj : JSString) : Except JsError Json :=
  match queryAPITry env baseUrl cnpj with
  | .error e =>
    if e.name == "AbortError".toList then
      .error (mkError "Timeout na consulta do CNPJ".toList)
    else .error e
  | .ok data => .ok data

/-- The fields of a `CNPJApi` object that `getCompanyData` uses. -/
structure CNPJApi (ρ : Type) where
  apis : List JSString
  rateLimiter : RateLimiter
  cache : Cache ρ

/-- An effect of `getCompanyData` on its surroundings: a lookup in the cache,
a call of `canMakeRequest()` on the limiter, a request sent to a URL, a write
to the cache, a call of `recordRequest()`. -/
inductive RegistryEffect where
  | cacheGet (key : JSString)
  | limiterCheck
  | fetch (url : JSString)
  | cacheSet (key : JSString)
  | record

/-- The outcome of one call of `getCompanyData`: the value returned or the
error thrown, the object afterwards, and the effects in order. -/
structure Run (ρ : Type) where
  result : Except JsError ρ
  api : CNPJApi ρ
  effects : List RegistryEffect

/-- The URL of a request, among the effects. -/
def RegistryEffect.url : RegistryEffect → Option JSString
  | .fetch url => some url
  | _ => none

/-- The URLs fetched from the registry providers, in order. -/
def Run.queried {ρ : Type} (run : Run ρ) : List JSString :=
  run.effects.filterMap RegistryEffect.url

/-- The text `lastError?.message || 'APIs indisponíveis'`. -/
def lastErrorText (lastError : Option JsError) : JSString :=
  match lastError with
  | some e => if e.message.isEmpty then "APIs indisponíveis".toList else e.message
  | none => "APIs indisponíveis".toList

/-- The loop `for (const apiUrl of this.apis)` of `getCompanyData` over the
remaining URLs, with the current `lastError` and the effects so far, and the
final `throw` after it. -/
def providerLoop {ρ : Type} (env : Env ρ) (api : CNPJApi ρ) (cleanCNPJ cacheKey : JSString) :
    List JSString → Option JsError → List RegistryEffect → Run ρ
  | [], lastError, effects =>
    { result := .error (mkError
        ("Não foi possível obter dados do CNPJ: ".toList ++ lastErrorText lastError)),
      api := api, effects := effects }
  | apiUrl :: rest, lastError, effects =>
    match queryAPI env apiUrl cleanCNPJ with
    | .error error =>
      providerLoop env api cleanCNPJ cacheKey rest (some error)
        (effects ++ [.fetch (apiUrl ++ cleanCNPJ)])
    | .ok data =>
      if data.truthy && !(data.getField "erro".toList).truthy then
        match env.processCompanyData data with
        | .error error =>
          providerLoop env api cleanCNPJ cacheKey rest (some error)
            (effects ++ [.fetch (apiUrl ++ cleanCNPJ)])
        | .ok processedData =>
          { result := .ok processedData,
            api := { api with
              cache := api.cache.set cacheKey processedData CACHE_CONFIG_company env.tSet,
              rateLimiter := api.rateLimiter.recordRequest env.tRecord },
            effects := effects ++
              [.fetch (apiUrl ++ cleanCNPJ), .cacheSet cacheKey, .record] }
      else
        providerLoop env api cleanCNPJ cacheKey rest lastError
          (effects ++ [.fetch (apiUrl ++ cleanCNPJ)])

/-- The replacement `cnpj.replace(/\D/g, '')`: the digits of the string. -/
def cleanDigits (cnpj : JSString) : JSString := cnpj.filter isDigitChar

/-- The method `getCompanyData(cnpj)` of `CNPJApi`. -/
def getCompanyData {ρ : Type} (env : Env ρ) (api : CNPJApi ρ) (cnpj : JSString) : Run ρ :=
  let cleanCNPJ := cleanDigits cnpj
  if !validateCNPJ cleanCNPJ then
    { result := .error (mkError "CNPJ inválido".toList), api := api, effects := [] }
  else
    let cacheKey := "cnpj_".toList ++ cleanCNPJ
    match api.cache.get cacheKey env.tGet with
    | some cached => { result := .ok cached, api := api, effects := [.cacheGet cacheKey] }
    | none =>
      let checked := api.rateLimiter.canMakeRequest env.tCheck
      let api1 := { api with rateLimiter := checked.1 }
      if !checked.2 then
        { result := .error
            (mkError "Limite de consultas excedido. Aguarde alguns minutos.".toList),
          api := api1, effects := [.cacheGet cacheKey, .limiterCheck] }
      else
        providerLoop env api1 cleanCNPJ cacheKey api.apis none
          [.cacheGet cacheKey, .limiterCheck]

/-! ## `MLCategorization.calculateScore` and `rankSuggestions`
(ml-categorization.js, lines 260-288) -/

/-- The values of the field `source` that the engine writes and that the table
`sourceBoosts` lists. -/
inductive Source where
  | ml_prediction
  | menu_analysis
  | business_type
  | ai_suggestion

/-- A product suggestion. The numeric fields are exact rationals; `none` is an
absent (`undefined`) field. -/
structure Suggestion where
  code : JSString
  priority : Option ℚ
  reason : JSString
  confidence : Option ℚ
  source : Source

/-- The expression `x || d` on a numeric field: an absent field and the number
`0` are falsy and give the default `d`. -/
def orDefault (x : Option ℚ) (d : ℚ) : ℚ :=
  match x with
  | some v => if v = 0 then d else v
  | none => d

/-- The table `sourceBoosts` of `calculateScore`. -/
def sourceBoosts : Source → ℚ
  | .ml_prediction => 1.2
  | .menu_analysis => 1.1
  | .business_type => 1.0
  | .ai_suggestion => 1.3

/-- The method `calculateScore(suggestion)`. -/
def calculateScore (suggestion : Suggestion) : ℚ :=
  let score := orDefault suggestion.priority 5
  let score := score * orDefault suggestion.confidence 0.5
  let score := score * orDefault (some (sourceBoosts suggestion.source)) 1.0
  score

/-- The object `{ ...s, score }`: a suggestion with its score. -/
structure ScoredSuggestion extends Suggestion where
  score : ℚ

/-- The callback of `map` in `rankSuggestions`. -/
def withScore (s : Suggestion) : ScoredSuggestion :=
  { toSuggestion := s, score := calculateScore s }

/-- The comparator `(a, b) => b.score - a.score` as an order: `a` may stay in
front of `b` when the comparator is not positive. -/
def scoreOrder (a b : ScoredSuggestion) : Bool := decide (b.score - a.score ≤ 0)

/-- The method `rankSuggestions(suggestions)`: `map`, the stable
`Array.prototype.sort` with the comparator, and `slice(0, 12)`. -/
def rankSuggestions (suggestions : List Suggestion) : List ScoredSuggestion :=
  ((suggestions.map withScore).mergeSort scoreOrder).take 12

/-- The weight of a source in the words of the design document:
AI_SUGGESTION 1.3, ML_PREDICTION 1.2, MENU_ANALYSIS 1.1, BUSINESS_TYPE 1.0. -/
def sourceWeight : Source → ℚ
  | .ai_suggestion => 13 / 10
  | .ml_prediction => 12 / 10
  | .menu_analysis => 11 / 10
  | .business_type => 1

/-! ## `extractMenuItems` (data-processor.js, lines 113-148) -/

/-- A regular expression of the shape the three menu patterns have: a class of
one code unit, a greedy repetition `p{min,}` of a class, a sequence, a greedy
optional part `(?:a)?`, and a capturing group with its number. -/
inductive Re where
  | cls (p : Char → Bool)
  | many (p : Char → Bool) (min : Nat)
  | seq (a b : Re)
  | opt (a : Re)
  | cap (i : Nat) (a : Re)

/-- The captures of a match: group number and captured text. -/
abbrev Caps := List (Nat × JSString)

/-- The greedy repetition `p{min,}` by backtracking: the longest run is tried
first, and one code unit is given back at a time while the continuation `k`
fails. -/
def manyRun {α : Type} (p : Char → Bool) (k : JSString → Option α) :
    Nat → JSString → Option α
  | min, [] => if min = 0 then k [] else none
  | min, c :: s =>
    if p c then
      match manyRun p k (min - 1) s with
      | some r => some r
      | none => if min = 0 then k (c :: s) else none
    else if min = 0 then k (c :: s) else none

/-- The backtracking matcher: `run re s caps k` matches `re` at the head of `s`
and hands the rest of the input and the captures to the continuation `k`; the
alternatives are tried in the order of the ECMAScript semantics. -/
def Re.run {α : Type} : Re → JSString → Caps → (JSString → Caps → Option α) → Option α
  | .cls _, [], _, _ => none
  | .cls p, c :: s, caps, k => if p c then k s caps else none
  | .many p min, s, caps, k => manyRun p (fun rest => k rest caps) min s
  | .seq a b, s, caps, k => a.run s caps (fun s1 caps1 => b.run s1 caps1 k)
  | .opt a, s, caps, k =>
    match a.run s caps k with
    | some r => some r
    | none => k s caps
  | .cap i a, s, caps, k =>
    a.run s caps (fun s1 caps1 => k s1 ((i, s.take (s.length - s1.length)) :: caps1))

/-- One match: the matched text `match[0]` and the captures. -/
structure Match where
  text : JSString
  caps : Caps

/-- The capture `match[i]`, `none` when the group did not take part. -/
def Match.group (m : Match) (i : Nat) : Option JSString := m.caps.lookup i

/-- An attempt to match at the head of `s`. -/
def Re.matchAt (re : Re) (s : JSString) : Option Match :=
  re.run s [] (fun rest caps => some { text := s.take (s.length - rest.length), caps := caps })

/-- The loop `while ((match = pattern.exec(text)) !== null)` of a pattern with
the flag `g`: `exec` finds the leftmost match at or after `lastIndex`, and
`lastIndex` moves to the end of the match. `skip` counts the positions that
remain before `lastIndex`. (A match of one of the menu patterns is never
empty: `matchAt_nonempty`.) -/
def Re.execAll (re : Re) : JSString → Nat → List Match
  | [], _ => []
  | _ :: s, skip + 1 => re.execAll s skip
  | c :: s, 0 =>
    match re.matchAt (c :: s) with
    | some m => m :: re.execAll s (m.text.length - 1)
    | none => re.execAll s 0

/-- The class `[A-ZÁÉÍÓÚÀÂÊÔÃÕÇ]` under the flag `i`: the letters listed and
their lower-case forms. -/
def isNameStart (c : Char) : Bool :=
  let n := c.toNat
  (65 ≤ n && n ≤ 90) || (97 ≤ n && n ≤ 122) ||
  "ÁÉÍÓÚÀÂÊÔÃÕÇáéíóúàâêôãõç".toList.contains c

/-- The class `[^R$\n]` under the flag `i`: neither `R`, `r`, `$` nor a line
feed. -/
def isNotRDollar (c : Char) : Bool := !(c == 'R' || c == 'r' || c == '$' || c == '\n')

/-- The class `[^\-\n]`: neither a hyphen nor a line feed. -/
def isNotHyphen (c : Char) : Bool := !(c == '-' || c == '\n')

/-- The literal `R` under the flag `i`. -/
def isLetterR (c : Char) : Bool := c == 'R' || c == 'r'

/-- A literal code unit that has no other case. -/
def lit (a : Char) : Re := .cls (fun c => c == a)

/-- The sequence of a list of expressions. -/
def seqs : List Re → Re
  | [] => .many (fun _ => false) 0
  | [a] => a
  | a :: rest => .seq a (seqs rest)

/-- The price `\d+(?:,\d{2})?`. -/
def rePrice : Re :=
  .seq (.many isDigitChar 1) (.opt (seqs [lit ',', .cls isDigitChar, .cls isDigitChar]))

/-- The marker `\s*R\$\s*`. -/
def reCurrency : Re :=
  seqs [.many isStrWhiteSpace 0, .cls isLetterR, lit '$', .many isStrWhiteSpace 0]

/-- The first pattern,
`/([A-ZÁÉÍÓÚÀÂÊÔÃÕÇ][^R$\n]{10,})\s*R\$\s*(\d+(?:,\d{2})?)/gi`. -/
def pattern1 : Re :=
  seqs [.cap 1 (.seq (.cls isNameStart) (.many isNotRDollar 10)), reCurrency, .cap 2 rePrice]

/-- The second pattern,
`/([A-ZÁÉÍÓÚÀÂÊÔÃÕÇ][^\-\n]{3,})\s*-\s*([^\-\n]{10,})\s*-\s*R\$\s*(\d+(?:,\d{2})?)/gi`. -/
def pattern2 : Re :=
  seqs [.cap 1 (.seq (.cls isNameStart) (.many isNotHyphen 3)),
    .many isStrWhiteSpace 0, lit '-', .many isStrWhiteSpace 0,
    .cap 2 (.many isNotHyphen 10),
    .many isStrWhiteSpace 0, lit '-', reCurrency, .cap 3 rePrice]

/-- The third pattern,
`/\d+\.\s*([A-ZÁÉÍÓÚÀÂÊÔÃÕÇ][^R$\n]{10,})\s*R\$\s*(\d+(?:,\d{2})?)/gi`. -/
def pattern3 : Re :=
  seqs [.many isDigitChar 1, lit '.', .many isStrWhiteSpace 0,
    .cap 1 (.seq (.cls isNameStart) (.many isNotRDollar 10)), reCurrency, .cap 2 rePrice]

/-- A JavaScript number as `parseFloat` gives it: `NaN`, an infinity, or a
finite value, taken as the exact rational the decimal text denotes. -/
inductive JsNum where
  | nan
  | posInf
  | negInf
  | fin (q : ℚ)

/-- The comparison `x > 0`. -/
def JsNum.isPositive : JsNum → Bool
  | .fin q => decide (0 < q)
  | .posInf => true
  | _ => false

/-- The number written by a string of decimal digits. -/
def digitsValue (ds : JSString) : Nat := ds.foldl (fun acc c => acc * 10 + digitValue c) 0

/-- An optional sign in front of a numeral: whether it is `-`, and the rest. -/
def splitSign : JSString → Bool × JSString
  | '+' :: r => (false, r)
  | '-' :: r => (true, r)
  | s => (false, s)

/-- The exponent part read by `parseFloat` at the head of `s`: `e` or `E`, an
optional sign and at least one digit; `0` when there is none. -/
def exponentOf : JSString → Int
  | [] => 0
  | e :: r =>
    if e == 'e' || e == 'E' then
      let signed := splitSign r
      let ed := signed.2.takeWhile isDigitChar
      if ed.isEmpty then 0
      else if signed.1 then -(digitsValue ed : Int) else (digitsValue ed : Int)
    else 0

/-- The built-in `parseFloat(s)`: leading white space is skipped and the longest
prefix that is a decimal literal is read; `NaN` when there is none. -/
def parseFloat (s : JSString) : JsNum :=
  let signed := splitSign (s.dropWhile isStrWhiteSpace)
  let r := signed.2
  if "Infinity".toList.isPrefixOf r then (if signed.1 then .negInf else .posInf)
  else
    let intDigits := r.takeWhile isDigitChar
    let r2 := r.dropWhile isDigitChar
    let frac : JSString × JSString :=
      match r2 with
      | '.' :: r3 =>
        if intDigits.isEmpty && (r3.takeWhile isDigitChar).isEmpty then ([], r2)
        else (r3.takeWhile isDigitChar, r3.dropWhile isDigitChar)
      | _ => ([], r2)
    if intDigits.isEmpty && frac.1.isEmpty then .nan
    else
      let mantissa : ℚ := digitsValue intDigits + digitsValue frac.1 / 10 ^ frac.1.length
      let v : ℚ := mantissa * 10 ^ exponentOf frac.2
      .fin (if signed.1 then -v else v)

/-- The call `s.replace(',', '.')`: the first comma becomes a point. -/
def replaceComma : JSString → JSString
  | [] => []
  | c :: s => if c == ',' then '.' :: s else c :: replaceComma s

/-- The method `trim()`. -/
def trim (s : JSString) : JSString :=
  ((s.dropWhile isStrWhiteSpace).reverse.dropWhile isStrWhiteSpace).reverse

/-- An entry of `items`. -/
structure MenuItem where
  name : JSString
  price : JsNum
  description : JSString
  rawText : JSString

/-- The object `item` built from a match in the body of the `while` loop. -/
def itemOfMatch (m : Match) : MenuItem :=
  { name := trim ((m.group 1).getD []),
    price := parseFloat (replaceComma ((m.group 2).getD [])),
    description :=
      match m.group 3 with
      | some d => if d.isEmpty then [] else trim d
      | none => [],
    rawText := m.text }

/-- The test `item.name.length > 3 && item.price > 0`. -/
def acceptItem (item : MenuItem) : Bool :=
  decide (3 < item.name.length) && item.price.isPositive

/-- The array `patterns`. -/
def patterns : List Re := [pattern1, pattern2, pattern3]

/-- The array `items` after `patterns.forEach`. -/
def collectItems (text : JSString) : List MenuItem :=
  patterns.flatMap (fun pattern =>
    ((pattern.execAll text 0).map itemOfMatch).filter acceptItem)

/-- The filter that removes duplicates: an item stays when its index is the
first index of an item with the same lower-case name. `toLowerCase` is the
built-in `String.prototype.toLowerCase`. -/
def uniqueByName (toLowerCase : JSString → JSString) (items : List MenuItem) :
    List MenuItem :=
  (items.enum.filter (fun p =>
    items.findIdx (fun i => toLowerCase i.name == toLowerCase p.2.name) == p.1)).map
    Prod.snd

/-- The function `extractMenuItems(text)`. -/
def extractMenuItems (toLowerCase : JSString → JSString) (text : JSString) :
    List MenuItem :=
  uniqueByName toLowerCase (collectItems text)

/-- The menu text of the design document's round-trip property. -/
def menuSample : JSString :=
  "Pizza Margherita R$ 35,00\nPizza Calabresa R$ 38,50".toList

/-! ## `AIApi` (ai.js, lines 1-212 and 500-508) -/

/-- The object `formData.company`. -/
structure Company where
  name : Option JSString
  activity : Option JSString

/-- The argument `formData`: each text field is a string or absent; `menuFile`
is an uploaded file, of which only the presence is read. -/
structure FormData where
  cnpj : Option JSString
  company : Option Company
  instagram : Option JSString
  facebook : Option JSString
  website : Option JSString
  menuText : Option JSString
  menuFile : Bool

/-- Truthiness of a text field: present and not empty. -/
def strTruthy : Option JSString → Bool
  | some s => !s.isEmpty
  | none => false

/-- The expression `field || 'default'` on a text field. -/
def strOr (field : Option JSString) (dflt : JSString) : JSString :=
  match field with
  | some s => if s.isEmpty then dflt else s
  | none => dflt

/-- The expression `formData.company?.name`. -/
def companyName (formData : FormData) : Option JSString :=
  match formData.company with
  | some c => c.name
  | none => none

/-- The expression `formData.company?.activity`. -/
def companyActivity (formData : FormData) : Option JSString :=
  match formData.company with
  | some c => c.activity
  | none => none

/-- The method `includes` of strings: `sub` occurs in `s`. -/
def includes : JSString → JSString → Bool
  | [], sub => sub.isEmpty
  | c :: s, sub => sub.isPrefixOf (c :: s) || includes s sub

/-- The first definition of `identifyBusinessType` in the class body (lines
114-124), which the second definition replaces. `toLowerCase` is the built-in
`String.prototype.toLowerCase`. -/
def identifyBusinessType_first (toLowerCase : JSString → JSString) (formData : FormData) :
    JSString :=
  if !strTruthy (companyActivity formData) then "Comercial geral".toList
  else
    let activity := toLowerCase ((companyActivity formData).getD [])
    if includes activity "restaurante".toList then "Restaurante 🍽️".toList
    else if includes activity "padaria".toList then "Padaria 🍞".toList
    else if includes activity "lanchonete".toList then "Lanchonete 🍔".toList
    else if includes activity "pizza".toList then "Pizzaria 🍕".toList
    else if includes activity "bar".toList then "Bar/Lancheria 🍻".toList
    else "Alimentício 🍴".toList

/-- The method `identifyBusinessType` the class resolves to: the second
definition (lines 148-156). -/
def identifyBusinessType (toLowerCase : JSString → JSString) (formData : FormData) :
    JSString :=
  if !strTruthy (companyActivity formData) then "Estabelecimento comercial".toList
  else
    let activity := toLowerCase ((companyActivity formData).getD [])
    if includes activity "restaurante".toList then "Restaurante".toList
    else if includes activity "padaria".toList then "Padaria".toList
    else if includes activity "lanchonete".toList then "Lanchonete".toList
    else "Estabelecimento alimentício".toList

/-- The first definition of `generateBasicAnalysis` in the class body (lines
80-112), which the second definition replaces; `today` is
`new Date().toLocaleDateString('pt-BR')`. Its call
`this.identifyBusinessType(formData)` is the method the class resolves to. -/
def generateBasicAnalysis_first (toLowerCase : JSString → JSString) (today : JSString)
    (formData : FormData) : JSString :=
  let hasMenu := strTruthy formData.menuText || formData.menuFile
  let hasSocial := strTruthy formData.instagram || strTruthy formData.facebook
  trim (
    "\n".toList ++
    "**🔍 ANÁLISE PMG - ".toList ++
    today ++
    "**\n".toList ++
    "\n".toList ++
    "**📋 PERFIL DO CLIENTE:**\n".toList ++
    "• Empresa: ".toList ++
    strOr (companyName formData) "Prospect identificado".toList ++
    "\n".toList ++
    "• Atividade: ".toList ++
    strOr (companyActivity formData) "Estabelecimento comercial".toList ++
    "\n".toList ++
    "• CNPJ: ".toList ++
    strOr formData.cnpj "Não informado".toList ++
    "\n".toList ++
    "\n".toList ++
    "**📊 ANÁLISE INICIAL:**\n".toList ++
    "• Cardápio fornecido: ".toList ++
    (if hasMenu then "✅ Sim".toList else "❌ Não".toList) ++
    "\n".toList ++
    "• Redes sociais: ".toList ++
    (if hasSocial then "✅ Presente".toList else "⚠️ Ausente".toList) ++
    "\n".toList ++
    "• Tipo de negócio: ".toList ++
    identifyBusinessType toLowerCase formData ++
    "\n".toList ++
    "\n".toList ++
    "**🎯 RECOMENDAÇÕES PMG:**\n".toList ++
    "• Apresentar produtos de alta qualidade da linha PMG\n".toList ++
    "• Destacar nossa experiência de 30 anos no mercado\n".toList ++
    "• Propor condições comerciais competitivas\n".toList ++
    "• Agendar visita técnica para avaliação detalhada\n".toList ++
    "\n".toList ++
    "**💡 PRÓXIMOS PASSOS:**\n".toList ++
    "1. Apresentar portfólio completo PMG\n".toList ++
    "2. Fazer cotação personalizada\n".toList ++
    "3. Propor teste de produtos\n".toList ++
    "4. Definir condições de entrega\n".toList ++
    "\n".toList ++
    "*Análise gerada automaticamente pelo sistema PMG ProspecPro*\n".toList ++
    "    ".toList)

/-- The method `generateBasicAnalysis` the class resolves to: the second
definition (lines 128-146). -/
def generateBasicAnalysis (toLowerCase : JSString → JSString) (formData : FormData) :
    JSString :=
    "\n".toList ++
    "    **Análise Básica do Prospect:**\n".toList ++
    "    \n".toList ++
    "    **Perfil do Cliente:**\n".toList ++
    "    - CNPJ: ".toList ++
    strOr formData.cnpj "Não informado".toList ++
    "\n".toList ++
    "    - Tipo: ".toList ++
    identifyBusinessType toLowerCase formData ++
    "\n".toList ++
    "    \n".toList ++
    "    **Recomendações PMG:**\n".toList ++
    "    - Produtos de qualidade para estabelecimentos alimentícios\n".toList ++
    "    - Atendimento personalizado e especializado\n".toList ++
    "    - Condições competitivas no mercado atacadista\n".toList ++
    "    \n".toList ++
    "    **Estratégia Sugerida:**\n".toList ++
    "    - Apresentar portfólio completo PMG\n".toList ++
    "    - Destacar qualidade e tradição de 30 anos\n".toList ++
    "    - Propor visita técnica para avaliação de necessidades\n".toList ++
    "    ".toList

/-! ### `generateCacheKey` -/

/-- A hexadecimal digit, lower case. -/
def hexDigit (n : Nat) : Char := Char.ofNat (if n < 10 then 48 + n else 87 + n)

/-- The escape of one code unit inside a JSON string (`QuoteJSONString`). -/
def jsonEscape (c : Char) : JSString :=
  let n := c.toNat
  if n = 34 then ['\\', '"']
  else if n = 92 then ['\\', '\\']
  else if n = 8 then ['\\', 'b']
  else if n = 12 then ['\\', 'f']
  else if n = 10 then ['\\', 'n']
  else if n = 13 then ['\\', 'r']
  else if n = 9 then ['\\', 't']
  else if n < 32 then ['\\', 'u', '0', '0', hexDigit (n / 16), hexDigit (n % 16)]
  else [c]

/-- The JSON text of a string. -/
def jsonQuote (s : JSString) : JSString := '"' :: (s.flatMap jsonEscape ++ ['"'])

/-- The JSON text of a boolean. -/
def jsonBool (b : Bool) : JSString := if b then "true".toList else "false".toList

/-- The text `JSON.stringify(keyData)` for
`keyData = { cnpj, hasMenu, hasSocial }`; an absent `cnpj` is left out. -/
def stringifyKeyData (cnpj : Option JSString) (hasMenu hasSocial : Bool) : JSString :=
  ['\x7b'] ++
  (match cnpj with
   | some s => "\"cnpj\":".toList ++ jsonQuote s ++ [',']
   | none => []) ++
  "\"hasMenu\":".toList ++ jsonBool hasMenu ++
  ",\"hasSocial\":".toList ++ jsonBool hasSocial ++ ['\x7d']

/-- The alphabet of base64. -/
def base64Char (n : Nat) : Char :=
  if n < 26 then Char.ofNat (65 + n)
  else if n < 52 then Char.ofNat (97 + (n - 26))
  else if n < 62 then Char.ofNat (48 + (n - 52))
  else if n = 62 then '+'
  else '/'

/-- The base64 text of a list of bytes. -/
def base64 : List Nat → JSString
  | [] => []
  | [a] => [base64Char (a / 4), base64Char (a % 4 * 16), '=', '=']
  | [a, b] =>
    [base64Char (a / 4), base64Char (a % 4 * 16 + b / 16), base64Char (b % 16 * 4), '=']
  | a :: b :: c :: rest =>
    base64Char (a / 4) :: base64Char (a % 4 * 16 + b / 16) ::
      base64Char (b % 16 * 4 + c / 64) :: base64Char (c % 64) :: base64 rest

/-- The built-in `btoa(s)`: an `InvalidCharacterError` when a code unit is
above 255, else the base64 text of the code units. -/
def btoa (s : JSString) : Except JsError JSString :=
  if s.all (fun c => decide (c.toNat ≤ 255)) then .ok (base64 (s.map Char.toNat))
  else .error { name := "InvalidCharacterError".toList,
                message := "The string to be encoded contains characters outside of the Latin1 range.".toList }

/-- The method `generateCacheKey(formData)`:
`btoa(JSON.stringify(keyData)).slice(0, 16)`. -/
def generateCacheKey (formData : FormData) : Except JsError JSString :=
  match btoa (stringifyKeyData formData.cnpj (strTruthy formData.menuText)
      (strTruthy formData.instagram || strTruthy formData.facebook)) with
  | .ok s => .ok (s.take 16)
  | .error e => .error e

/-! ### `analyzeWithGrok` and `analyzeWithGemini` -/

/-- The object `API_CONFIG`, by the two flags `GROK.enabled` and
`GEMINI.enabled`. -/
structure ApiConfig where
  grokEnabled : Bool
  geminiEnabled : Bool

/-- The two text-generation providers. -/
inductive Provider where
  | grok
  | gemini

/-- An effect of a method of `AIApi` on its surroundings: a request sent to a
provider, a read or a write of the response cache, a request recorded in the
limiter of a provider. -/
inductive Effect where
  | fetch (provider : Provider)
  | cacheGet (key : JSString)
  | cacheSet (key : JSString) (value : Json)
  | record (provider : Provider)

/-- The fields of an `AIApi` object. -/
structure AIApi where
  grokLimiter : RateLimiter
  geminiLimiter : RateLimiter
  cache : Cache Json

/-- What surrounds one call of a method of `AIApi`: the built-in
`toLowerCase`, the message of the `TypeError` of a property read on `null` or
`undefined`, the outcome of a request to either provider, and the values of
`Date.now()` at the limiter check, the cache lookup, the cache write and
`recordRequest`. -/
structure AiEnv where
  toLowerCase : JSString → JSString
  nullPropertyMessage : JSString
  grok : FetchOutcome
  gemini : FetchOutcome
  tCheck : Int
  tGet : Int
  tSet : Int
  tRecord : Int

/-- The outcome of one call: the value returned or the error thrown, the
object and the configuration afterwards, and the effects in order. -/
structure AiRun where
  result : Except JsError Json
  api : AIApi
  config : ApiConfig
  effects : List Effect

/-- The constant `CACHE_CONFIG.ai_analysis` (api-keys.js): 2 hours. -/
def CACHE_CONFIG_ai_analysis : Int := 7200000

/-- The element read `v[0]`, after the test of `?.`. -/
def Json.first : Json → Json
  | .arr (x :: _) => x
  | .str (c :: _) => .str [c]
  | .obj fields => (fields.lookup "0".toList).getD .undefined
  | _ => .undefined

/-- The optional read `v?.key` for a key that no string, number, boolean or
array has: `undefined` on `null` and `undefined`, else the property. -/
def Json.optField (v : Json) (key : JSString) : Json := v.getField key

/-- The read `v.key` without `?.`, for such a key: a `TypeError` on `null` and
`undefined`. -/
def Json.field (message : JSString) (v : Json) (key : JSString) : Except JsError Json :=
  match v with
  | .null => .error { name := "TypeError".toList, message := message }
  | .undefined => .error { name := "TypeError".toList, message := message }
  | _ => .ok (v.getField key)

/-- The read `v[0]` without `?.`: a `TypeError` on `null` and `undefined`. -/
def Json.index0 (message : JSString) (v : Json) : Except JsError Json :=
  match v with
  | .null => .error { name := "TypeError".toList, message := message }
  | .undefined => .error { name := "TypeError".toList, message := message }
  | _ => .ok v.first

/-- The expression `data.choices?.[0]?.message?.content`. -/
def grokContent (message : JSString) (data : Json) : Except JsError Json :=
  match Json.field message data "choices".toList with
  | .error e => .error e
  | .ok choices =>
    .ok (((choices.first).optField "message".toList).optField "content".toList)

/-- The expression `data.candidates[0].content.parts[0].text`. -/
def geminiContent (message : JSString) (data : Json) : Except JsError Json := do
  let candidates ← Json.field message data "candidates".toList
  let candidate ← Json.index0 message candidates
  let content ← Json.field message candidate "content".toList
  let parts ← Json.field message content "parts".toList
  let part ← Json.index0 message parts
  Json.field message part "text".toList

/-- The test `if (cached)` on the result of `cache.get`. -/
def cachedValue (v : Option Json) : Option Json :=
  match v with
  | some x => if x.truthy then some x else none
  | none => none

/-- The `try` block of `analyzeWithGrok` up to the value of `result`: the
value, or the error that reaches the `catch`; with it the flag
`API_CONFIG.GROK.enabled` afterwards, which a status 403 clears. -/
def grokRequest (env : AiEnv) (config : ApiConfig) : Except JsError Json × ApiConfig :=
  match env.grok with
  | .rejected e => (.error e, config)
  | .resolved response =>
    if !response.ok then
      (.error (mkError ("Erro ".toList ++ (Nat.repr response.status).toList ++ ": ".toList ++
          response.statusText)),
        if response.status = 403 then { config with grokEnabled := false } else config)
    else
      match response.json with
      | .error e => (.error e, config)
      | .ok data =>
        match grokContent env.nullPropertyMessage data with
        | .error e => (.error e, config)
        | .ok result =>
          if !result.truthy then (.error (mkError "Resposta inválida da API".toList), config)
          else (.ok result, config)

/-- The method `analyzeWithGrok(formData)`. -/
def analyzeWithGrok (env : AiEnv) (config : ApiConfig) (api : AIApi) (formData : FormData) :
    AiRun :=
  let fallback : Json := .str (generateBasicAnalysis env.toLowerCase formData)
  if !config.grokEnabled then
    { result := .ok fallback, api := api, config := config, effects := [] }
  else
    let checked := api.grokLimiter.canMakeRequest env.tCheck
    let api1 := { api with grokLimiter := checked.1 }
    if !checked.2 then
      { result := .ok fallback, api := api1, config := config, effects := [] }
    else
      match generateCacheKey formData with
      | .error e => { result := .error e, api := api1, config := config, effects := [] }
      | .ok key =>
        let cacheKey := "grok_".toList ++ key
        match cachedValue (api1.cache.get cacheKey env.tGet) with
        | some cached =>
          { result := .ok cached, api := api1, config := config,
            effects := [.cacheGet cacheKey] }
        | none =>
          match grokRequest env config with
          | (.ok result, config1) =>
            { result := .ok result,
              api := { api1 with
                cache := api1.cache.set cacheKey result CACHE_CONFIG_ai_analysis env.tSet,
                grokLimiter := api1.grokLimiter.recordRequest env.tRecord },
              config := config1,
              effects := [.cacheGet cacheKey, .fetch .grok, .cacheSet cacheKey result,
                .record .grok] }
          | (.error _, config1) =>
            { result := .ok fallback, api := api1, config := config1,
              effects := [.cacheGet cacheKey, .fetch .grok] }

/-- The `try` block of `analyzeWithGemini` up to the value of `result`. -/
def geminiRequest (env : AiEnv) : Except JsError Json :=
  match env.gemini with
  | .rejected e => .error e
  | .resolved response =>
    if !response.ok then
      .error (mkError ("Erro na API Gemini: ".toList ++ response.statusText))
    else
      match response.json with
      | .error e => .error e
      | .ok data => geminiContent env.nullPropertyMessage data

/-- The method `analyzeWithGemini(formData)`. -/
def analyzeWithGemini (env : AiEnv) (config : ApiConfig) (api : AIApi) (formData : FormData) :
    AiRun :=
  let checked := api.geminiLimiter.canMakeRequest env.tCheck
  let api1 := { api with geminiLimiter := checked.1 }
  if !checked.2 then
    { result := .error (mkError "Rate limit excedido para Gemini API".toList),
      api := api1, config := config, effects := [] }
  else
    match generateCacheKey formData with
    | .error e => { result := .error e, api := api1, config := config, effects := [] }
    | .ok key =>
      let cacheKey := "gemini_".toList ++ key
      match cachedValue (api1.cache.get cacheKey env.tGet) with
      | some cached =>
        { result := .ok cached, api := api1, config := config,
          effects := [.cacheGet cacheKey] }
      | none =>
        match geminiRequest env with
        | .ok result =>
          { result := .ok result,
            api := { api1 with
              cache := api1.cache.set cacheKey result CACHE_CONFIG_ai_analysis env.tSet,
              geminiLimiter := api1.geminiLimiter.recordRequest env.tRecord },
            config := config,
            effects := [.cacheGet cacheKey, .fetch .gemini, .cacheSet cacheKey result,
              .record .gemini] }
        | .error error =>
          { result := .error error, api := api1, config := config,
            effects := [.cacheGet cacheKey, .fetch .gemini] }

/-! ## Sequences of calls on a `RateLimiter` -/

/-- A call of one of the two methods of a `RateLimiter`, with the value of
`Date.now()` in it. -/
inductive LimiterCall where
  | canMakeRequest (now : Int)
  | recordRequest (now : Int)

/-- The limiter after a sequence of calls. -/
def RateLimiter.runCalls : RateLimiter → List LimiterCall → RateLimiter
  | r, [] => r
  | r, .canMakeRequest now :: rest => (r.canMakeRequest now).1.runCalls rest
  | r, .recordRequest now :: rest => (r.recordRequest now).runCalls rest

/-- The discipline of the clients (`getCompanyData`, `analyzeWithGrok`,
`analyzeWithGemini`): `recordRequest()` is called only right after a
`canMakeRequest()` that answered true. `permitted` tells whether the call
before the sequence was such a `canMakeRequest()`. -/
def RateLimiter.guarded : RateLimiter → Bool → List LimiterCall → Bool
  | _, _, [] => true
  | r, _, .canMakeRequest now :: rest =>
    (r.canMakeRequest now).1.guarded (r.canMakeRequest now).2 rest
  | r, permitted, .recordRequest now :: rest =>
    permitted && (r.recordRequest now).guarded false rest

/-- The number of stored timestamps inside the trailing window of `now`: those
with `now - time < windowMs`. -/
def RateLimiter.inWindow (r : RateLimiter) (now : Int) : Nat :=
  r.requests.countP (fun time => decide (now - time < r.windowMs))

/-- The clock values of a sequence of calls. -/
def LimiterCall.time : LimiterCall → Int
  | .canMakeRequest now => now
  | .recordRequest now => now

/-! ## `CNPJApi.getCompanySize` (cnpj.js, lines 218-230) -/

/-- The argument of `getCompanySize`: a string, or a number, which is given by
the text its `toString()` writes. -/
inductive Capital where
  | text (s : JSString)
  | number (written : JSString)

/-- The call `capital.toString()`. -/
def Capital.toStr : Capital → JSString
  | .text s => s
  | .number written => written

/-- The comparison `value <= bound` of a number with a finite bound. -/
def JsNum.le (value : JsNum) (bound : ℚ) : Bool :=
  match value with
  | .fin v => decide (v ≤ bound)
  | .negInf => true
  | _ => false

/-- The test `isNaN(value) || value === 0`. -/
def JsNum.isNaNOrZero : JsNum → Bool
  | .nan => true
  | .fin v => decide (v = 0)
  | _ => false

/-- The method `getCompanySize(capital)`; `toLowerCase` is the built-in
`String.prototype.toLowerCase`. The replacement `/[^\d,]/g` keeps the digits
and the commas only. -/
def getCompanySize (toLowerCase : JSString → JSString) (capital : Capital) : JSString :=
  let isMei :=
    match capital with
    | .text s => includes (toLowerCase s) "mei".toList
    | .number _ => false
  if isMei then "Microempreendedor Individual".toList
  else
    let value := parseFloat
      (replaceComma (capital.toStr.filter (fun c => isDigitChar c || c == ',')))
    if value.isNaNOrZero then "Não informado".toList
    else if value.le 81000 then "Microempresa".toList
    else if value.le 300000 then "Empresa de Pequeno Porte".toList
    else if value.le 3600000 then "Empresa de Médio Porte".toList
    else "Empresa de Grande Porte".toList

/-! ## `queryGrok`, `queryGemini`, `generateSalesScript` and `analyzeMenu`
(ai.js, lines 214-285, 311-352, 442-482) -/

/-- The method `queryGrok(prompt)`: the request, the test of `response.ok`, and
`data.choices[0].message.content`. It reads no flag, no limiter and no cache.
The prompt is the body of the request, whose outcome is `env.grok`. -/
def queryGrok (env : AiEnv) : Except JsError Json :=
  match env.grok with
  | .rejected e => .error e
  | .resolved response =>
    if !response.ok then
      .error (mkError ("Grok API Error: ".toList ++ response.statusText))
    else
      match response.json with
      | .error e => .error e
      | .ok data => do
        let choices ← Json.field env.nullPropertyMessage data "choices".toList
        let choice ← Json.index0 env.nullPropertyMessage choices
        let message ← Json.field env.nullPropertyMessage choice "message".toList
        Json.field env.nullPropertyMessage message "content".toList

/-- The method `queryGemini(prompt)`: the request, the test of `response.ok`,
and `data.candidates[0].content.parts[0].text`. -/
def queryGemini (env : AiEnv) : Except JsError Json :=
  match env.gemini with
  | .rejected e => .error e
  | .resolved response =>
    if !response.ok then
      .error (mkError ("Gemini API Error: ".toList ++ response.statusText))
    else
      match response.json with
      | .error e => .error e
      | .ok data => geminiContent env.nullPropertyMessage data

/-- The code units that `.` does not match: the line terminators. -/
def isLineTerminator (c : Char) : Bool :=
  c.toNat = 0x0A || c.toNat = 0x0D || c.toNat = 0x2028 || c.toNat = 0x2029

/-- The rest of a match of `/\*\*(.*?)\*\*/` after its opening `**`: the
shortest run without a line terminator that is followed by `**`, and the number
of code units up to the end of the closing `**`. -/
def closeStrong : JSString → Option (JSString × Nat)
  | [] => none
  | c :: r =>
    if c == '*' && r.head? == some '*' then some ([], 2)
    else if isLineTerminator c then none
    else
      match closeStrong r with
      | some (inner, n) => some (c :: inner, n + 1)
      | none => none

/-- The replacement `.replace(/\*\*(.*?)\*\*/g, '<strong>$1</strong>')`; `skip`
counts the code units of the last match that are still to be passed. -/
def replaceStrong : JSString → Nat → JSString
  | [], _ => []
  | _ :: s, skip + 1 => replaceStrong s skip
  | c :: s, 0 =>
    if c == '*' && s.head? == some '*' then
      match closeStrong s.tail with
      | some (inner, n) =>
        "<strong>".toList ++ inner ++ "</strong>".toList ++ replaceStrong s (n + 1)
      | none => c :: replaceStrong s 0
    else c :: replaceStrong s 0

/-- The replacement `.replace(/\n\n/g, '</p><p>')`. -/
def replaceBlankLines : JSString → JSString
  | [] => []
  | [c] => [c]
  | c :: d :: r =>
    if c == '\n' && d == '\n' then "</p><p>".toList ++ replaceBlankLines r
    else c :: replaceBlankLines (d :: r)

/-- The replacement `.replace(/\n/g, '<br>')`. -/
def replaceLineFeeds (s : JSString) : JSString :=
  s.flatMap (fun c => if c == '\n' then "<br>".toList else [c])

/-- The method `formatSalesScript(script)` on a string. -/
def formatSalesScript (script : JSString) : JSString :=
  let formatted := replaceLineFeeds (replaceBlankLines (replaceStrong script 0))
  if !("<p>".toList.isPrefixOf formatted) then "<p>".toList ++ formatted ++ "</p>".toList
  else formatted

/-- An entry of `products`: the catalogue entry of a selected code, or the
default `{ code, name: 'Produto', price: '0,00' }`. -/
structure Product where
  name : JSString
  price : JSString

/-- The object `analysisData.company || {}` as `generateBasicScript` reads
it. -/
structure ScriptCompany where
  name : Option JSString
  address : Option JSString

/-- The item of the list of products in `generateBasicScript`. -/
def productLine (p : Product) : JSString :=
  "<li><strong>".toList ++ p.name ++ "</strong> - R$ ".toList ++ p.price ++
    " - Qualidade PMG garantida</li>".toList

/-- The method `generateBasicScript(company, products)`. -/
def generateBasicScript (company : ScriptCompany) (products : List Product) : JSString :=
    "\n".toList ++
    "            <p><strong>🎯 SCRIPT PERSONALIZADO - ".toList ++
    strOr company.name "PROSPECT".toList ++
    "</strong></p>\n".toList ++
    "            \n".toList ++
    "            <p>Olá! Meu nome é [SEU NOME], represento a PMG Atacadista, empresa com mais de 30 anos fornecendo ingredientes de qualidade para o setor alimentício.</p>\n".toList ++
    "            \n".toList ++
    "            <p><strong>📍 Localização:</strong> Vejo que vocês estão em ".toList ++
    strOr company.address "uma excelente região".toList ++
    ", área que conhecemos bem e onde temos vários clientes satisfeitos.</p>\n".toList ++
    "            \n".toList ++
    "            <p><strong>💡 Oportunidade Identificada:</strong> Analisando o perfil do seu negócio, identifiquei alguns produtos que podem otimizar seus custos e melhorar a qualidade:</p>\n".toList ++
    "            \n".toList ++
    "            <ul>\n".toList ++
    "                ".toList ++
    products.flatMap productLine ++
    "\n".toList ++
    "            </ul>\n".toList ++
    "            \n".toList ++
    "            <p><strong>🚚 Vantagens PMG:</strong></p>\n".toList ++
    "            <ul>\n".toList ++
    "                <li>✅ Entrega programada</li>\n".toList ++
    "                <li>✅ Preços competitivos no atacado</li>\n".toList ++
    "                <li>✅ 30 anos de tradição</li>\n".toList ++
    "                <li>✅ Suporte técnico especializado</li>\n".toList ++
    "            </ul>\n".toList ++
    "            \n".toList ++
    "            <p><strong>🤝 Próximo Passo:</strong> Que tal agendarmos uma visita para apresentar nossa linha completa e fazer uma cotação personalizada?</p>\n".toList ++
    "            \n".toList ++
    "            <p>Quando seria o melhor dia e horário para você?</p>\n".toList ++
    "        ".toList

/-- The outcome of `generateSalesScript` or `analyzeMenu`: the value returned
and the requests sent, in order. -/
structure ScriptRun (μ : Type) where
  result : μ
  effects : List Effect

/-- The method `generateSalesScript(analysisData, selectedProducts)`, from the
`try` on; `company` and `products` are the values computed before it. A
content that is not a string has no method `replace`, and the `TypeError` of
`formatSalesScript` reaches the `catch` as every other error does. -/
def generateSalesScript (env : AiEnv) (company : ScriptCompany) (products : List Product) :
    ScriptRun JSString :=
  match queryGrok env with
  | .ok (.str script) => { result := formatSalesScript script, effects := [.fetch .grok] }
  | _ => { result := generateBasicScript company products, effects := [.fetch .grok] }

/-- The two total helpers of `analyzeMenu`, which rest on the built-in
`JSON.parse`: `parseMenuAnalysis(aiResponse)` (it catches its own errors) and
`basicMenuAnalysis(menuContent)`. -/
structure MenuParsers (μ : Type) where
  parseMenuAnalysis : Json → μ
  basicMenuAnalysis : JSString → μ

/-- The method `analyzeMenu(menuContent)`: Gemini first, Grok when Gemini
fails, the local analysis when both fail. -/
def analyzeMenu {μ : Type} (env : AiEnv) (parsers : MenuParsers μ) (menuContent : JSString) :
    ScriptRun μ :=
  match queryGemini env with
  | .ok result => { result := parsers.parseMenuAnalysis result, effects := [.fetch .gemini] }
  | .error _ =>
    match queryGrok env with
    | .ok result =>
      { result := parsers.parseMenuAnalysis result, effects := [.fetch .gemini, .fetch .grok] }
    | .error _ =>
      { result := parsers.basicMenuAnalysis menuContent,
        effects := [.fetch .gemini, .fetch .grok] }

/-- A call of one of the operations of `AIApi` that reach a provider, with its
surroundings and arguments. -/
inductive AiCall where
  | analyzeWithGrok (env : AiEnv) (formData : FormData)
  | analyzeWithGemini (env : AiEnv) (formData : FormData)
  | analyzeMenu (env : AiEnv) (menuContent : JSString)
  | generateSalesScript (env : AiEnv) (company : ScriptCompany) (products : List Product)

/-- The flags of `API_CONFIG` and the `AIApi` object after a call. Neither
`analyzeMenu` nor `generateSalesScript` writes to them. -/
def AiCall.run (state : ApiConfig × AIApi) : AiCall → ApiConfig × AIApi
  | .analyzeWithGrok env formData =>
    ((Prospetor.analyzeWithGrok env state.1 state.2 formData).config,
     (Prospetor.analyzeWithGrok env state.1 state.2 formData).api)
  | .analyzeWithGemini env formData =>
    ((Prospetor.analyzeWithGemini env state.1 state.2 formData).config,
     (Prospetor.analyzeWithGemini env state.1 state.2 formData).api)
  | .analyzeMenu _ _ => state
  | .generateSalesScript _ _ _ => state

/-- The flags and the object after a sequence of calls. -/
def runAiCalls (state : ApiConfig × AIApi) (calls : List AiCall) : ApiConfig × AIApi :=
  calls.foldl AiCall.run state

/-! ## `SocialMediaApi` (social.js, lines 51-89, 206-261, 364-416, 450-460) -/

/-- The call `s.match(re)` for a pattern without the flag `g`: the leftmost
match. -/
def Re.search (re : Re) : JSString → Option Match
  | [] => re.matchAt []
  | c :: s =>
    match re.matchAt (c :: s) with
    | some m => some m
    | none => re.search s

/-- The class `[a-zA-Z0-9_.]`. -/
def isUsernameChar (c : Char) : Bool :=
  let n := c.toNat
  (97 ≤ n && n ≤ 122) || (65 ≤ n && n ≤ 90) || (48 ≤ n && n ≤ 57) || c == '_' || c == '.'

/-- The pattern `/(?:instagram\.com\/)?@?([a-zA-Z0-9_.]+)/`. -/
def usernamePattern : Re :=
  seqs [.opt (seqs ("instagram.com/".toList.map lit)), .opt (lit '@'),
    .cap 1 (.many isUsernameChar 1)]

/-- The method `extractUsername(instagram)`: `null` on an empty string and when
the pattern does not match, else `match[1]`. -/
def extractUsername (instagram : JSString) : Option JSString :=
  if instagram.isEmpty then none
  else
    match usernamePattern.search instagram with
    | some m => m.group 1
    | none => none

/-- The pattern `/facebook\.com\/([^/?]+)/`. -/
def pageNamePattern : Re :=
  seqs ("facebook.com/".toList.map lit ++
    [.cap 1 (.many (fun c => !(c == '/' || c == '?')) 1)])

/-- The method `extractPageNameFromUrl(url)`: `match[1].replace(/[._-]/g, ' ')`,
or `null`. -/
def extractPageNameFromUrl (url : JSString) : Option JSString :=
  match pageNamePattern.search url with
  | some m =>
    (m.group 1).map (fun s => s.map (fun c => if c == '.' || c == '_' || c == '-' then ' ' else c))
  | none => none

/-- The method `normalizeUsername(username)`:
`username.toLowerCase().replace(/[@._-]/g, '')`. -/
def normalizeUsername (toLowerCase : JSString → JSString) (username : JSString) : JSString :=
  (toLowerCase username).filter (fun c => !(c == '@' || c == '.' || c == '_' || c == '-'))

/-- The method `normalizeUrl(url)`: `url.toLowerCase().replace(/[^a-z0-9]/g, '')`. -/
def normalizeUrl (toLowerCase : JSString → JSString) (url : JSString) : JSString :=
  (toLowerCase url).filter (fun c =>
    (decide (97 ≤ c.toNat) && decide (c.toNat ≤ 122)) || isDigitChar c)

/-- The method `estimateFollowers(identifier)`, with `draw` the value of
`Math.floor(Math.random() * 2000)`: the base is 73 per code unit of the
identifier, 500 for an absent or empty one. -/
def estimateFollowers (identifier : Option JSString) (draw : Nat) : Nat :=
  let base :=
    match identifier with
    | some s => if s.isEmpty then 500 else s.length * 73
    | none => 500
  let variation := draw + 100
  min (base + variation) 50000

/-- The method `detectBusinessType(username)`. -/
def detectBusinessType (toLowerCase : JSString → JSString) (username : JSString) : JSString :=
  let name := toLowerCase username
  if includes name "pizza".toList then "Pizzaria".toList
  else if includes name "burger".toList || includes name "lanche".toList then
    "Lanchonete".toList
  else if includes name "padaria".toList || includes name "pao".toList then "Padaria".toList
  else if includes name "bar".toList || includes name "drink".toList then "Bar".toList
  else if includes name "restaurante".toList || includes name "food".toList then
    "Restaurante".toList
  else "Alimentício".toList

/-- The values drawn from `Math.random()` and the clock while a simulated
profile is built: each field is the value of the expression named in its
comment. -/
structure SocialDraws where
  /-- `Math.floor(Math.random() * 2000)` in `estimateFollowers`. -/
  followers : Nat
  /-- `Math.floor(Math.random() * 500)` of `following`. -/
  following : Nat
  /-- `Math.floor(Math.random() * 500)` in `estimatePosts`. -/
  posts : Nat
  /-- `(Math.random() * 4 + 1).toFixed(2)` in `estimateEngagement`. -/
  engagement : JSString
  /-- `Math.random() > 0.8`. -/
  verified : Bool
  /-- The text of `generateLastPostDate()`. -/
  lastPost : JSString
  /-- `Math.floor(Math.random() * 100)` of `averageLikes`. -/
  averageLikes : Nat
  /-- `Math.floor(Math.random() * 20)` of `averageComments`. -/
  averageComments : Nat
  /-- `Math.floor(Math.random() * 1000)` of `likes`. -/
  likes : Nat
  /-- `Math.floor(Math.random() * 7)` of `postsPerWeek`. -/
  postsPerWeek : Nat
  /-- `Math.floor(Math.random() * 500)` of `averageReach`. -/
  averageReach : Nat

/-- What surrounds one call of `analyzeInstagram` or `analyzeFacebook`: the
built-in `toLowerCase`, the message of the `TypeError` of a method call on
`null`, the outcome of the embed and scraping strategies for a user name or a
URL (an object, `null`, or the error thrown), the random draws, and the values
of `Date.now()` at the cache lookup and the cache write. -/
structure SocialEnv where
  toLowerCase : JSString → JSString
  nullPropertyMessage : JSString
  instagramOEmbed : JSString → Except JsError Json
  instagramScraping : JSString → Except JsError Json
  facebookAPI : JSString → Except JsError Json
  facebookScraping : JSString → Except JsError Json
  draws : SocialDraws
  tGet : Int
  tSet : Int

/-- The method `getInstagramDataSimulated(username)`. On `null` the properties
`platform`, `username` and `profileUrl` are computed and the call
`username.replace(...)` of `authorName` throws a `TypeError`. -/
def getInstagramDataSimulated (env : SocialEnv) (username : Option JSString) :
    Except JsError Json :=
  match username with
  | none => .error { name := "TypeError".toList, message := env.nullPropertyMessage }
  | some u =>
    .ok (.obj [
      ("platform".toList, .str "Instagram".toList),
      ("username".toList, .str u),
      ("profileUrl".toList, .str ("https://www.instagram.com/".toList ++ u ++ "/".toList)),
      ("authorName".toList, .str (u.map (fun c => if c == '.' || c == '_' then ' ' else c))),
      ("followers".toList, .num (estimateFollowers (some u) env.draws.followers)),
      ("following".toList, .num (env.draws.following + 100)),
      ("posts".toList, .num (env.draws.posts + 50)),
      ("engagementRate".toList, .str env.draws.engagement),
      ("contentType".toList, .str (detectBusinessType env.toLowerCase u)),
      ("isVerified".toList, .bool env.draws.verified),
      ("bio".toList, .str ("Perfil comercial de ".toList ++ u)),
      ("lastPost".toList, .str env.draws.lastPost),
      ("averageLikes".toList, .num (env.draws.averageLikes + 10)),
      ("averageComments".toList, .num (env.draws.averageComments + 2)),
      ("dataSource".toList, .str "estimated".toList),
      ("confidence".toList, .num (3 / 5))])

/-- The method `getFacebookDataSimulated(facebook)`. -/
def getFacebookDataSimulated (env : SocialEnv) (facebook : JSString) : Json :=
  let pageName := extractPageNameFromUrl facebook
  .obj [
    ("platform".toList, .str "Facebook".toList),
    ("url".toList, .str facebook),
    ("name".toList, .str (strOr pageName "Página do Facebook".toList)),
    ("about".toList, .str "Página comercial no Facebook".toList),
    ("category".toList, .str "Negócio Local".toList),
    ("followers".toList,
      .num (estimateFollowers (some (strOr pageName "facebook".toList)) env.draws.followers)),
    ("likes".toList, .num (env.draws.likes + 100)),
    ("engagementRate".toList, .str env.draws.engagement),
    ("postsPerWeek".toList, .num (env.draws.postsPerWeek + 1)),
    ("averageReach".toList, .num (env.draws.averageReach + 50)),
    ("dataSource".toList, .str "estimated".toList),
    ("confidence".toList, .num (1 / 2))]

/-- The loop `for (const strategy of strategies)`: the first strategy that
returns a truthy value decides; an error thrown by a strategy and a falsy
value move on to the next one; `none` when the loop ends, where the method
throws. -/
def firstStrategy : List (Except JsError Json) → Option Json
  | [] => none
  | .ok data :: rest => if data.truthy then some data else firstStrategy rest
  | .error _ :: rest => firstStrategy rest

/-- The outcome of `analyzeInstagram` or `analyzeFacebook`: the value the
promise resolves to or the error it rejects with, and the cache afterwards. -/
structure SocialRun where
  result : Except JsError Json
  cache : Cache Json

/-- The constant `CACHE_CONFIG.social` (api-keys.js): 1 hour. -/
def CACHE_CONFIG_social : Int := 3600000

/-- The method `analyzeInstagram(instagram)`. The `catch` of the outer `try`
returns `getInstagramDataSimulated(this.extractUsername(instagram))`, outside
any `try`. -/
def analyzeInstagram (env : SocialEnv) (cache : Cache Json) (instagram : JSString) :
    SocialRun :=
  let cacheKey := "instagram_".toList ++ normalizeUsername env.toLowerCase instagram
  match cachedValue (cache.get cacheKey env.tGet) with
  | some cached => { result := .ok cached, cache := cache }
  | none =>
    let found : Option Json :=
      match extractUsername instagram with
      | none => none
      | some username =>
        firstStrategy [env.instagramOEmbed username, env.instagramScraping username,
          getInstagramDataSimulated env (some username)]
    match found with
    | some data =>
      { result := .ok data, cache := cache.set cacheKey data CACHE_CONFIG_social env.tSet }
    | none =>
      { result := getInstagramDataSimulated env (extractUsername instagram), cache := cache }

/-- The method `analyzeFacebook(facebook)`. -/
def analyzeFacebook (env : SocialEnv) (cache : Cache Json) (facebook : JSString) :
    SocialRun :=
  let cacheKey := "facebook_".toList ++ normalizeUrl env.toLowerCase facebook
  match cachedValue (cache.get cacheKey env.tGet) with
  | some cached => { result := .ok cached, cache := cache }
  | none =>
    match firstStrategy [env.facebookAPI facebook, env.facebookScraping facebook,
        .ok (getFacebookDataSimulated env facebook)] with
    | some data =>
      { result := .ok data, cache := cache.set cacheKey data CACHE_CONFIG_social env.tSet }
    | none => { result := .ok (getFacebookDataSimulated env facebook), cache := cache }

/-! ## `CNPJApi.formatPhone` (cnpj.js, lines 183-195) -/

/-- The method `slice(start, end)` of strings for `0 ≤ start ≤ end`: the code
units from index `start` up to, not including, index `end`. -/
def slice (s : JSString) (start stop : Nat) : JSString := (s.take stop).drop start

/-- The method `formatPhone(phone)` on a string: the empty string is falsy and
gives `''`; `clean` is `phone.replace(/\D/g, '')`. -/
def formatPhone (phone : JSString) : JSString :=
  if phone.isEmpty then []
  else
    let clean := cleanDigits phone
    if clean.length = 10 then
      "(".toList ++ slice clean 0 2 ++ ") ".toList ++ slice clean 2 6 ++ "-".toList ++
        clean.drop 6
    else if clean.length = 11 then
      "(".toList ++ slice clean 0 2 ++ ") ".toList ++ slice clean 2 7 ++ "-".toList ++
        clean.drop 7
    else phone

/-! ## `PMGProspector.isValidCNPJ` (script.js, lines 384-411) -/

/-- The method `isValidCNPJ(cnpj)` of the form: the two loops and the two
comparisons of `validateCNPJ`, without the test for a repeated digit. -/
def isValidCNPJ (cnpj : JSString) : Bool :=
  if cnpj.length != 14 then false
  else
    let digits := cnpj.map toNumber
    let firstCheck := checkOf (weightedLoop digits 12 5)
    if !strictEq (digits.getD 12 none) firstCheck then false
    else
      let secondCheck := checkOf (weightedLoop digits 13 6)
      strictEq (digits.getD 13 none) secondCheck

/-! ## The random source -/

/-- The expression `Math.floor(Math.random() * n)` for the value `random` of
`Math.random()`. -/
def randomInt (random : ℚ) (n : Nat) : Nat := (⌊random * n⌋).toNat

/-! ## Consecutive calls of `getCompanyData` -/

/-- The test whether a call ended in the final `throw` of `getCompanyData`, the
one after the loop over the providers: an `Error` whose message starts with
`Não foi possível obter dados do CNPJ: `. -/
def allProvidersFailed {ρ : Type} (result : Except JsError ρ) : Bool :=
  match result with
  | .error e =>
    e.name == "Error".toList &&
      "Não foi possível obter dados do CNPJ: ".toList.isPrefixOf e.message
  | .ok _ => false

/-- Consecutive calls of `getCompanyData` on one object, each with its own
surroundings and argument: the object a call leaves is the object of the next
call. The result is the object after the last call and the runs in order. -/
def getCompanyDataCalls {ρ : Type} (api : CNPJApi ρ) :
    List (Env ρ × JSString) → CNPJApi ρ × List (Run ρ)
  | [] => (api, [])
  | call :: rest =>
    let run := getCompanyData call.1 api call.2
    let after := getCompanyDataCalls run.api rest
    (after.1, run :: after.2)

/-! ## `categorizeItems` (data-processor.js, lines 151-200) -/

/-- The keys of the object `categories` at its creation, in insertion order. -/
def categoryNames : List JSString :=
  ["pizzas".toList, "hambúrgueres".toList, "massas".toList, "carnes".toList,
   "frutos_do_mar".toList, "sobremesas".toList, "bebidas".toList, "entradas".toList,
   "outros".toList]

/-- The object `categoryKeywords`: its entries in insertion order, the order in
which `Object.entries` lists them. -/
def categoryKeywords : List (JSString × List JSString) :=
  [("pizzas".toList,
      ["pizza".toList, "margherita".toList, "calabresa".toList, "portuguesa".toList,
       "pepperoni".toList, "mozzarella".toList]),
   ("hambúrgueres".toList,
      ["hambúrguer".toList, "burger".toList, "x-bacon".toList, "x-tudo".toList,
       "cheeseburger".toList, "sanduíche".toList]),
   ("massas".toList,
      ["espaguete".toList, "lasanha".toList, "macarrão".toList, "penne".toList,
       "ravioli".toList, "nhoque".toList, "talharim".toList]),
   ("carnes".toList,
      ["bife".toList, "picanha".toList, "alcatra".toList, "frango".toList,
       "costela".toList, "file".toList, "carne".toList]),
   ("frutos_do_mar".toList,
      ["camarão".toList, "peixe".toList, "salmão".toList, "bacalhau".toList,
       "lula".toList, "polvo".toList]),
   ("sobremesas".toList,
      ["pudim".toList, "torta".toList, "sorvete".toList, "mousse".toList,
       "brigadeiro".toList, "doce".toList, "açaí".toList]),
   ("bebidas".toList,
      ["refrigerante".toList, "suco".toList, "água".toList, "cerveja".toList,
       "vinho".toList, "caipirinha".toList, "drink".toList]),
   ("entradas".toList,
      ["salada".toList, "bruschetta".toList, "antipasto".toList, "entrada".toList,
       "aperitivo".toList, "porção".toList])]

/-- The key under which the body of `items.forEach` pushes an item: the key of
the first entry of `categoryKeywords` one of whose keywords `itemName`
includes (the loop leaves at `break`), and `outros` when the loop ends with
`categorized` still false. `toLowerCase` is the built-in
`String.prototype.toLowerCase`. -/
def categoryOfItem (toLowerCase : JSString → JSString) (item : MenuItem) : JSString :=
  let itemName := toLowerCase item.name
  match categoryKeywords.find?
      (fun entry => entry.2.any (fun keyword => includes itemName keyword)) with
  | some entry => entry.1
  | none => "outros".toList

/-- The statement `categories[category].push(item)` on the object `categories`,
held as the list of its keys and arrays in insertion order. -/
def pushItem (categories : List (JSString × List MenuItem)) (category : JSString)
    (item : MenuItem) : List (JSString × List MenuItem) :=
  categories.map (fun entry =>
    if entry.1 == category then (entry.1, entry.2 ++ [item]) else entry)

/-- The function `categorizeItems(items)`: every item is pushed under its key,
then the keys whose array is empty are deleted. -/
def categorizeItems (toLowerCase : JSString → JSString) (items : List MenuItem) :
    List (JSString × List MenuItem) :=
  let categories :=
    items.foldl (fun cats item => pushItem cats (categoryOfItem toLowerCase item) item)
      (categoryNames.map (fun key => (key, [])))
  categories.filter (fun entry => entry.2.length != 0)

/-! ## `analyzePricing` (data-processor.js, lines 203-245) -/

/-- The expression `Math.round(x * 100) / 100` on an exact rational:
`Math.round` gives the nearest integer, a half going up. -/
def round2 (x : ℚ) : ℚ := (⌊x * 100 + 1 / 2⌋ : ℤ) / 100

/-- The call `Math.min(...prices)` on a non-empty array of numbers. (On the
empty array JavaScript gives `Infinity`; `analyzePricing` returns before the
call when there is no item.) -/
def mathMin : List ℚ → ℚ
  | [] => 0
  | p :: ps => ps.foldl min p

/-- The call `Math.max(...prices)` on a non-empty array of numbers. -/
def mathMax : List ℚ → ℚ
  | [] => 0
  | p :: ps => ps.foldl max p

/-- The object `ranges` of `calculatePriceDistribution`: the counters of the
bands `0-15`, `15-30`, `30-50`, `50-100` and `100+`. -/
structure PriceDistribution where
  upTo15 : Nat
  upTo30 : Nat
  upTo50 : Nat
  upTo100 : Nat
  above100 : Nat

/-- The function `calculatePriceDistribution(prices)`. -/
def calculatePriceDistribution (prices : List ℚ) : PriceDistribution :=
  prices.foldl (fun ranges price =>
    if price ≤ 15 then { ranges with upTo15 := ranges.upTo15 + 1 }
    else if price ≤ 30 then { ranges with upTo30 := ranges.upTo30 + 1 }
    else if price ≤ 50 then { ranges with upTo50 := ranges.upTo50 + 1 }
    else if price ≤ 100 then { ranges with upTo100 := ranges.upTo100 + 1 }
    else { ranges with above100 := ranges.above100 + 1 })
    { upTo15 := 0, upTo30 := 0, upTo50 := 0, upTo100 := 0, above100 := 0 }

/-- The object `analyzePricing` returns; `distribution` is absent from the
object returned for no items. -/
structure PriceAnalysis where
  min : ℚ
  max : ℚ
  average : ℚ
  median : ℚ
  distribution : Option PriceDistribution

/-- The function `analyzePricing(items)`, with `price` the read of the field
`item.price`, an exact rational. The sort with the comparator
`(a, b) => a - b` is the stable `Array.prototype.sort`. -/
def analyzePricing {ι : Type} (price : ι → ℚ) (items : List ι) : PriceAnalysis :=
  if items.length = 0 then
    { min := 0, max := 0, average := 0, median := 0, distribution := none }
  else
    let prices := (items.map price).mergeSort (fun a b => decide (a - b ≤ 0))
    let min := mathMin prices
    let max := mathMax prices
    let average := prices.foldl (fun sum price => sum + price) (0 : ℚ) / prices.length
    let median :=
      if prices.length % 2 = 0 then
        (prices.getD (prices.length / 2 - 1) 0 + prices.getD (prices.length / 2) 0) / 2
      else prices.getD (prices.length / 2) 0
    { min := round2 min, max := round2 max, average := round2 average,
      median := round2 median, distribution := some (calculatePriceDistribution prices) }

/-! ## `MLCategorization.getSuggestions` (ml-categorization.js, lines 47-109,
149-232 and 373-403) -/

/-- What the engine fixes around `getSuggestions`: the built-in `toLowerCase`
and the message of the `TypeError` raised by calling a property that is not a
function. -/
structure MlEnv where
  toLowerCase : JSString → JSString
  notFunctionMessage : JSString

/-- An entry of a rule table: `{ code, priority, reason }`, with `confidence`
in the entries of `menuRules`. -/
structure ProductRule where
  code : JSString
  priority : ℚ
  reason : JSString
  confidence : Option ℚ

/-- The table `businessRules` of `getBusinessTypeSuggestions`, its entries in
insertion order. -/
def businessRules : List (JSString × List ProductRule) :=
  [("restaurante".toList,
      [⟨"334".toList, 9, "Queijo para pratos principais".toList, none⟩,
       ⟨"5167".toList, 8, "Carne bovina de qualidade".toList, none⟩,
       ⟨"597".toList, 7, "Farinha multiuso".toList, none⟩]),
   ("lanchonete".toList,
      [⟨"5167".toList, 9, "Carne para hambúrgueres".toList, none⟩,
       ⟨"271".toList, 8, "Bacon para lanches".toList, none⟩,
       ⟨"597".toList, 7, "Farinha para pães".toList, none⟩]),
   ("pizzaria".toList,
      [⟨"597".toList, 10, "Farinha específica para pizza".toList, none⟩,
       ⟨"334".toList, 9, "Queijo mozzarella".toList, none⟩,
       ⟨"277".toList, 8, "Molho de tomate".toList, none⟩]),
   ("padaria".toList,
      [⟨"597".toList, 10, "Farinha para panificação".toList, none⟩,
       ⟨"318".toList, 9, "Fermento biológico".toList, none⟩,
       ⟨"48".toList, 7, "Banha para massa".toList, none⟩])]

/-- The method `getBusinessTypeSuggestions(activity)`: the products of the
first entry of `businessRules` whose key the lower-cased activity includes,
with `confidence: 0.8` and `source: 'business_type'`; the loop leaves at
`break`. -/
def getBusinessTypeSuggestions (env : MlEnv) (activity : JSString) : List Suggestion :=
  let activityLower := env.toLowerCase activity
  match businessRules.find? (fun entry => includes activityLower entry.1) with
  | some entry =>
    entry.2.map (fun p =>
      Suggestion.mk p.code (some p.priority) p.reason (some 0.8) .business_type)
  | none => []

/-- The table `menuRules` of `getMenuBasedSuggestions`. -/
def menuRules : List (JSString × List ProductRule) :=
  [("pizzas".toList,
      [⟨"597".toList, 10, "Farinha para pizza".toList, some 0.95⟩,
       ⟨"334".toList, 9, "Queijo mozzarella".toList, some 0.90⟩,
       ⟨"277".toList, 8, "Molho de tomate".toList, some 0.85⟩]),
   ("hambúrgueres".toList,
      [⟨"5167".toList, 9, "Carne bovina".toList, some 0.90⟩,
       ⟨"271".toList, 8, "Bacon".toList, some 0.85⟩,
       ⟨"334".toList, 7, "Queijo".toList, some 0.80⟩]),
   ("massas".toList,
      [⟨"8563".toList, 8, "Massa fresca".toList, some 0.85⟩,
       ⟨"334".toList, 7, "Queijo para massas".toList, some 0.80⟩,
       ⟨"277".toList, 6, "Molho de tomate".toList, some 0.75⟩])]

/-- The property names every object literal inherits from `Object.prototype`:
for these `menuRules[category]` is a function or an object, truthy and without
a method `map`. -/
def objectPrototypeProperties : List JSString :=
  ["constructor".toList, "__defineGetter__".toList, "__defineSetter__".toList,
   "hasOwnProperty".toList, "__lookupGetter__".toList, "__lookupSetter__".toList,
   "isPrototypeOf".toList, "propertyIsEnumerable".toList, "toString".toList,
   "valueOf".toList, "__proto__".toList, "toLocaleString".toList]

/-- The loop `categories.forEach` of `getMenuBasedSuggestions` over the
remaining categories, with the array `suggestions` so far: the rules of a key
of `menuRules` are pushed with `source: 'menu_analysis'`, an inherited property
name makes the call of `map` throw, any other name is passed over. -/
def menuSuggestionsLoop (env : MlEnv) :
    List JSString → List Suggestion → Except JsError (List Suggestion)
  | [], suggestions => .ok suggestions
  | category :: rest, suggestions =>
    match menuRules.lookup category with
    | some rules =>
      menuSuggestionsLoop env rest (suggestions ++ rules.map (fun p =>
        Suggestion.mk p.code (some p.priority) p.reason p.confidence .menu_analysis))
    | none =>
      if objectPrototypeProperties.contains category then
        .error { name := "TypeError".toList, message := env.notFunctionMessage }
      else menuSuggestionsLoop env rest suggestions

/-- The method `getMenuBasedSuggestions(categories)`. -/
def getMenuBasedSuggestions (env : MlEnv) (categories : List JSString) :
    Except JsError (List Suggestion) :=
  menuSuggestionsLoop env categories []

/-- An entry of `trainingData.productAssociations`. -/
structure ProductAssociation where
  input : JSString
  products : List JSString
  strength : ℚ

/-- The array `trainingData.productAssociations` that
`createInitialTrainingData` writes. -/
def initialProductAssociations : List ProductAssociation :=
  [⟨"pizzaria".toList, ["597".toList, "334".toList, "277".toList], 0.9⟩,
   ⟨"lanchonete".toList, ["5167".toList, "271".toList, "597".toList], 0.85⟩,
   ⟨"padaria".toList, ["597".toList, "318".toList, "319".toList], 0.9⟩,
   ⟨"restaurante".toList, ["334".toList, "5167".toList, "506".toList], 0.8⟩]

/-- The argument `analysisResults`, by the two values `getSuggestions` and
`ProductMatcher.predict` depend on: `analysisResults.company?.activity` and
`analysisResults.menu?.categories` (`none` when absent). The other fields that
`extractFeatures` reads do not reach `predict`. -/
structure AnalysisResults where
  activity : Option JSString
  categories : Option (List JSString)

/-- The method `inferBusinessType(features)` of `ProductMatcher`, with
`features.menuCategories` and `features.businessActivity`. -/
def inferBusinessType (env : MlEnv) (menuCategories : List JSString)
    (businessActivity : JSString) : JSString :=
  if menuCategories.contains "pizzas".toList then "pizzaria".toList
  else if menuCategories.contains "hambúrgueres".toList then "lanchonete".toList
  else if includes (env.toLowerCase businessActivity) "padaria".toList then "padaria".toList
  else "restaurante".toList

/-- The method `predict(features)` of `ProductMatcher` over the associations
it was built with: the entries `{ code, priority: 8, reason, confidence }`. -/
def ProductMatcher.predict (env : MlEnv) (associations : List ProductAssociation)
    (menuCategories : List JSString) (businessActivity : JSString) : List ProductRule :=
  let businessType := inferBusinessType env menuCategories businessActivity
  match associations.find? (fun a => a.input == businessType) with
  | some association =>
    association.products.map (fun code =>
      ProductRule.mk code 8 ("Produto recomendado para ".toList ++ businessType)
        (some association.strength))
  | none => []

/-- The method `predictProducts(analysisResults)`: the predictions with
`source: 'ml_prediction'` and the confidence `Math.min(p.confidence * 0.9, 0.95)`. -/
def predictProducts (env : MlEnv) (associations : List ProductAssociation)
    (analysisResults : AnalysisResults) : List Suggestion :=
  (ProductMatcher.predict env associations (analysisResults.categories.getD [])
      (analysisResults.activity.getD [])).map (fun p =>
    Suggestion.mk p.code (some p.priority) p.reason
      (p.confidence.map (fun c => min (c * 0.9) 0.95)) .ml_prediction)

/-- The method `getSuggestions(analysisResults)` of a categoriser whose
product matcher was built with `associations`. -/
def getSuggestions (env : MlEnv) (associations : List ProductAssociation)
    (analysisResults : AnalysisResults) : Except JsError (List ScoredSuggestion) :=
  let businessSuggestions :=
    if strTruthy analysisResults.activity then
      getBusinessTypeSuggestions env (analysisResults.activity.getD [])
    else []
  match (match analysisResults.categories with
         | some categories => getMenuBasedSuggestions env categories
         | none => .ok []) with
  | .error e => .error e
  | .ok menuSuggestions =>
    let mlSuggestions := predictProducts env associations analysisResults
    .ok (rankSuggestions (businessSuggestions ++ menuSuggestions ++ mlSuggestions))

/-! ## `MapsAPI` (maps.js, lines 1-82, 118-146 and 165-182) -/

/-- The object `getCoordinates` returns. -/
structure Coordinates where
  lat : JsNum
  lng : JsNum
  display_name : Json
  address_components : Json

/-- What surrounds the calls on a `MapsAPI` object: the engine; the conversion
`ToNumber` of a value that is not a number, as the comparison `> 0` applies it;
the outcome of the statement `await fetch(...)` of the geocoder for an address
(resolved, or rejected, which includes an error thrown by
`encodeURIComponent`); the outcome of the request to the postal-code service
for a cleaned postal code; the method `haversineDistance`, whose
trigonometry on floating-point numbers is not embedded; and the values of
`Date.now()` at a cache lookup and at a cache write. -/
structure MapsEnv where
  engine : Engine
  toNumber : Json → JsNum
  search : JSString → FetchOutcome
  viacep : JSString → FetchOutcome
  haversineDistance : JsNum → JsNum → JsNum → JsNum → JsNum
  tGet : Int
  tSet : Int

/-- The read `data.length`. -/
def Json.lengthOf : Json → Json
  | .arr items => .num items.length
  | .str s => .num s.length
  | .obj fields => (fields.lookup "length".toList).getD .undefined
  | _ => .undefined

/-- The comparison `v > 0`. -/
def MapsEnv.gtZero (env : MapsEnv) : Json → Bool
  | .num n => decide (0 < n)
  | v => (env.toNumber v).isPositive

/-- The method `parseAddressComponents(data)` on a value other than `null` and
`undefined`. -/
def parseAddressComponents (data : Json) : Json :=
  let address := data.getField "address".toList
  .obj [("street".toList, (address.optField "road".toList).orElse (.str [])),
        ("neighborhood".toList,
          ((address.optField "neighbourhood".toList).orElse
            (address.optField "suburb".toList)).orElse (.str [])),
        ("city".toList,
          (((address.optField "city".toList).orElse (address.optField "town".toList)).orElse
            (address.optField "municipality".toList)).orElse (.str [])),
        ("state".toList, (address.optField "state".toList).orElse (.str [])),
        ("country".toList, (address.optField "country".toList).orElse (.str "Brasil".toList)),
        ("postcode".toList, (address.optField "postcode".toList).orElse (.str []))]

/-- The `try` block of `getCoordinates(address)`, up to the value it returns
(the object `result`, or `null`) or the error it throws. -/
def getCoordinatesTry (env : MapsEnv) (address : JSString) :
    Except JsError (Option Coordinates) :=
  match env.search address with
  | .rejected e => .error e
  | .resolved response =>
    if !response.ok then .error (mkError ("Erro na API: ".toList ++ response.statusText))
    else
      match response.json with
      | .error e => .error e
      | .ok data =>
        if data.truthy && env.gtZero data.lengthOf then
          match Json.field env.engine.nullPropertyMessage data.first "lat".toList with
          | .error e => .error e
          | .ok lat =>
            .ok (some
              { lat := parseFloat (env.engine.toStr lat),
                lng := parseFloat (env.engine.toStr (data.first.getField "lon".toList)),
                display_name := data.first.getField "display_name".toList,
                address_components := parseAddressComponents data.first })
        else .ok none

/-- The pattern `/\d{5}-?\d{3}/`. -/
def cepPattern : Re :=
  seqs (List.replicate 5 (.cls isDigitChar) ++ [.opt (lit '-')] ++
    List.replicate 3 (.cls isDigitChar))

/-- The method `extractCEP(text)`: `match[0]` of the leftmost match, or `null`. -/
def extractCEP (text : JSString) : Option JSString :=
  (cepPattern.search text).map (fun m => m.text)

/-- The `try` block of `getCoordinatesByCEP(cep)` up to the constant
`fullAddress`: the canonical address built from the answer of the postal-code
service, or the error thrown. -/
def fullAddressOfCEP (env : MapsEnv) (cep : JSString) : Except JsError JSString :=
  let cleanCEP := cleanDigits cep
  match env.viacep cleanCEP with
  | .rejected e => .error e
  | .resolved response =>
    if !response.ok then .error (mkError "CEP não encontrado".toList)
    else
      match response.json with
      | .error e => .error e
      | .ok data =>
        match Json.field env.engine.nullPropertyMessage data "erro".toList with
        | .error e => .error e
        | .ok erro =>
          if erro.truthy then .error (mkError "CEP inválido".toList)
          else
            .ok (env.engine.toStr (data.getField "logradouro".toList) ++ ", ".toList ++
              env.engine.toStr (data.getField "bairro".toList) ++ ", ".toList ++
              env.engine.toStr (data.getField "localidade".toList) ++ ", ".toList ++
              env.engine.toStr (data.getField "uf".toList) ++ ", Brasil".toList)

/-- The outcome of one call of `getCoordinates`: the value returned (the
object, or `null`) or the error thrown, the cache afterwards, and the addresses
of the nested calls of `getCoordinates` it led to, in order. -/
structure GeoRun where
  result : Except JsError (Option Coordinates)
  cache : Cache Coordinates
  nested : List JSString

/-- The method `getCoordinatesByCEP(cep)`, with `recurse` the method
`getCoordinates` it calls; `none` when that call does not return. The `catch`
turns every error into `null`. -/
def getCoordinatesByCEP (env : MapsEnv)
    (recurse : Cache Coordinates → JSString → Option GeoRun) (cache : Cache Coordinates)
    (cep : JSString) : Option GeoRun :=
  match fullAddressOfCEP env cep with
  | .error _ => some { result := .ok none, cache := cache, nested := [] }
  | .ok fullAddress =>
    match recurse cache fullAddress with
    | none => none
    | some run =>
      some { result := (match run.result with
                        | .ok value => .ok value
                        | .error _ => .ok none),
             cache := run.cache, nested := fullAddress :: run.nested }

/-- The method `getCoordinates(address)` on a string. The first argument
bounds the depth of the calls of `getCoordinates` inside one another: the
result is `none` when the bound is reached before the call returns. `btoa`
is called before the `try` block, so its error leaves the method. -/
def getCoordinates (env : MapsEnv) : Nat → Cache Coordinates → JSString → Option GeoRun
  | 0, _, _ => none
  | fuel + 1, cache, address =>
    if address.isEmpty then some { result := .ok none, cache := cache, nested := [] }
    else
      match btoa address with
      | .error e => some { result := .error e, cache := cache, nested := [] }
      | .ok encoded =>
        let cacheKey := "coords_".toList ++ encoded
        match cache.get cacheKey env.tGet with
        | some cached => some { result := .ok (some cached), cache := cache, nested := [] }
        | none =>
          match getCoordinatesTry env address with
          | .ok (some result) =>
            some { result := .ok (some result),
                   cache := cache.set cacheKey result 86400000 env.tSet, nested := [] }
          | .ok none => some { result := .ok none, cache := cache, nested := [] }
          | .error _ =>
            match extractCEP address with
            | some cep =>
              getCoordinatesByCEP env (fun c a => getCoordinates env fuel c a) cache cep
            | none => some { result := .ok none, cache := cache, nested := [] }

/-- An argument of `calculateDistance`: a string (`typeof … === 'string'`), or
a value passed as it is, an object with the coordinates or a falsy value such
as `null` (`none`). -/
inductive Endpoint where
  | address (text : JSString)
  | coordinates (value : Option Coordinates)

/-- The expression
`typeof origin === 'string' ? await this.getCoordinates(origin) : origin`. -/
def resolveEndpoint (env : MapsEnv) (fuel : Nat) (cache : Cache Coordinates) :
    Endpoint → Option GeoRun
  | .address text => getCoordinates env fuel cache text
  | .coordinates value => some { result := .ok value, cache := cache, nested := [] }

/-- The object `calculateDistance` returns. -/
structure Distance where
  distance : JsNum
  unit : JSString
  origin : Coordinates
  destination : Coordinates

/-- The outcome of one call of `calculateDistance`: the value returned (the
object, or `null`) or the error thrown, and the cache afterwards. -/
structure DistanceRun where
  result : Except JsError (Option Distance)
  cache : Cache Coordinates

/-- The method `calculateDistance(origin, destination)`; `none` when a call of
`getCoordinates` does not return within the bound. The whole body is in the
`try` block, and the `catch` returns `null`: for an error of `getCoordinates`
and for the error `Não foi possível obter as coordenadas` thrown on a falsy
endpoint. -/
def calculateDistance (env : MapsEnv) (fuel : Nat) (cache : Cache Coordinates)
    (origin destination : Endpoint) : Option DistanceRun :=
  match resolveEndpoint env fuel cache origin with
  | none => none
  | some o =>
    match o.result with
    | .error _ => some { result := .ok none, cache := o.cache }
    | .ok originCoords =>
      match resolveEndpoint env fuel o.cache destination with
      | none => none
      | some d =>
        match d.result with
        | .error _ => some { result := .ok none, cache := d.cache }
        | .ok destCoords =>
          match originCoords, destCoords with
          | some oc, some dc =>
            some { result := .ok (some
                     { distance := env.haversineDistance oc.lat oc.lng dc.lat dc.lng,
                       unit := "km".toList, origin := oc, destination := dc }),
                   cache := d.cache }
          | _, _ => some { result := .ok none, cache := d.cache }

/-! ### A concrete registry, used to instantiate the statements -/

/-- An engine whose `String(v)` of a non-string is `[object Object]`. -/
def demoEngine : Engine :=
  { display := fun _ => "[object Object]".toList,
    nullPropertyMessage := "Cannot read properties of null".toList }

/-- A network in which the mirror `https://a/` answers 500 and every other URL
answers 200 with the body `{"nome": "ACME"}`; `processCompanyData` is
represented by the extraction of the name. -/
def demoEnv : Env JSString :=
  { engine := demoEngine,
    net := fun url =>
      if url == "https://a/11222333000181".toList then
        .resolved { status := 500, statusText := "Internal Server Error".toList,
                    json := .error (mkError "Unexpected token".toList) }
      else
        .resolved { status := 200, statusText := "OK".toList,
                    json := .ok (.obj [("nome".toList, .str "ACME".toList)]) },
    processCompanyData := fun data => .ok (demoEngine.toStr (data.getField "nome".toList)),
    tGet := 1000, tCheck := 1000, tSet := 1500, tRecord := 1500 }

/-- A client with two mirrors, the limiter of `RATE_LIMITS.CNPJ` and an empty
cache. -/
def demoApi : CNPJApi JSString :=
  { apis := ["https://a/".toList, "https://b/".toList],
    rateLimiter := RateLimiter.create 2 60000, cache := [] }

/-- A client whose only mirror is the failing one. -/
def demoApiDown : CNPJApi JSString :=
  { apis := ["https://a/".toList],
    rateLimiter := RateLimiter.create 2 60000, cache := [] }

/-! ### A concrete prospect and AI client -/

/-- The prospect `{ cnpj: '11222333000181', company: { name: 'Acme' } }`. -/
def acmeForm : FormData :=
  { cnpj := some "11222333000181".toList,
    company := some { name := some "Acme".toList, activity := none },
    instagram := none, facebook := none, website := none, menuText := none,
    menuFile := false }

/-- A well-formed body of the Gemini endpoint, with the candidate text
`Perfil`. -/
def geminiBody : Json :=
  .obj [("candidates".toList, .arr [.obj [("content".toList,
    .obj [("parts".toList, .arr [.obj [("text".toList, .str "Perfil".toList)]])])]])]

/-- Surroundings in which the Grok endpoint answers 500 and the Gemini endpoint
answers 200 with a candidate text. -/
def demoAiEnv : AiEnv :=
  { toLowerCase := fun s => s.map Char.toLower,
    nullPropertyMessage := "Cannot read properties of null".toList,
    grok := .resolved { status := 500, statusText := "Internal Server Error".toList,
                        json := .error (mkError "Unexpected token".toList) },
    gemini := .resolved { status := 200, statusText := "OK".toList,
                          json := .ok geminiBody },
    tCheck := 1000, tGet := 1000, tSet := 1500, tRecord := 1500 }

/-- A fresh `AIApi` with the limits of `RATE_LIMITS`. -/
def demoAIApi : AIApi :=
  { grokLimiter := RateLimiter.create 50 60000,
    geminiLimiter := RateLimiter.create 30 60000, cache := [] }

/-- An `AIApi` whose limiters have used up a limit of one request at time
900. -/
def busyAIApi : AIApi :=
  { grokLimiter := (RateLimiter.create 1 60000).recordRequest 900,
    geminiLimiter := (RateLimiter.create 1 60000).recordRequest 900, cache := [] }

/-- The prospect `{ company: { name: 'Forno', activity: 'Pizzaria' } }`. -/
def pizzaForm : FormData :=
  { cnpj := none,
    company := some { name := some "Forno".toList, activity := some "Pizzaria".toList },
    instagram := none, facebook := none, website := none, menuText := none,
    menuFile := false }

/-- The prospect `{ company: { name: 'Boteco', activity: 'Bar e petiscos' } }`. -/
def barForm : FormData :=
  { cnpj := none,
    company := some { name := some "Boteco".toList, activity := some "Bar e petiscos".toList },
    instagram := none, facebook := none, website := none, menuText := none,
    menuFile := false }

/-- The surroundings of `demoAiEnv` with the Grok endpoint answering a given
status. -/
def grokStatusEnv (status : Nat) (statusText : JSString) : AiEnv :=
  { demoAiEnv with
    grok := .resolved { status := status, statusText := statusText,
                        json := .error (mkError "Unexpected token".toList) } }

/-- The company and the products of a sales script. -/
def demoCompany : ScriptCompany :=
  { name := some "Acme".toList, address := some "Rua A, 1".toList }

/-- One selected product. -/
def demoProducts : List Product :=
  [{ name := "Farinha".toList, price := "10,00".toList }]

/-- A menu line of the form `name - description - R$ price`. -/
def menuLineWithDescription : JSString :=
  "Marguerita - mussarela e manjericao fresco - R$ 35,00".toList

/-- Surroundings of the social client in which the embed strategy throws and
the scraping strategy returns `null`. -/
def demoSocialEnv : SocialEnv :=
  { toLowerCase := fun s => s.map Char.toLower,
    nullPropertyMessage := "Cannot read properties of null".toList,
    instagramOEmbed := fun _ => .error (mkError "oEmbed não disponível".toList),
    instagramScraping := fun _ => .ok .null,
    facebookAPI := fun _ => .error (mkError "Facebook API não disponível".toList),
    facebookScraping := fun _ => .ok .null,
    draws := { followers := 1234, following := 250, posts := 120,
               engagement := "2.50".toList, verified := false,
               lastPost := "2026-11-01T12:00:00.000Z".toList, averageLikes := 40,
               averageComments := 7, likes := 300, postsPerWeek := 3, averageReach := 200 },
    tGet := 1000, tSet := 1500 }

/-- A second prospect: another company whose number starts with `112`, with a
menu and an Instagram handle. -/
def otherForm : FormData :=
  { cnpj := some "11299999000100".toList,
    company := some { name := some "Outra".toList, activity := some "Bar".toList },
    instagram := some "@outra".toList, facebook := none, website := none,
    menuText := some "Pizza R$ 10,00".toList, menuFile := false }

/-- Three calls with the same valid number in the same surroundings. -/
def threeCalls : List (Env JSString × JSString) :=
  List.replicate 3 (demoEnv, "11.222.333/0001-81".toList)

/-- An engine for the categoriser: a `toLowerCase` that is right on ASCII
text. -/
def demoMlEnv : MlEnv :=
  { toLowerCase := fun s => s.map Char.toLower,
    notFunctionMessage := "menuRules[category].map is not a function".toList }

/-- The analysis of a restaurant whose menu has pizzas and hamburgers. -/
def pizzaBurgerResults : AnalysisResults :=
  { activity := some "restaurante".toList,
    categories := some ["pizzas".toList, "hambúrgueres".toList] }

/-- Surroundings of the maps client. The geocoder finds the address
`Avenida Rio Branco, Centro, Rio de Janeiro, RJ, Brasil`, finds nothing for
`Rua Sem Nome`, and cannot be reached for any other address. The postal-code
service answers `20040002` with Avenida Rio Branco, `30000000` with a street
whose name holds eight digits, and every other code with `Rua 01310100`. No
body has a `length` that is not a number, and no statement reaches
`haversineDistance`. -/
def demoMapsEnv : MapsEnv :=
  { engine := demoEngine,
    toNumber := fun _ => .nan,
    search := fun address =>
      if address == "Avenida Rio Branco, Centro, Rio de Janeiro, RJ, Brasil".toList then
        .resolved { status := 200, statusText := "OK".toList,
                    json := .ok (.arr [.obj [("lat".toList, .str "-22.9".toList),
                                             ("lon".toList, .str "-43.2".toList),
                                             ("display_name".toList,
                                               .str "Avenida Rio Branco".toList)]]) }
      else if address == "Rua Sem Nome".toList then
        .resolved { status := 200, statusText := "OK".toList, json := .ok (.arr []) }
      else .rejected { name := "TypeError".toList, message := "Failed to fetch".toList },
    viacep := fun cep =>
      if cep == "20040002".toList then
        .resolved { status := 200, statusText := "OK".toList,
                    json := .ok (.obj [("logradouro".toList, .str "Avenida Rio Branco".toList),
                                       ("bairro".toList, .str "Centro".toList),
                                       ("localidade".toList, .str "Rio de Janeiro".toList),
                                       ("uf".toList, .str "RJ".toList)]) }
      else if cep == "30000000".toList then
        .resolved { status := 200, statusText := "OK".toList,
                    json := .ok (.obj [("logradouro".toList, .str "Travessa 20040002".toList),
                                       ("bairro".toList, .str "Centro".toList),
                                       ("localidade".toList, .str "Belo Horizonte".toList),
                                       ("uf".toList, .str "MG".toList)]) }
      else
        .resolved { status := 200, statusText := "OK".toList,
                    json := .ok (.obj [("logradouro".toList, .str "Rua 01310100".toList),
                                       ("bairro".toList, .str "Bela Vista".toList),
                                       ("localidade".toList, .str "Sao Paulo".toList),
                                       ("uf".toList, .str "SP".toList)]) },
    haversineDistance := fun _ _ _ _ => .nan,
    tGet := 1000, tSet := 1500 }

/-- A pair of coordinates in Rio de Janeiro. -/
def rioCoordinates : Coordinates :=
  { lat := .fin (-229 / 10), lng := .fin (-432 / 10),
    display_name := .str "Rio de Janeiro".toList, address_components := .obj [] }

/-- The canonical address the postal-code service gives for `01310100`. -/
def loopAddress : JSString := "Rua 01310100, Bela Vista, Sao Paulo, SP, Brasil".toList

/-! # Theorems -/

/-! ### `validateCNPJ` -/

theorem length14 (s : JSString) (h : s.length = 14) :
    ∃ c0 c1 c2 c3 c4 c5 c6 c7 c8 c9 c10 c11 c12 c13,
      s = [c0, c1, c2, c3, c4, c5, c6, c7, c8, c9, c10, c11, c12, c13] := by
  rcases s with _ | ⟨c0, _ | ⟨c1, _ | ⟨c2, _ | ⟨c3, _ | ⟨c4, _ | ⟨c5, _ | ⟨c6, _ | ⟨c7, _ | ⟨c8, _ | ⟨c9, _ | ⟨c10, _ | ⟨c11, _ | ⟨c12, _ | ⟨c13, _ | ⟨c14, s⟩⟩⟩⟩⟩⟩⟩⟩⟩⟩⟩⟩⟩⟩⟩ <;> simp at h
  exact ⟨c0, c1, c2, c3, c4, c5, c6, c7, c8, c9, c10, c11, c12, c13, rfl⟩

theorem toNumber_digit (c : Char) (h : isDigitChar c = true) : toNumber c = some (digitValue c) := by
  simp [toNumber, h, digitValue]

theorem validate_iff14 (c0 c1 c2 c3 c4 c5 c6 c7 c8 c9 c10 c11 c12 c13 : Char)
    (h : ∀ c ∈ [c0, c1, c2, c3, c4, c5, c6, c7, c8, c9, c10, c11, c12, c13], isDigitChar c = true) :
    validateCNPJ [c0, c1, c2, c3, c4, c5, c6, c7, c8, c9, c10, c11, c12, c13] = true ↔
      SpecValid [c0, c1, c2, c3, c4, c5, c6, c7, c8, c9, c10, c11, c12, c13] := by
  simp only [List.mem_cons, List.mem_singleton, forall_eq_or_imp, forall_eq, List.not_mem_nil] at h
  obtain ⟨h0, h1, h2, h3, h4, h5, h6, h7, h8, h9, h10, h11, h12, h13, -⟩ := h
  simp [validateCNPJ, SpecValid, weightedLoop, weightStep, List.range_succ, toNumber_digit, *,
    numAdd, numMul, checkOf, strictEq, weightedSum, w1, w2, specCheckDigit, repeatedDigit]
  simp only [Nat.add_assoc]
  tauto


/-- C1: `validateCNPJ` rejects every string whose length is not 14; on a string
of 14 decimal digits it accepts exactly when the digits are not all identical
and the two last digits are the check digits computed with the weight tables
`w1` and `w2`; every string of 14 identical digits is rejected. -/
theorem validateCNPJ_contract (s : JSString) :
    (s.length ≠ 14 → validateCNPJ s = false) ∧
    (s.length = 14 → (∀ c ∈ s, isDigitChar c = true) →
      (validateCNPJ s = true ↔ SpecValid s)) ∧
    (∀ c, isDigitChar c = true → s = List.replicate 14 c → validateCNPJ s = false) := by
  refine ⟨fun h => ?_, fun h hd => ?_, fun c hc hs => ?_⟩
  · simp [validateCNPJ, h]
  · obtain ⟨c0, c1, c2, c3, c4, c5, c6, c7, c8, c9, c10, c11, c12, c13, rfl⟩ := length14 s h
    exact validate_iff14 _ _ _ _ _ _ _ _ _ _ _ _ _ _ hd
  · subst hs
    simp [validateCNPJ, repeatedDigit, List.replicate, hc]

/-- C1 at concrete inputs: a string of 13 digits, the valid number
`11222333000181`, and fourteen zeros. -/
theorem validateCNPJ_contract_witness :
    validateCNPJ "1122233300018".toList = false ∧
    validateCNPJ "11222333000181".toList = true ∧
    validateCNPJ "00000000000000".toList = false :=
  ⟨(validateCNPJ_contract _).1 (by decide),
   ((validateCNPJ_contract _).2.1 (by decide) (by decide)).mpr
     ⟨by rintro ⟨c, hc⟩; simp [List.replicate] at hc; exact absurd (hc.1.trans hc.2.1.symm) (by decide), by decide, by decide⟩,
   (validateCNPJ_contract _).2.2 '0' (by decide) (by decide)⟩

/-! ### `RateLimiter` -/

theorem requests_iterate_record (r : RateLimiter) (t0 : Int) (n : Nat) :
    ((fun q : RateLimiter => q.recordRequest t0)^[n] r).requests =
      r.requests ++ List.replicate n t0 ∧
    ((fun q : RateLimiter => q.recordRequest t0)^[n] r).maxRequests = r.maxRequests ∧
    ((fun q : RateLimiter => q.recordRequest t0)^[n] r).windowMs = r.windowMs := by
  induction n generalizing r with
  | zero => simp
  | succ n ih =>
    rw [Function.iterate_succ_apply]
    obtain ⟨h1, h2, h3⟩ := ih (r.recordRequest t0)
    refine ⟨?_, ?_, ?_⟩
    · rw [h1]; simp [RateLimiter.recordRequest, List.replicate_succ]
    · rw [h2]; rfl
    · rw [h3]; rfl

/-- C2, first half: `canMakeRequest()` answers true exactly when the number of
recorded timestamps `t` with `now - t < windowMs` is below `maxRequests`.
Second half, for a limit of at least one: after `L` calls of `recordRequest`
at time `t0` on a fresh limiter the answer is false at every `now` with
`t0 ≤ now < t0 + W` and true at `now = t0 + W`. -/
theorem canMakeRequest_sliding_window :
    (∀ (r : RateLimiter) (now : Int),
      (r.canMakeRequest now).2 = true ↔
        ((r.requests.countP (fun t => decide (now - t < r.windowMs)) : Nat) : Int)
          < r.maxRequests) ∧
    (∀ (L : Nat) (W t0 : Int), 0 < L →
      (∀ now, t0 ≤ now → now < t0 + W →
        (((fun q : RateLimiter => q.recordRequest t0)^[L]
          (RateLimiter.create L W)).canMakeRequest now).2 = false) ∧
      (((fun q : RateLimiter => q.recordRequest t0)^[L]
          (RateLimiter.create L W)).canMakeRequest (t0 + W)).2 = true) := by
  refine ⟨fun r now => ?_, fun L W t0 hL => ⟨fun now h1 h2 => ?_, ?_⟩⟩
  · simp [RateLimiter.canMakeRequest, List.countP_eq_length_filter]
  · obtain ⟨hr, hm, hw⟩ := requests_iterate_record (RateLimiter.create L W) t0 L
    have hlt : now - t0 < W := by omega
    simp only [RateLimiter.canMakeRequest, hr, hm, hw]
    simp [RateLimiter.create, hlt]
  · obtain ⟨hr, hm, hw⟩ := requests_iterate_record (RateLimiter.create L W) t0 L
    simp only [RateLimiter.canMakeRequest, hr, hm, hw]
    simp [RateLimiter.create, hL]

/-- C2 at a concrete limiter: limit 2, window 60000, two calls at time 1000. -/
theorem canMakeRequest_sliding_window_witness :
    (((fun q : RateLimiter => q.recordRequest 1000)^[2]
        (RateLimiter.create 2 60000)).canMakeRequest 60999).2 = false ∧
    (((fun q : RateLimiter => q.recordRequest 1000)^[2]
        (RateLimiter.create 2 60000)).canMakeRequest 61000).2 = true :=
  ⟨(canMakeRequest_sliding_window.2 2 60000 1000 (by decide)).1 60999 (by decide) (by decide),
   (canMakeRequest_sliding_window.2 2 60000 1000 (by decide)).2⟩

/-- C2 as stated, at limit 0: with no recorded call the limiter still denies at
`now = t0 + W`. -/
theorem canMakeRequest_limit_zero :
    ¬ (∀ (L : Nat) (W t0 : Int),
      (((fun q : RateLimiter => q.recordRequest t0)^[L]
          (RateLimiter.create L W)).canMakeRequest (t0 + W)).2 = true) := by
  intro h
  exact absurd (h 0 60000 1000) (by decide)

/-! ### `getCompanyData` -/

theorem queryAPI_ok_no_erro {ρ : Type} (env : Env ρ) (baseUrl cnpj : JSString) (data : Json)
    (h : queryAPI env baseUrl cnpj = .ok data) :
    (data.getField "erro".toList).truthy = false := by
  unfold queryAPI at h
  split at h
  · split at h <;> cases h
  · rename_i d hd
    cases h
    unfold queryAPITry at hd
    simp only at hd
    split at hd
    · cases hd
    · split at hd
      · split at hd
        · cases hd
        · split at hd <;> cases hd
      · split at hd
        · cases hd
        · cases hd
        · split at hd
          · cases hd
          · rename_i hne
            cases hd
            simp at hne
            exact hne.2

theorem providerLoop_skip_failed {ρ : Type} (env : Env ρ) (api : CNPJApi ρ)
    (c k : JSString) (pre rest : List JSString)
    (hpre : ∀ u ∈ pre, ∃ e, queryAPI env u c = .error e) (le : Option JsError)
    (q : List RegistryEffect) :
    ∃ le1, (pre = [] → le1 = le) ∧
      providerLoop env api c k (pre ++ rest) le q =
        providerLoop env api c k rest le1 (q ++ pre.map (fun u => .fetch (u ++ c))) := by
  induction pre generalizing le q with
  | nil => exact ⟨le, fun _ => rfl, by simp⟩
  | cons u pre ih =>
    obtain ⟨e, he⟩ := hpre u (List.mem_cons_self _ _)
    obtain ⟨le1, -, h1⟩ := ih (fun v hv => hpre v (List.mem_cons_of_mem _ hv)) (some e)
      (q ++ [.fetch (u ++ c)])
    refine ⟨le1, fun h => (by cases h), ?_⟩
    have h0 : providerLoop env api c k (u :: pre ++ rest) le q =
        providerLoop env api c k (pre ++ rest) (some e) (q ++ [.fetch (u ++ c)]) := by
      rw [List.cons_append, providerLoop, he]
    rw [h0, h1]
    simp

theorem providerLoop_first_success {ρ : Type} (env : Env ρ) (api : CNPJApi ρ)
    (c k : JSString) (pre post : List JSString) (p : JSString) (body : Json) (r : ρ)
    (hpre : ∀ u ∈ pre, ∃ e, queryAPI env u c = .error e)
    (hp : queryAPI env p c = .ok body) (hbody : body.truthy = true)
    (hproc : env.processCompanyData body = .ok r) (le : Option JsError)
    (q : List RegistryEffect) :
    providerLoop env api c k (pre ++ p :: post) le q =
      { result := .ok r,
        api := { api with
          cache := api.cache.set k r CACHE_CONFIG_company env.tSet,
          rateLimiter := api.rateLimiter.recordRequest env.tRecord },
        effects := q ++ (pre ++ [p]).map (fun u => .fetch (u ++ c)) ++
          [.cacheSet k, .record] } := by
  obtain ⟨le1, -, h1⟩ := providerLoop_skip_failed env api c k pre (p :: post) hpre le q
  have hne := queryAPI_ok_no_erro env p c body hp
  simp only [String.toList] at hne
  rw [h1]
  simp [providerLoop, hp, hbody, hne, hproc]

theorem providerLoop_all_failed {ρ : Type} (env : Env ρ) (api : CNPJApi ρ)
    (c k : JSString) (init : List JSString) (last : JSString) (e : JsError)
    (hinit : ∀ u ∈ init, ∃ e1, queryAPI env u c = .error e1)
    (hlast : queryAPI env last c = .error e) (le : Option JsError)
    (q : List RegistryEffect) :
    providerLoop env api c k (init ++ [last]) le q =
      { result := .error (mkError
          ("Não foi possível obter dados do CNPJ: ".toList ++ lastErrorText (some e))),
        api := api,
        effects := q ++ (init ++ [last]).map (fun u => .fetch (u ++ c)) } := by
  obtain ⟨le1, -, h1⟩ := providerLoop_skip_failed env api c k init [last] hinit le q
  rw [h1]
  simp [providerLoop, hlast]

theorem filterMap_fetch_url (l : List JSString) (c : JSString) :
    (l.map (fun u => RegistryEffect.fetch (u ++ c))).filterMap RegistryEffect.url =
      l.map (fun u => u ++ c) := by
  induction l with
  | nil => rfl
  | cons a t ih => simp [RegistryEffect.url, ih]

theorem message_infix_lastErrorText (e : JsError) (pre : JSString) :
    e.message <:+: pre ++ lastErrorText (some e) := by
  simp only [lastErrorText]
  split
  · rename_i h
    have : e.message = [] := by simpa using h
    rw [this]
    exact List.nil_infix
  · exact (List.suffix_append _ _).isInfix

theorem cache_get_set {ρ : Type} (cache : Cache ρ) (key : JSString) (value : ρ)
    (ttl now t : Int) (h : t < now + ttl) :
    (cache.set key value ttl now).get key t = some value := by
  simp [Cache.get, Cache.set, List.find?, h]

/-- C3: for a check-digit-valid CNPJ that is not cached and a limiter that
permits the request, `getCompanyData` returns `processCompanyData` of the body
of the first provider whose query succeeds, fetches exactly the providers up to
it, stores the record under `cnpj_` followed by the digits and records one
request; when the query of every provider fails, it fails with an error whose
message contains the message of the last provider's error. -/
theorem getCompanyData_provider_cascade {ρ : Type} (env : Env ρ) (api : CNPJApi ρ)
    (cnpj : JSString)
    (hvalid : validateCNPJ (cleanDigits cnpj) = true)
    (hmiss : api.cache.get ("cnpj_".toList ++ cleanDigits cnpj) env.tGet = none)
    (hallow : (api.rateLimiter.canMakeRequest env.tCheck).2 = true) :
    (∀ (pre post : List JSString) (p : JSString) (body : Json) (r : ρ),
      api.apis = pre ++ p :: post →
      (∀ u ∈ pre, ∃ e, queryAPI env u (cleanDigits cnpj) = .error e) →
      queryAPI env p (cleanDigits cnpj) = .ok body →
      body.truthy = true →
      env.processCompanyData body = .ok r →
        (getCompanyData env api cnpj).result = .ok r ∧
        (getCompanyData env api cnpj).queried =
          (pre ++ [p]).map (fun u => u ++ cleanDigits cnpj) ∧
        (getCompanyData env api cnpj).api.cache =
          api.cache.set ("cnpj_".toList ++ cleanDigits cnpj) r CACHE_CONFIG_company env.tSet ∧
        (∀ t, t < env.tSet + CACHE_CONFIG_company →
          (getCompanyData env api cnpj).api.cache.get
            ("cnpj_".toList ++ cleanDigits cnpj) t = some r) ∧
        (getCompanyData env api cnpj).api.rateLimiter.requests =
          (api.rateLimiter.canMakeRequest env.tCheck).1.requests ++ [env.tRecord]) ∧
    (∀ (init : List JSString) (last : JSString) (e : JsError),
      api.apis = init ++ [last] →
      (∀ u ∈ init, ∃ e1, queryAPI env u (cleanDigits cnpj) = .error e1) →
      queryAPI env last (cleanDigits cnpj) = .error e →
        ∃ err, (getCompanyData env api cnpj).result = .error err ∧
          e.message <:+: err.message) := by
  have hrun : getCompanyData env api cnpj =
      providerLoop env { api with rateLimiter := (api.rateLimiter.canMakeRequest env.tCheck).1 }
        (cleanDigits cnpj) ("cnpj_".toList ++ cleanDigits cnpj) api.apis none
        [.cacheGet ("cnpj_".toList ++ cleanDigits cnpj), .limiterCheck] := by
    simp only [getCompanyData, hvalid, hmiss, hallow]
    rfl
  refine ⟨fun pre post p body r hapis hpre hp hbody hproc => ?_,
    fun init last e hapis hinit hlast => ?_⟩
  · rw [hrun, hapis, providerLoop_first_success env _ _ _ pre post p body r hpre hp hbody hproc]
    refine ⟨rfl, ?_, rfl, fun t ht => cache_get_set _ _ _ _ _ _ ht, rfl⟩
    simp only [Run.queried, List.filterMap_append, filterMap_fetch_url]
    simp [RegistryEffect.url]
  · rw [hrun, hapis, providerLoop_all_failed env _ _ _ init last e hinit hlast]
    exact ⟨_, rfl, message_infix_lastErrorText e _⟩

/-- C3 at a concrete registry: the first mirror answers 500 and the second one
answers with a body; and a client whose only mirror answers 500. -/
theorem getCompanyData_provider_cascade_witness :
    ((getCompanyData demoEnv demoApi "11.222.333/0001-81".toList).result = .ok "ACME".toList ∧
      (getCompanyData demoEnv demoApi "11.222.333/0001-81".toList).queried =
        ["https://a/11222333000181".toList, "https://b/11222333000181".toList] ∧
      (getCompanyData demoEnv demoApi "11.222.333/0001-81".toList).api.rateLimiter.requests =
        [1500]) ∧
    (∃ err, (getCompanyData demoEnv demoApiDown "11.222.333/0001-81".toList).result = .error err ∧
      "HTTP 500: Internal Server Error".toList <:+: err.message) := by
  have h1 := (getCompanyData_provider_cascade demoEnv demoApi "11.222.333/0001-81".toList
    (by decide) (by rfl) (by decide)).1 ["https://a/".toList] [] "https://b/".toList
    (.obj [("nome".toList, .str "ACME".toList)]) "ACME".toList rfl
    (by intro u hu; rw [List.mem_singleton] at hu; subst hu; exact ⟨_, rfl⟩) rfl rfl rfl
  have h2 := (getCompanyData_provider_cascade demoEnv demoApiDown "11.222.333/0001-81".toList
    (by decide) (by rfl) (by decide)).2 [] "https://a/".toList
    (mkError "HTTP 500: Internal Server Error".toList) rfl
    (by intro u hu; cases hu) rfl
  exact ⟨⟨h1.1, h1.2.1, h1.2.2.2.2⟩, h2⟩

/-! ### `calculateScore` and `rankSuggestions` -/

theorem sourceBoosts_eq_sourceWeight (s : Source) :
    orDefault (some (sourceBoosts s)) 1.0 = sourceWeight s := by
  cases s <;> simp [orDefault, sourceBoosts, sourceWeight] <;> norm_num

/-- C5: for a suggestion with numeric priority `p` and confidence `c`,
`calculateScore` multiplies the priority (5 in place of a priority 0), the
confidence (0.5 in place of a confidence 0) and the weight of the source; for
`p ≠ 0` and `c ≠ 0` the score is `p * c * w(s)`. -/
theorem calculateScore_formula (s : Suggestion) (p c : ℚ)
    (hp : s.priority = some p) (hc : s.confidence = some c) :
    calculateScore s =
        (if p = 0 then 5 else p) * (if c = 0 then 1 / 2 else c) * sourceWeight s.source ∧
    (p ≠ 0 → c ≠ 0 → calculateScore s = p * c * sourceWeight s.source) := by
  have h : calculateScore s =
      (if p = 0 then 5 else p) * (if c = 0 then 1 / 2 else c) * sourceWeight s.source := by
    simp only [calculateScore, hp, hc, sourceBoosts_eq_sourceWeight]
    simp only [orDefault]
    norm_num
  refine ⟨h, fun hp0 hc0 => ?_⟩
  rw [h, if_neg hp0, if_neg hc0]

/-- C5 at the first business-type rule of a restaurant: priority 9, confidence
0.8, weight 1.0. -/
theorem calculateScore_formula_witness :
    calculateScore (Suggestion.mk "334".toList (some 9)
      "Queijo para pratos principais".toList (some (4 / 5)) .business_type) = 9 * (4 / 5) * 1 :=
  ((calculateScore_formula _ 9 (4 / 5) rfl rfl).2 (by norm_num) (by norm_num)).trans
    (by simp [sourceWeight])

/-- C5 as stated, at priority 0: the score of a suggestion with priority 0,
confidence 0.8 and source `business_type` is 4, not 0. -/
theorem calculateScore_priority_zero :
    calculateScore (Suggestion.mk "334".toList (some 0) [] (some (4 / 5))
      .business_type) = 4 ∧
    calculateScore (Suggestion.mk "334".toList (some 0) [] (some (4 / 5))
      .business_type) ≠
      0 * (4 / 5) * sourceWeight .business_type := by
  have h : calculateScore (Suggestion.mk "334".toList (some 0) [] (some (4 / 5))
      .business_type) = 4 := by
    simp [calculateScore, orDefault, sourceBoosts]
    norm_num
  exact ⟨h, by rw [h]; norm_num⟩

theorem scoreOrder_iff (a b : ScoredSuggestion) : scoreOrder a b = true ↔ b.score ≤ a.score := by
  simp [scoreOrder]

theorem scoreOrder_trans (a b c : ScoredSuggestion) (hab : scoreOrder a b = true)
    (hbc : scoreOrder b c = true) : scoreOrder a c = true := by
  rw [scoreOrder_iff] at *
  exact le_trans hbc hab

theorem scoreOrder_total (a b : ScoredSuggestion) :
    (scoreOrder a b || scoreOrder b a) = true := by
  rw [Bool.or_eq_true, scoreOrder_iff, scoreOrder_iff]
  exact le_total _ _

theorem mergeSort_filter_score (l : List ScoredSuggestion) (v : ℚ) :
    (l.mergeSort scoreOrder).filter (fun x => decide (x.score = v)) =
      l.filter (fun x => decide (x.score = v)) := by
  have hsorted : (l.filter (fun x => decide (x.score = v))).Pairwise
      (fun a b => scoreOrder a b = true) := by
    rw [List.pairwise_iff_forall_sublist]
    intro a b hab
    have ha := hab.subset (List.mem_cons_self _ _)
    have hb := hab.subset (List.mem_cons_of_mem _ (List.mem_singleton_self _))
    simp only [List.mem_filter, decide_eq_true_eq] at ha hb
    rw [scoreOrder_iff, ha.2, hb.2]
  have hsub : List.Sublist (l.filter (fun x => decide (x.score = v))) (l.mergeSort scoreOrder) :=
    List.sublist_mergeSort scoreOrder_trans scoreOrder_total hsorted (List.filter_sublist _)
  have hsub2 := hsub.filter (fun x => decide (x.score = v))
  rw [List.filter_filter] at hsub2
  simp only [Bool.and_self] at hsub2
  have hlen := ((List.mergeSort_perm l scoreOrder).filter
    (fun x => decide (x.score = v))).length_eq
  exact (hsub2.eq_of_length hlen.symm).symm

/-- C4: `rankSuggestions` returns `min(n, 12)` suggestions, each carrying the
score `calculateScore` gives it, in non-increasing order of score; together
with the omitted ones they are the annotated input, no omitted suggestion has
a higher score than an included one, and the suggestions of any one score
appear in their original order (they are a prefix of the input suggestions of
that score). -/
theorem rankSuggestions_top12 (l : List Suggestion) :
    (rankSuggestions l).length = min l.length 12 ∧
    (rankSuggestions l).Pairwise (fun a b => b.score ≤ a.score) ∧
    (∀ x ∈ rankSuggestions l, x.score = calculateScore x.toSuggestion) ∧
    (∃ omitted, List.Perm (rankSuggestions l ++ omitted) (l.map withScore) ∧
      ∀ a ∈ rankSuggestions l, ∀ b ∈ omitted, b.score ≤ a.score) ∧
    (∀ v : ℚ, (rankSuggestions l).filter (fun x => decide (x.score = v)) <+:
      (l.map withScore).filter (fun x => decide (x.score = v))) := by
  have hsorted : ((l.map withScore).mergeSort scoreOrder).Pairwise
      (fun a b => b.score ≤ a.score) :=
    (List.sorted_mergeSort scoreOrder_trans scoreOrder_total (l.map withScore)).imp
      (fun h => (scoreOrder_iff _ _).mp h)
  refine ⟨?_, ?_, ?_, ?_, ?_⟩
  · simp [rankSuggestions, Nat.min_comm]
  · exact hsorted.sublist (List.take_sublist _ _)
  · intro x hx
    have hx1 : x ∈ (l.map withScore).mergeSort scoreOrder := List.mem_of_mem_take hx
    rw [List.mem_mergeSort, List.mem_map] at hx1
    obtain ⟨s, -, rfl⟩ := hx1
    rfl
  · refine ⟨((l.map withScore).mergeSort scoreOrder).drop 12, ?_, ?_⟩
    · rw [rankSuggestions, List.take_append_drop]
      exact List.mergeSort_perm _ _
    · rw [← List.take_append_drop 12 ((l.map withScore).mergeSort scoreOrder)] at hsorted
      exact (List.pairwise_append.mp hsorted).2.2
  · intro v
    rw [← mergeSort_filter_score (l.map withScore) v]
    exact (List.take_prefix _ _).filter _


/-! ### `extractMenuItems` -/

theorem manyRun_le {α : Type} (p : Char → Bool) (k : JSString → Option α) (min : Nat)
    (s : JSString) (r : α) (h : manyRun p k min s = some r) :
    ∃ s1, s1.length + min ≤ s.length ∧ k s1 = some r := by
  induction s generalizing min with
  | nil =>
    simp only [manyRun] at h
    split at h
    · rename_i h0
      exact ⟨[], by simp [h0], h⟩
    · cases h
  | cons c s ih =>
    simp only [manyRun] at h
    split at h
    · split at h
      · rename_i r1 hr
        cases h
        obtain ⟨s1, hlen, hk⟩ := ih (min - 1) hr
        exact ⟨s1, by simp only [List.length_cons]; omega, hk⟩
      · split at h
        · rename_i h0
          exact ⟨c :: s, by simp [h0], h⟩
        · cases h
    · split at h
      · rename_i h0
        exact ⟨c :: s, by simp [h0], h⟩
      · cases h

theorem run_le {α : Type} (re : Re) (s : JSString) (caps : Caps)
    (k : JSString → Caps → Option α) (r : α) (h : re.run s caps k = some r) :
    ∃ s1 caps1, s1.length ≤ s.length ∧ k s1 caps1 = some r := by
  induction re generalizing s caps k with
  | cls p =>
    cases s with
    | nil => simp [Re.run] at h
    | cons c s =>
      simp only [Re.run] at h
      split at h
      · exact ⟨s, caps, by simp, h⟩
      · cases h
  | many p min =>
    simp only [Re.run] at h
    obtain ⟨s1, hlen, hk⟩ := manyRun_le p _ min s r h
    exact ⟨s1, caps, by omega, hk⟩
  | seq a b iha ihb =>
    simp only [Re.run] at h
    obtain ⟨s1, caps1, hlen1, hk1⟩ := iha s caps _ h
    obtain ⟨s2, caps2, hlen2, hk2⟩ := ihb s1 caps1 k hk1
    exact ⟨s2, caps2, by omega, hk2⟩
  | opt a iha =>
    simp only [Re.run] at h
    split at h
    · rename_i r1 hr
      cases h
      exact iha s caps k hr
    · exact ⟨s, caps, le_refl _, h⟩
  | cap i a iha =>
    simp only [Re.run] at h
    obtain ⟨s1, caps1, hlen1, hk1⟩ := iha s caps _ h
    exact ⟨s1, _, hlen1, hk1⟩

theorem run_cls_lt {α : Type} (p : Char → Bool) (s : JSString) (caps : Caps)
    (k : JSString → Caps → Option α) (r : α) (h : (Re.cls p).run s caps k = some r) :
    ∃ s1 caps1, s1.length < s.length ∧ k s1 caps1 = some r := by
  cases s with
  | nil => simp [Re.run] at h
  | cons c s =>
    simp only [Re.run] at h
    split at h
    · exact ⟨s, caps, by simp, h⟩
    · cases h

/-- A match of one of the three menu patterns is never empty, so that the
loop of `exec` always moves `lastIndex` forward. -/
theorem matchAt_nonempty (re : Re) (hre : re ∈ patterns) (s : JSString) (m : Match)
    (h : re.matchAt s = some m) : 0 < m.text.length := by
  have key : ∃ (rest : JSString) (caps : Caps), rest.length < s.length ∧
      some ({ text := s.take (s.length - rest.length), caps := caps } : Match) = some m := by
    simp only [patterns, List.mem_cons, List.mem_singleton, List.not_mem_nil, or_false] at hre
    rcases hre with rfl | rfl | rfl
    · simp only [Re.matchAt, pattern1, seqs, Re.run] at h
      obtain ⟨s1, caps1, hlen1, hk1⟩ := run_cls_lt _ s [] _ m h
      obtain ⟨s2, hlen2, hk2⟩ := manyRun_le _ _ _ s1 m hk1
      obtain ⟨s3, caps3, hlen3, hk3⟩ := run_le reCurrency s2 _ _ m hk2
      obtain ⟨s4, caps4, hlen4, hk4⟩ := run_le rePrice s3 _ _ m hk3
      exact ⟨s4, _, by omega, hk4⟩
    · simp only [Re.matchAt, pattern2, seqs, Re.run] at h
      obtain ⟨s1, caps1, hlen1, hk1⟩ := run_cls_lt _ s [] _ m h
      obtain ⟨s2, hlen2, hk2⟩ := manyRun_le _ _ _ s1 m hk1
      obtain ⟨s3, hlen3, hk3⟩ := manyRun_le _ _ _ s2 m hk2
      obtain ⟨s4, caps4, hlen4, hk4⟩ := run_le (lit '-') s3 _ _ m hk3
      obtain ⟨s5, hlen5, hk5⟩ := manyRun_le _ _ _ s4 m hk4
      obtain ⟨s6, hlen6, hk6⟩ := manyRun_le _ _ _ s5 m hk5
      obtain ⟨s7, hlen7, hk7⟩ := manyRun_le _ _ _ s6 m hk6
      obtain ⟨s8, caps8, hlen8, hk8⟩ := run_le (lit '-') s7 _ _ m hk7
      obtain ⟨s9, caps9, hlen9, hk9⟩ := run_le reCurrency s8 _ _ m hk8
      obtain ⟨s10, caps10, hlen10, hk10⟩ := run_le rePrice s9 _ _ m hk9
      exact ⟨s10, _, by omega, hk10⟩
    · simp only [Re.matchAt, pattern3, seqs, Re.run] at h
      obtain ⟨s1, hlen1, hk1⟩ := manyRun_le _ _ _ s m h
      obtain ⟨s2, caps2, hlen2, hk2⟩ := run_le (lit '.') s1 _ _ m hk1
      obtain ⟨s3, hlen3, hk3⟩ := manyRun_le _ _ _ s2 m hk2
      obtain ⟨s4, caps4, hlen4, hk4⟩ := run_cls_lt _ s3 _ _ m hk3
      obtain ⟨s5, hlen5, hk5⟩ := manyRun_le _ _ _ s4 m hk4
      obtain ⟨s6, caps6, hlen6, hk6⟩ := run_le reCurrency s5 _ _ m hk5
      obtain ⟨s7, caps7, hlen7, hk7⟩ := run_le rePrice s6 _ _ m hk6
      exact ⟨s7, _, by omega, hk7⟩
  obtain ⟨rest, caps, hlen, hm⟩ := key
  cases hm
  simp only [List.length_take]
  omega

theorem execAll_menuSample :
    pattern1.execAll menuSample 0 = [] ∧ pattern2.execAll menuSample 0 = [] ∧
      pattern3.execAll menuSample 0 = [] := by
  refine ⟨?_, ?_, ?_⟩ <;> rfl

/-- C6 on the text `Pizza Margherita R$ 35,00\nPizza Calabresa R$ 38,50`:
none of the three patterns matches, and `extractMenuItems` returns no item. -/
theorem extractMenuItems_menuSample (toLowerCase : JSString → JSString) :
    extractMenuItems toLowerCase menuSample = [] := by
  simp [extractMenuItems, collectItems, patterns, execAll_menuSample, uniqueByName]

/-! ### `AIApi` -/

theorem includes_iff (s sub : JSString) : includes s sub = true ↔ sub <:+: s := by
  induction s with
  | nil => cases sub <;> simp [includes]
  | cons c s ih =>
    rw [includes, Bool.or_eq_true, ih, List.isPrefixOf_iff_prefix, List.infix_cons_iff]

theorem filter_sublist_requests (r : RateLimiter) (now : Int) :
    List.Sublist (r.canMakeRequest now).1.requests r.requests := by
  simp [RateLimiter.canMakeRequest]

/-- C7: when `API_CONFIG.GROK.enabled` is false, or when the Grok limiter
denies, `analyzeWithGrok` returns `generateBasicAnalysis(formData)` with no
effect: no request is sent, the cache is neither read nor written, the flags
are unchanged and no timestamp is added to a limiter. -/
theorem analyzeWithGrok_fallback_frame (env : AiEnv) (config : ApiConfig) (api : AIApi)
    (formData : FormData)
    (h : config.grokEnabled = false ∨
      (api.grokLimiter.canMakeRequest env.tCheck).2 = false) :
    (analyzeWithGrok env config api formData).result =
        .ok (.str (generateBasicAnalysis env.toLowerCase formData)) ∧
    (analyzeWithGrok env config api formData).effects = [] ∧
    (analyzeWithGrok env config api formData).api.cache = api.cache ∧
    (analyzeWithGrok env config api formData).config = config ∧
    List.Sublist (analyzeWithGrok env config api formData).api.grokLimiter.requests
      api.grokLimiter.requests ∧
    (analyzeWithGrok env config api formData).api.geminiLimiter = api.geminiLimiter := by
  by_cases hen : config.grokEnabled = false
  · simp [analyzeWithGrok, hen]
  · have hden : (api.grokLimiter.canMakeRequest env.tCheck).2 = false := by
      rcases h with h | h
      · exact absurd h hen
      · exact h
    have hen1 : config.grokEnabled = true := by simpa using hen
    simp only [analyzeWithGrok, hen1, hden]
    exact ⟨rfl, rfl, rfl, rfl, filter_sublist_requests _ _, rfl⟩

/-- C7 at the concrete prospect: once with the provider disabled, once with the
limiter used up. -/
theorem analyzeWithGrok_fallback_frame_witness :
    (analyzeWithGrok demoAiEnv { grokEnabled := false, geminiEnabled := true } demoAIApi
      acmeForm).effects = [] ∧
    (analyzeWithGrok demoAiEnv { grokEnabled := true, geminiEnabled := true } busyAIApi
      acmeForm).effects = [] :=
  ⟨(analyzeWithGrok_fallback_frame demoAiEnv _ demoAIApi acmeForm (Or.inl rfl)).2.1,
   (analyzeWithGrok_fallback_frame demoAiEnv _ busyAIApi acmeForm (Or.inr (by rfl))).2.1⟩

set_option maxRecDepth 100000 in
/-- C8 on the prospect `{ cnpj: '11222333000181', company: { name: 'Acme' } }`
with `API_CONFIG.GROK.enabled` false: `analyzeWithGrok` returns the text of the
second `generateBasicAnalysis`, in which the name `Acme` does not occur; the
first definition, which the second one replaces, does print it. -/
theorem analyzeWithGrok_disabled_omits_name :
    (analyzeWithGrok demoAiEnv { grokEnabled := false, geminiEnabled := true } demoAIApi
        acmeForm).result =
      .ok (.str (generateBasicAnalysis demoAiEnv.toLowerCase acmeForm)) ∧
    ¬ ("Acme".toList <:+: generateBasicAnalysis demoAiEnv.toLowerCase acmeForm) ∧
    "Acme".toList <:+:
      generateBasicAnalysis_first demoAiEnv.toLowerCase "04/11/2026".toList acmeForm := by
  refine ⟨rfl, ?_, ?_⟩
  · rw [← includes_iff]
    decide
  · rw [← includes_iff]
    decide

/-- C9 on the same prospect with `API_CONFIG.GEMINI.enabled` false (and a
limiter that permits, an empty cache): `analyzeWithGemini` sends its request to
the Gemini endpoint and returns the text of the answer. -/
theorem analyzeWithGemini_ignores_enabled :
    (analyzeWithGemini demoAiEnv { grokEnabled := true, geminiEnabled := false } demoAIApi
        acmeForm).effects =
      [.cacheGet "gemini_eyJjbnBqIjoiMTEy".toList, .fetch .gemini,
        .cacheSet "gemini_eyJjbnBqIjoiMTEy".toList (.str "Perfil".toList),
        .record .gemini] ∧
    (analyzeWithGemini demoAiEnv { grokEnabled := true, geminiEnabled := false } demoAIApi
        acmeForm).result = .ok (.str "Perfil".toList) := by
  constructor <;> rfl

theorem grokRequest_failures (env : AiEnv) (config : ApiConfig) :
    (∀ e, env.grok = .rejected e → (grokRequest env config).1 = .error e) ∧
    (∀ r, env.grok = .resolved r → r.ok = false →
      ∃ e, (grokRequest env config).1 = .error e) ∧
    (∀ r e, env.grok = .resolved r → r.ok = true → r.json = .error e →
      (grokRequest env config).1 = .error e) ∧
    (∀ r data, env.grok = .resolved r → r.ok = true → r.json = .ok data →
      (∀ v, grokContent env.nullPropertyMessage data = .ok v → v.truthy = false) →
      ∃ e, (grokRequest env config).1 = .error e) := by
  refine ⟨fun e h => ?_, fun r h hok => ?_, fun r e h hok hj => ?_, fun r data h hok hj hc => ?_⟩
  · simp [grokRequest, h]
  · simp [grokRequest, h, hok]
  · simp [grokRequest, h, hok, hj]
  · simp only [grokRequest, h, hok, hj]
    cases hg : grokContent env.nullPropertyMessage data with
    | error e => exact ⟨e, rfl⟩
    | ok v => simp [hc v hg]

/-- C10: the two providers differ on a failure. `analyzeWithGrok` returns
`generateBasicAnalysis(formData)` when its limiter denies and, once the cache
key is computed and the cache has no entry, when the request fails (the
`fetch` rejects, the status is not 2xx, the body does not parse, or it holds no
content); `analyzeWithGemini`, which lacks that fallback, throws
`Rate limit excedido para Gemini API` when its limiter denies and rethrows the
error of a failed request, so the error reaches the caller. -/
theorem analyze_failure_policy (env : AiEnv) (config : ApiConfig) (api : AIApi)
    (formData : FormData) :
    (config.grokEnabled = true → (api.grokLimiter.canMakeRequest env.tCheck).2 = false →
      (analyzeWithGrok env config api formData).result =
        .ok (.str (generateBasicAnalysis env.toLowerCase formData))) ∧
    (∀ key e, config.grokEnabled = true →
      (api.grokLimiter.canMakeRequest env.tCheck).2 = true →
      generateCacheKey formData = .ok key →
      cachedValue (api.cache.get ("grok_".toList ++ key) env.tGet) = none →
      (grokRequest env config).1 = .error e →
      (analyzeWithGrok env config api formData).result =
        .ok (.str (generateBasicAnalysis env.toLowerCase formData))) ∧
    ((∀ e, env.grok = .rejected e → (grokRequest env config).1 = .error e) ∧
      (∀ r, env.grok = .resolved r → r.ok = false →
        ∃ e, (grokRequest env config).1 = .error e) ∧
      (∀ r e, env.grok = .resolved r → r.ok = true → r.json = .error e →
        (grokRequest env config).1 = .error e) ∧
      (∀ r data, env.grok = .resolved r → r.ok = true → r.json = .ok data →
        (∀ v, grokContent env.nullPropertyMessage data = .ok v → v.truthy = false) →
        ∃ e, (grokRequest env config).1 = .error e)) ∧
    ((api.geminiLimiter.canMakeRequest env.tCheck).2 = false →
      (analyzeWithGemini env config api formData).result =
        .error (mkError "Rate limit excedido para Gemini API".toList)) ∧
    (∀ key e, (api.geminiLimiter.canMakeRequest env.tCheck).2 = true →
      generateCacheKey formData = .ok key →
      cachedValue (api.cache.get ("gemini_".toList ++ key) env.tGet) = none →
      geminiRequest env = .error e →
      (analyzeWithGemini env config api formData).result = .error e) := by
  refine ⟨fun hen hden => ?_, fun key e hen hal hkey hmiss hreq => ?_,
    grokRequest_failures env config, fun hden => ?_, fun key e hal hkey hmiss hreq => ?_⟩
  · simp [analyzeWithGrok, hen, hden]
  · simp only [analyzeWithGrok, hen, hal, hkey, hmiss]
    cases hr : grokRequest env config with
    | mk res cfg =>
      rw [hr] at hreq
      simp only at hreq
      subst hreq
      rfl
  · simp [analyzeWithGemini, hden]
  · simp only [analyzeWithGemini, hal, hkey, hmiss, hreq]
    rfl

/-- C10 at the concrete prospect: the Grok endpoint answers 500 and
`analyzeWithGrok` returns the template; the Gemini limiter is used up and
`analyzeWithGemini` throws. -/
theorem analyze_failure_policy_witness :
    (analyzeWithGrok demoAiEnv { grokEnabled := true, geminiEnabled := true } demoAIApi
        acmeForm).result =
      .ok (.str (generateBasicAnalysis demoAiEnv.toLowerCase acmeForm)) ∧
    (analyzeWithGemini demoAiEnv { grokEnabled := true, geminiEnabled := true } busyAIApi
        acmeForm).result =
      .error (mkError "Rate limit excedido para Gemini API".toList) :=
  ⟨(analyze_failure_policy demoAiEnv _ demoAIApi acmeForm).2.1 "eyJjbnBqIjoiMTEy".toList
      (mkError "Erro 500: Internal Server Error".toList) rfl rfl rfl rfl rfl,
   (analyze_failure_policy demoAiEnv { grokEnabled := true, geminiEnabled := true }
      busyAIApi acmeForm).2.2.2.1 rfl⟩

/-- C10 as stated, for the Gemini provider: with its limiter used up
`analyzeWithGemini` throws instead of returning the template, and so it does
when the endpoint answers 500. -/
theorem analyzeWithGemini_propagates :
    (analyzeWithGemini demoAiEnv { grokEnabled := true, geminiEnabled := true } busyAIApi
        acmeForm).result =
      .error (mkError "Rate limit excedido para Gemini API".toList) ∧
    (analyzeWithGemini { demoAiEnv with gemini := demoAiEnv.grok }
        { grokEnabled := true, geminiEnabled := true } demoAIApi acmeForm).result =
      .error (mkError "Erro na API Gemini: Internal Server Error".toList) := by
  constructor <;> rfl

theorem digitValue_injective (a b : Char) (ha : isDigitChar a = true) (hb : isDigitChar b = true)
    (h : digitValue a = digitValue b) : a = b := by
  simp only [isDigitChar, Bool.and_eq_true, decide_eq_true_eq] at ha hb
  simp only [digitValue] at h
  apply Char.ext
  apply UInt32.ext
  have h1 : a.toNat = b.toNat := by omega
  simpa [Char.toNat, UInt32.toNat] using h1

/-- C13: when `validateCNPJ` accepts a string of 14 digits, it rejects every
string obtained by putting a different digit at index 12, and every string
obtained by putting a different digit at index 13. -/
theorem validateCNPJ_check_digit_mutation (s : JSString) (d : Char)
    (hlen : s.length = 14) (hdig : ∀ c ∈ s, isDigitChar c = true)
    (hvalid : validateCNPJ s = true) (hd : isDigitChar d = true) :
    (d ≠ s.getD 12 '0' → validateCNPJ (s.set 12 d) = false) ∧
    (d ≠ s.getD 13 '0' → validateCNPJ (s.set 13 d) = false) := by
  obtain ⟨c0, c1, c2, c3, c4, c5, c6, c7, c8, c9, c10, c11, c12, c13, rfl⟩ := length14 s hlen
  have hspec := (validate_iff14 _ _ _ _ _ _ _ _ _ _ _ _ _ _ hdig).mp hvalid
  have hd12 : isDigitChar c12 = true := hdig c12 (by simp)
  have hd13 : isDigitChar c13 = true := hdig c13 (by simp)
  constructor
  · intro hne
    have hdig2 : ∀ c ∈ [c0, c1, c2, c3, c4, c5, c6, c7, c8, c9, c10, c11, d, c13],
        isDigitChar c = true := by
      intro c hc
      simp only [List.mem_cons, List.mem_singleton, List.not_mem_nil, or_false] at hc
      rcases hc with h | h | h | h | h | h | h | h | h | h | h | h | h | h <;>
        first
        | (subst h; exact hd)
        | (subst h; exact hdig _ (by simp))
    by_contra hacc
    have hacc1 : validateCNPJ [c0, c1, c2, c3, c4, c5, c6, c7, c8, c9, c10, c11, d, c13] = true := by
      simpa [List.set] using hacc
    have hspec2 := (validate_iff14 _ _ _ _ _ _ _ _ _ _ _ _ _ _ hdig2).mp hacc1
    have e1 := hspec.2.1
    have e2 := hspec2.2.1
    simp only [List.getD_cons_succ, List.getD_cons_zero, weightedSum, w1, List.zipWith] at e1 e2
    exact hne (digitValue_injective d c12 hd hd12 (e2.trans e1.symm))
  · intro hne
    have hdig2 : ∀ c ∈ [c0, c1, c2, c3, c4, c5, c6, c7, c8, c9, c10, c11, c12, d],
        isDigitChar c = true := by
      intro c hc
      simp only [List.mem_cons, List.mem_singleton, List.not_mem_nil, or_false] at hc
      rcases hc with h | h | h | h | h | h | h | h | h | h | h | h | h | h <;>
        first
        | (subst h; exact hd)
        | (subst h; exact hdig _ (by simp))
    by_contra hacc
    have hacc1 : validateCNPJ [c0, c1, c2, c3, c4, c5, c6, c7, c8, c9, c10, c11, c12, d] = true := by
      simpa [List.set] using hacc
    have hspec2 := (validate_iff14 _ _ _ _ _ _ _ _ _ _ _ _ _ _ hdig2).mp hacc1
    have e1 := hspec.2.2
    have e2 := hspec2.2.2
    simp only [List.getD_cons_succ, List.getD_cons_zero, weightedSum, w2, List.zipWith] at e1 e2
    exact hne (digitValue_injective d c13 hd hd13 (e2.trans e1.symm))

/-- C13 at `11222333000181`: with `9` at index 12, and with `7` at index 13,
the number is rejected. -/
theorem validateCNPJ_check_digit_mutation_witness :
    validateCNPJ "11222333000191".toList = false ∧
    validateCNPJ "11222333000187".toList = false :=
  ⟨(validateCNPJ_check_digit_mutation "11222333000181".toList '9' (by decide) (by decide)
      (by decide) (by decide)).1 (by decide),
   (validateCNPJ_check_digit_mutation "11222333000181".toList '7' (by decide) (by decide)
      (by decide) (by decide)).2 (by decide)⟩

/-! ### The window invariant of `RateLimiter` -/

theorem inWindow_le_length (r : RateLimiter) (now : Int) : r.inWindow now ≤ r.requests.length :=
  List.countP_le_length _

theorem guarded_invariant (calls : List LimiterCall) :
    ∀ (r : RateLimiter) (permitted : Bool),
      (∀ now, (r.inWindow now : Int) ≤ r.maxRequests) →
      (permitted = true → (r.requests.length : Int) < r.maxRequests) →
      r.guarded permitted calls = true →
      ∀ now, ((r.runCalls calls).inWindow now : Int) ≤ r.maxRequests := by
  induction calls with
  | nil =>
    intro r permitted hinv _ _ now
    exact hinv now
  | cons call rest ih =>
    intro r permitted hinv hperm hg now
    cases call with
    | canMakeRequest t =>
      simp only [RateLimiter.guarded] at hg
      simp only [RateLimiter.runCalls]
      refine ih (r.canMakeRequest t).1 (r.canMakeRequest t).2 ?_ ?_ hg now
      · intro now1
        have hsub : List.Sublist (r.canMakeRequest t).1.requests r.requests := by
          simp [RateLimiter.canMakeRequest]
        have hle : (r.canMakeRequest t).1.inWindow now1 ≤ r.inWindow now1 := by
          simp only [RateLimiter.inWindow]
          exact hsub.countP_le _
        have := hinv now1
        have hm : (r.canMakeRequest t).1.maxRequests = r.maxRequests := rfl
        have hw : (r.canMakeRequest t).1.windowMs = r.windowMs := rfl
        rw [hm]
        omega
      · intro h
        simpa [RateLimiter.canMakeRequest] using h
    | recordRequest t =>
      simp only [RateLimiter.guarded, Bool.and_eq_true] at hg
      simp only [RateLimiter.runCalls]
      have hlt := hperm hg.1
      refine ih (r.recordRequest t) false ?_ (fun h => by cases h) hg.2 now
      intro now1
      have h1 := inWindow_le_length (r.recordRequest t) now1
      have h2 : (r.recordRequest t).requests.length = r.requests.length + 1 := by
        simp [RateLimiter.recordRequest]
      have hm : (r.recordRequest t).maxRequests = r.maxRequests := rfl
      rw [hm]
      omega

/-- C14, for the discipline of the clients: from a fresh limiter with
`maxRequests ≥ 0`, after any sequence of calls in which every
`recordRequest()` directly follows a `canMakeRequest()` that answered true, the
number of stored timestamps inside the trailing window of any clock value is at
most `maxRequests`. -/
theorem rateWindow_invariant (L W : Int) (calls : List LimiterCall) (hL : 0 ≤ L)
    (hg : (RateLimiter.create L W).guarded false calls = true) (now : Int) :
    ((((RateLimiter.create L W).runCalls calls).inWindow now : Nat) : Int) ≤ L :=
  guarded_invariant calls (RateLimiter.create L W) false
    (fun now1 => by simpa [RateLimiter.inWindow, RateLimiter.create] using hL)
    (fun h => by cases h) hg now

/-- C14 at a limiter of 2 requests per minute: a check, a record, a check, a
record, and a third check that is denied. -/
theorem rateWindow_invariant_witness :
    ((((RateLimiter.create 2 60000).runCalls
      [.canMakeRequest 0, .recordRequest 5, .canMakeRequest 10, .recordRequest 15,
        .canMakeRequest 20]).inWindow 20 : Nat) : Int) ≤ 2 :=
  rateWindow_invariant 2 60000 _ (by decide) (by rfl) 20

/-- C14 as stated: three calls of `recordRequest()` at time 0 on a fresh limiter
of 2 requests per minute, at non-decreasing clock values, leave 3 timestamps
inside the window. -/
theorem rateWindow_unguarded_record :
    List.Pairwise (fun a b => a ≤ b)
      ([LimiterCall.recordRequest 0, .recordRequest 0, .recordRequest 0].map
        LimiterCall.time) ∧
    ((RateLimiter.create 2 60000).runCalls
      [.recordRequest 0, .recordRequest 0, .recordRequest 0]).inWindow 0 = 3 ∧
    ((RateLimiter.create 2 60000).runCalls
      [.recordRequest 0, .recordRequest 0, .recordRequest 0]).maxRequests = 2 := by
  refine ⟨by decide, by rfl, rfl⟩

/-! ### `getCompanyData` on an invalid number -/

/-- C15: when `validateCNPJ` rejects the digits of the input, `getCompanyData`
throws `CNPJ inválido` with no effect: no cache lookup, no call on the limiter,
no request; the object is unchanged. -/
theorem getCompanyData_invalid {ρ : Type} (env : Env ρ) (api : CNPJApi ρ) (cnpj : JSString)
    (h : validateCNPJ (cleanDigits cnpj) = false) :
    (getCompanyData env api cnpj).result = .error (mkError "CNPJ inválido".toList) ∧
    (getCompanyData env api cnpj).effects = [] ∧
    (getCompanyData env api cnpj).queried = [] ∧
    (getCompanyData env api cnpj).api = api := by
  simp [getCompanyData, h, Run.queried]

/-- C15 at the input `00.000.000/0000-00`. -/
theorem getCompanyData_invalid_witness :
    (getCompanyData demoEnv demoApi "00.000.000/0000-00".toList).effects = [] :=
  (getCompanyData_invalid demoEnv demoApi "00.000.000/0000-00".toList (by decide)).2.1

/-! ### `identifyBusinessType` -/

/-- C16 on the activities `Pizzaria` and `Bar e petiscos`: the
`identifyBusinessType` the class resolves to answers the generic label
`Estabelecimento alimentício` for both; the first definition, which it
replaces, answers the pizzeria and the bar label. -/
theorem identifyBusinessType_resolved_lacks_pizza_bar :
    identifyBusinessType (fun s => s.map Char.toLower) pizzaForm =
      "Estabelecimento alimentício".toList ∧
    identifyBusinessType (fun s => s.map Char.toLower) barForm =
      "Estabelecimento alimentício".toList ∧
    identifyBusinessType_first (fun s => s.map Char.toLower) pizzaForm =
      "Pizzaria 🍕".toList ∧
    identifyBusinessType_first (fun s => s.map Char.toLower) barForm =
      "Bar/Lancheria 🍻".toList := by
  refine ⟨?_, ?_, ?_, ?_⟩ <;> decide

/-! ### `getCompanySize` -/

/-- C12 on the share capital `'81000.00'` (and on the number `81000.5`): the
decimal point is removed with every character that is neither a digit nor a
comma, the value read is 8100000 (resp. 810005), and the size is
`Empresa de Grande Porte` (resp. `Empresa de Médio Porte`). -/
theorem getCompanySize_decimal_point :
    parseFloat (replaceComma ("81000.00".toList.filter (fun c => isDigitChar c || c == ','))) =
      .fin 8100000 ∧
    getCompanySize (fun s => s.map Char.toLower) (.text "81000.00".toList) =
      "Empresa de Grande Porte".toList ∧
    getCompanySize (fun s => s.map Char.toLower) (.number "81000.5".toList) =
      "Empresa de Médio Porte".toList := by
  have h1 : parseFloat
      (replaceComma ("81000.00".toList.filter (fun c => isDigitChar c || c == ','))) =
      .fin 8100000 := by
    simp [parseFloat, replaceComma, splitSign, isDigitChar, isStrWhiteSpace, digitsValue,
      digitValue, exponentOf, List.filter, List.takeWhile, List.dropWhile, List.isPrefixOf]
  have h2 : parseFloat
      (replaceComma ("81000.5".toList.filter (fun c => isDigitChar c || c == ','))) =
      .fin 810005 := by
    simp [parseFloat, replaceComma, splitSign, isDigitChar, isStrWhiteSpace, digitsValue,
      digitValue, exponentOf, List.filter, List.takeWhile, List.dropWhile, List.isPrefixOf]
  refine ⟨h1, ?_, ?_⟩
  · have hm : includes ("81000.00".toList.map Char.toLower) "mei".toList = false := by decide
    simp only [getCompanySize, hm, Capital.toStr, h1]
    simp [JsNum.isNaNOrZero, JsNum.le]
    norm_num
  · simp only [getCompanySize, Capital.toStr, h2]
    simp [JsNum.isNaNOrZero, JsNum.le]
    norm_num

/-! ### The flag `API_CONFIG.GROK.enabled` -/

theorem analyzeWithGemini_config (env : AiEnv) (config : ApiConfig) (api : AIApi)
    (formData : FormData) : (analyzeWithGemini env config api formData).config = config := by
  unfold analyzeWithGemini
  simp only
  split
  · rfl
  · split
    · rfl
    · split
      · rfl
      · split <;> rfl

theorem analyzeWithGrok_disabled (env : AiEnv) (config : ApiConfig) (api : AIApi)
    (formData : FormData) (h : config.grokEnabled = false) :
    analyzeWithGrok env config api formData =
      { result := .ok (.str (generateBasicAnalysis env.toLowerCase formData)),
        api := api, config := config, effects := [] } := by
  simp [analyzeWithGrok, h]

theorem runAiCalls_flag_stays_false (calls : List AiCall) :
    ∀ state : ApiConfig × AIApi, state.1.grokEnabled = false →
      (runAiCalls state calls).1.grokEnabled = false := by
  induction calls with
  | nil => intro state h; exact h
  | cons call rest ih =>
    intro state h
    simp only [runAiCalls, List.foldl_cons]
    apply ih
    cases call with
    | analyzeWithGrok env formData =>
      simp only [AiCall.run, analyzeWithGrok_disabled env state.1 state.2 formData h]
      exact h
    | analyzeWithGemini env formData =>
      simp only [AiCall.run, analyzeWithGemini_config]
      exact h
    | analyzeMenu env menuContent => exact h
    | generateSalesScript env company products => exact h

/-- C17: when the Grok endpoint answers the request of `analyzeWithGrok` with
status 403, the template is returned and `API_CONFIG.GROK.enabled` is false
afterwards; it stays false through every sequence of operations of `AIApi`, and
every later `analyzeWithGrok` returns the template without any effect. With
status 429 the template is returned and the flags are unchanged. -/
theorem analyzeWithGrok_status_policy (env : AiEnv) (config : ApiConfig) (api : AIApi)
    (formData : FormData) (key : JSString) (r : FetchResponse)
    (hen : config.grokEnabled = true)
    (hal : (api.grokLimiter.canMakeRequest env.tCheck).2 = true)
    (hkey : generateCacheKey formData = .ok key)
    (hmiss : cachedValue (api.cache.get ("grok_".toList ++ key) env.tGet) = none)
    (hresp : env.grok = .resolved r) :
    (r.status = 403 →
      (analyzeWithGrok env config api formData).result =
        .ok (.str (generateBasicAnalysis env.toLowerCase formData)) ∧
      (analyzeWithGrok env config api formData).config.grokEnabled = false ∧
      ∀ (calls : List AiCall) (env2 : AiEnv) (formData2 : FormData),
        (runAiCalls ((analyzeWithGrok env config api formData).config,
          (analyzeWithGrok env config api formData).api) calls).1.grokEnabled = false ∧
        (analyzeWithGrok env2
          (runAiCalls ((analyzeWithGrok env config api formData).config,
            (analyzeWithGrok env config api formData).api) calls).1
          (runAiCalls ((analyzeWithGrok env config api formData).config,
            (analyzeWithGrok env config api formData).api) calls).2 formData2).result =
          .ok (.str (generateBasicAnalysis env2.toLowerCase formData2)) ∧
        (analyzeWithGrok env2
          (runAiCalls ((analyzeWithGrok env config api formData).config,
            (analyzeWithGrok env config api formData).api) calls).1
          (runAiCalls ((analyzeWithGrok env config api formData).config,
            (analyzeWithGrok env config api formData).api) calls).2 formData2).effects = []) ∧
    (r.status = 429 →
      (analyzeWithGrok env config api formData).result =
        .ok (.str (generateBasicAnalysis env.toLowerCase formData)) ∧
      (analyzeWithGrok env config api formData).config = config) := by
  constructor
  · intro h403
    have hok : r.ok = false := by simp [FetchResponse.ok, h403]
    have hreq : grokRequest env config =
        (.error (mkError ("Erro ".toList ++ (Nat.repr r.status).toList ++ ": ".toList ++
          r.statusText)), { config with grokEnabled := false }) := by
      simp [grokRequest, hresp, hok, h403]
    have hrun : analyzeWithGrok env config api formData =
        { result := .ok (.str (generateBasicAnalysis env.toLowerCase formData)),
          api := { api with grokLimiter := (api.grokLimiter.canMakeRequest env.tCheck).1 },
          config := { config with grokEnabled := false },
          effects := [.cacheGet ("grok_".toList ++ key), .fetch .grok] } := by
      simp only [analyzeWithGrok, hen, hal, hkey, hmiss, hreq]
      rfl
    rw [hrun]
    refine ⟨rfl, rfl, fun calls env2 formData2 => ?_⟩
    have hflag := runAiCalls_flag_stays_false calls
      ({ config with grokEnabled := false },
        { api with grokLimiter := (api.grokLimiter.canMakeRequest env.tCheck).1 }) rfl
    refine ⟨hflag, ?_, ?_⟩
    · rw [analyzeWithGrok_disabled env2 _ _ formData2 hflag]
    · rw [analyzeWithGrok_disabled env2 _ _ formData2 hflag]
  · intro h429
    have hok : r.ok = false := by simp [FetchResponse.ok, h429]
    have hreq : grokRequest env config =
        (.error (mkError ("Erro ".toList ++ (Nat.repr r.status).toList ++ ": ".toList ++
          r.statusText)), config) := by
      simp [grokRequest, hresp, hok, h429]
    simp only [analyzeWithGrok, hen, hal, hkey, hmiss, hreq]
    exact ⟨rfl, rfl⟩

/-- C17 at the concrete prospect: the endpoint answers 403, then the flag is
false after a later `analyzeWithGemini` and a later `generateSalesScript`; and
with 429 the flags are unchanged. -/
theorem analyzeWithGrok_status_policy_witness :
    (runAiCalls
      ((analyzeWithGrok (grokStatusEnv 403 "Forbidden".toList)
          { grokEnabled := true, geminiEnabled := true } demoAIApi acmeForm).config,
        (analyzeWithGrok (grokStatusEnv 403 "Forbidden".toList)
          { grokEnabled := true, geminiEnabled := true } demoAIApi acmeForm).api)
      [.analyzeWithGemini demoAiEnv acmeForm,
        .generateSalesScript demoAiEnv demoCompany demoProducts]).1.grokEnabled = false ∧
    (analyzeWithGrok (grokStatusEnv 429 "Too Many Requests".toList)
      { grokEnabled := true, geminiEnabled := true } demoAIApi acmeForm).config.grokEnabled =
      true :=
  ⟨(((analyzeWithGrok_status_policy (grokStatusEnv 403 "Forbidden".toList)
      { grokEnabled := true, geminiEnabled := true } demoAIApi acmeForm
      "eyJjbnBqIjoiMTEy".toList _ rfl rfl rfl rfl rfl).1 rfl).2.2
      [.analyzeWithGemini demoAiEnv acmeForm,
        .generateSalesScript demoAiEnv demoCompany demoProducts] demoAiEnv acmeForm).1,
   congrArg ApiConfig.grokEnabled
     ((analyzeWithGrok_status_policy (grokStatusEnv 429 "Too Many Requests".toList)
      { grokEnabled := true, geminiEnabled := true } demoAIApi acmeForm
      "eyJjbnBqIjoiMTEy".toList _ rfl rfl rfl rfl rfl).2 rfl).2⟩

/-! ### `generateSalesScript` -/

/-- C18 with the Grok endpoint answering 500 and the Gemini endpoint ready to
answer 200 with a text: `generateSalesScript` sends one request, to Grok, and
returns `generateBasicScript(company, products)`; `analyzeMenu`, in the same
surroundings, returns the analysis of the Gemini text. -/
theorem generateSalesScript_single_provider (parsers : MenuParsers Json) :
    queryGemini demoAiEnv = .ok (.str "Perfil".toList) ∧
    (generateSalesScript demoAiEnv demoCompany demoProducts).effects = [.fetch .grok] ∧
    (generateSalesScript demoAiEnv demoCompany demoProducts).result =
      generateBasicScript demoCompany demoProducts ∧
    (analyzeMenu demoAiEnv parsers "Pizza".toList).result =
      parsers.parseMenuAnalysis (.str "Perfil".toList) := by
  refine ⟨rfl, rfl, rfl, rfl⟩

/-! ### The pattern with a description -/

/-- C19 on the line `Marguerita - mussarela e manjericao fresco - R$ 35,00`:
the plain pattern does not match; the second pattern matches with the three
groups name, description and price, and the item built from it has the price
`parseFloat` of the description, `NaN`, and the description `35,00`; it is not
accepted, and `extractMenuItems` returns no item. -/
theorem extractMenuItems_description_line (toLowerCase : JSString → JSString) :
    pattern1.execAll menuLineWithDescription 0 = [] ∧
    (pattern2.execAll menuLineWithDescription 0).map (fun m => m.caps) =
      [[(3, "35,00".toList), (2, "mussarela e manjericao fresco ".toList),
        (1, "Marguerita ".toList)]] ∧
    (pattern2.execAll menuLineWithDescription 0).map itemOfMatch =
      [{ name := "Marguerita".toList, price := .nan, description := "35,00".toList,
         rawText := menuLineWithDescription }] ∧
    extractMenuItems toLowerCase menuLineWithDescription = [] := by
  have h1 : pattern1.execAll menuLineWithDescription 0 = [] := by rfl
  have h3 : pattern3.execAll menuLineWithDescription 0 = [] := by rfl
  have h2 : (pattern2.execAll menuLineWithDescription 0).map itemOfMatch =
      [{ name := "Marguerita".toList, price := .nan, description := "35,00".toList,
         rawText := menuLineWithDescription }] := by rfl
  refine ⟨h1, by rfl, h2, ?_⟩
  have hc : collectItems menuLineWithDescription = [] := by
    simp only [collectItems, patterns, List.flatMap_cons, List.flatMap_nil, h1, h2, h3,
      List.map_nil, List.filter_nil, List.append_nil, List.nil_append]
    rfl
  simp [extractMenuItems, hc, uniqueByName]

/-! ### The items of `extractMenuItems` -/

theorem find?_eq_getElem?_findIdx {α : Type} (p : α → Bool) (l : List α) :
    l.find? p = l[l.findIdx p]? := by
  induction l with
  | nil => rfl
  | cons a t ih =>
    rw [List.findIdx_cons, List.find?_cons]
    cases h : p a
    · simp [ih]
    · simp

theorem uniqueByName_sublist (toLowerCase : JSString → JSString) (items : List MenuItem) :
    List.Sublist (uniqueByName toLowerCase items) items := by
  have h := (List.filter_sublist (l := items.enum) (p := fun p =>
    items.findIdx (fun i => toLowerCase i.name == toLowerCase p.2.name) == p.1)).map Prod.snd
  rw [List.enum_map_snd] at h
  exact h

theorem uniqueByName_pairwise (toLowerCase : JSString → JSString) (items : List MenuItem) :
    (uniqueByName toLowerCase items).Pairwise
      (fun a b => toLowerCase a.name ≠ toLowerCase b.name) := by
  have hnd : items.enum.Pairwise (fun p q => p.1 ≠ q.1) := by
    have h : (items.enum.map Prod.fst).Nodup := by
      rw [List.enum_map_fst]
      exact List.nodup_range _
    exact List.Pairwise.of_map Prod.fst (fun _ _ h => h) h
  have hf := hnd.sublist (List.filter_sublist (l := items.enum) (p := fun p =>
    items.findIdx (fun i => toLowerCase i.name == toLowerCase p.2.name) == p.1))
  unfold uniqueByName
  rw [List.pairwise_map]
  refine List.Pairwise.imp_of_mem ?_ hf
  intro a b ha hb hne heq
  simp only [List.mem_filter, beq_iff_eq] at ha hb
  apply hne
  rw [← ha.2, ← hb.2, heq]

theorem uniqueByName_first (toLowerCase : JSString → JSString) (items : List MenuItem)
    (c : MenuItem) (hc : c ∈ items) :
    ∃ f, items.find? (fun i => toLowerCase i.name == toLowerCase c.name) = some f ∧
      f ∈ uniqueByName toLowerCase items := by
  cases hfind : items.find? (fun i => toLowerCase i.name == toLowerCase c.name) with
  | none =>
    rw [List.find?_eq_none] at hfind
    exact absurd (by simp) (hfind c hc)
  | some f =>
    refine ⟨f, rfl, ?_⟩
    have hp := List.find?_some (p := fun i : MenuItem =>
      toLowerCase i.name == toLowerCase c.name) (a := f) hfind
    have heq : toLowerCase f.name = toLowerCase c.name := by simpa using hp
    have hidx : items[items.findIdx
        (fun i => toLowerCase i.name == toLowerCase c.name)]? = some f := by
      rw [← find?_eq_getElem?_findIdx]
      exact hfind
    unfold uniqueByName
    rw [List.mem_map]
    refine ⟨(items.findIdx (fun i => toLowerCase i.name == toLowerCase c.name), f), ?_, rfl⟩
    rw [List.mem_filter]
    refine ⟨List.mk_mem_enum_iff_getElem?.mpr hidx, ?_⟩
    simp [heq]

theorem collectItems_accepted (text : JSString) (item : MenuItem)
    (h : item ∈ collectItems text) : acceptItem item = true := by
  simp only [collectItems, List.mem_flatMap, List.mem_filter] at h
  obtain ⟨_, _, _, hacc⟩ := h
  exact hacc

/-- C20: every item `extractMenuItems` returns has a name of more than 3 code
units and a price above 0; no two returned items have the same lower-case
name; for every candidate extracted, the first candidate with its lower-case
name is among the items returned; and the items returned keep the order of
extraction. -/
theorem extractMenuItems_invariants (toLowerCase : JSString → JSString) (text : JSString) :
    (∀ item ∈ extractMenuItems toLowerCase text,
      3 < item.name.length ∧ item.price.isPositive = true) ∧
    (extractMenuItems toLowerCase text).Pairwise
      (fun a b => toLowerCase a.name ≠ toLowerCase b.name) ∧
    (∀ c ∈ collectItems text, ∃ f,
      (collectItems text).find? (fun i => toLowerCase i.name == toLowerCase c.name) = some f ∧
      f ∈ extractMenuItems toLowerCase text) ∧
    List.Sublist (extractMenuItems toLowerCase text) (collectItems text) := by
  refine ⟨fun item hitem => ?_, uniqueByName_pairwise _ _,
    fun c hc => uniqueByName_first _ _ c hc, uniqueByName_sublist _ _⟩
  have hmem := (uniqueByName_sublist toLowerCase (collectItems text)).subset hitem
  have hacc := collectItems_accepted text item hmem
  simpa [acceptItem] using hacc

/-! ### `analyzeInstagram` and `analyzeFacebook` -/

theorem firstStrategy_last_truthy (a b : Except JsError Json) (v : Json)
    (hv : v.truthy = true) : ∃ data, firstStrategy [a, b, .ok v] = some data := by
  cases a with
  | error e =>
    cases b with
    | error e2 => exact ⟨v, by simp [firstStrategy, hv]⟩
    | ok y =>
      cases hy : y.truthy
      · exact ⟨v, by simp [firstStrategy, hy, hv]⟩
      · exact ⟨y, by simp [firstStrategy, hy]⟩
  | ok x =>
    cases hx : x.truthy
    · cases b with
      | error e2 => exact ⟨v, by simp [firstStrategy, hx, hv]⟩
      | ok y =>
        cases hy : y.truthy
        · exact ⟨v, by simp [firstStrategy, hx, hy, hv]⟩
        · exact ⟨y, by simp [firstStrategy, hx, hy]⟩
    · exact ⟨x, by simp [firstStrategy, hx]⟩

theorem getInstagramDataSimulated_some (env : SocialEnv) (u : JSString) :
    ∃ v, getInstagramDataSimulated env (some u) = .ok v ∧ v.truthy = true :=
  ⟨_, rfl, rfl⟩

/-- C11 on the handle `!!!`, from which `extractUsername` extracts nothing:
with an empty cache `analyzeInstagram` rejects with the `TypeError` of
`getInstagramDataSimulated(null)`. For every input `analyzeInstagram` resolves
unless `extractUsername` gives `null`, and `analyzeFacebook` always
resolves. -/
theorem analyzeInstagram_null_username :
    (extractUsername "!!!".toList = none ∧
      (analyzeInstagram demoSocialEnv [] "!!!".toList).result =
        .error { name := "TypeError".toList,
                 message := "Cannot read properties of null".toList }) ∧
    (∀ (env : SocialEnv) (cache : Cache Json) (instagram : JSString),
      (∃ v, (analyzeInstagram env cache instagram).result = .ok v) ∨
        extractUsername instagram = none) ∧
    (∀ (env : SocialEnv) (cache : Cache Json) (facebook : JSString),
      ∃ v, (analyzeFacebook env cache facebook).result = .ok v) := by
  refine ⟨⟨by rfl, by rfl⟩, fun env cache instagram => ?_, fun env cache facebook => ?_⟩
  · cases hu : extractUsername instagram with
    | none => exact Or.inr rfl
    | some u =>
      left
      simp only [analyzeInstagram, hu]
      split
      · exact ⟨_, rfl⟩
      · obtain ⟨v, hv, hvt⟩ := getInstagramDataSimulated_some env u
        obtain ⟨data, hdata⟩ := firstStrategy_last_truthy (env.instagramOEmbed u)
          (env.instagramScraping u) v hvt
        rw [hv, hdata]
        exact ⟨_, rfl⟩
  · simp only [analyzeFacebook]
    split
    · exact ⟨_, rfl⟩
    · split
      · exact ⟨_, rfl⟩
      · exact ⟨_, rfl⟩

/-! ### `formatPhone` -/

/-- C26: for every non-empty phone string whose digits, in order, are
`c0 … c9`, `formatPhone` gives `(c0c1) c2c3c4c5-c6c7c8c9`; when they are
`c0 … c10`, it gives `(c0c1) c2c3c4c5c6-c7c8c9c10`; for every other number of
digits it returns the string unchanged. -/
theorem formatPhone_contract (p : JSString) (hp : p ≠ []) :
    (∀ c0 c1 c2 c3 c4 c5 c6 c7 c8 c9 : Char,
      p.filter isDigitChar = [c0, c1, c2, c3, c4, c5, c6, c7, c8, c9] →
      formatPhone p = ['(', c0, c1, ')', ' ', c2, c3, c4, c5, '-', c6, c7, c8, c9]) ∧
    (∀ c0 c1 c2 c3 c4 c5 c6 c7 c8 c9 c10 : Char,
      p.filter isDigitChar = [c0, c1, c2, c3, c4, c5, c6, c7, c8, c9, c10] →
      formatPhone p = ['(', c0, c1, ')', ' ', c2, c3, c4, c5, c6, '-', c7, c8, c9, c10]) ∧
    ((p.filter isDigitChar).length ≠ 10 → (p.filter isDigitChar).length ≠ 11 →
      formatPhone p = p) := by
  have hne : p.isEmpty = false := by
    cases p with
    | nil => exact absurd rfl hp
    | cons c s => rfl
  refine ⟨?_, ?_, ?_⟩
  · intro c0 c1 c2 c3 c4 c5 c6 c7 c8 c9 h
    simp [formatPhone, hne, cleanDigits, h, slice]
  · intro c0 c1 c2 c3 c4 c5 c6 c7 c8 c9 c10 h
    simp [formatPhone, hne, cleanDigits, h, slice]
  · intro h10 h11
    simp [formatPhone, hne, cleanDigits, h10, h11]

/-- C26 at concrete inputs: a land line written with spaces, a mobile number
written with punctuation, and a short number. -/
theorem formatPhone_contract_witness :
    formatPhone "11 3456 7890".toList = "(11) 3456-7890".toList ∧
    formatPhone "+11.98765.4321".toList = "(11) 98765-4321".toList ∧
    formatPhone "0800 123".toList = "0800 123".toList :=
  ⟨(formatPhone_contract "11 3456 7890".toList (by decide)).1 _ _ _ _ _ _ _ _ _ _ (by decide),
   (formatPhone_contract "+11.98765.4321".toList (by decide)).2.1 _ _ _ _ _ _ _ _ _ _ _
     (by decide),
   (formatPhone_contract "0800 123".toList (by decide)).2.2 (by decide) (by decide)⟩

/-! ### `estimateFollowers` -/

theorem randomInt_lt (random : ℚ) (n : Nat) (h0 : 0 ≤ random) (h1 : random < 1)
    (hn : 0 < n) : randomInt random n < n := by
  unfold randomInt
  have hn0 : (0 : ℚ) < n := by exact_mod_cast hn
  have hlt : random * n < n := by nlinarith
  have hfl : ⌊random * (n : ℚ)⌋ < (n : ℤ) := by
    rw [Int.floor_lt]
    exact_mod_cast hlt
  have hnn : 0 ≤ ⌊random * (n : ℚ)⌋ := Int.floor_nonneg.mpr (by positivity)
  omega

/-- C27: for every identifier (absent, empty or not) and every value
`0 ≤ random < 1` of `Math.random()`, `estimateFollowers` returns
`min (base + j) 50000` where `base` is 73 per code unit (500 for an absent or
empty identifier) and the jitter `j` satisfies `100 ≤ j ≤ 2099`; the result is
at least 100 and at most 50000. -/
theorem estimateFollowers_bounds (identifier : Option JSString) (random : ℚ)
    (h0 : 0 ≤ random) (h1 : random < 1) :
    ∃ j : Nat, 100 ≤ j ∧ j ≤ 2099 ∧
      estimateFollowers identifier (randomInt random 2000) =
        min ((match identifier with
              | some s => if s = [] then 500 else 73 * s.length
              | none => 500) + j) 50000 ∧
      100 ≤ estimateFollowers identifier (randomInt random 2000) ∧
      estimateFollowers identifier (randomInt random 2000) ≤ 50000 := by
  have hlt := randomInt_lt random 2000 h0 h1 (by norm_num)
  refine ⟨randomInt random 2000 + 100, by omega, by omega, ?_, ?_, ?_⟩
  · rcases identifier with _ | s
    · simp [estimateFollowers]
    · rcases s with _ | ⟨c, s⟩
      · simp [estimateFollowers]
      · simp [estimateFollowers, Nat.mul_comm]
  · simp only [estimateFollowers]
    omega
  · simp only [estimateFollowers]
    omega

/-- C27 at a concrete input: the handle `pizzaria_do_ze` (14 code units) with
`Math.random()` at one half: the jitter is 1100 and the result 2122. -/
theorem estimateFollowers_bounds_witness :
    ∃ j : Nat, 100 ≤ j ∧ j ≤ 2099 ∧
      estimateFollowers (some "pizzaria_do_ze".toList) (randomInt (1 / 2) 2000) =
        min ((match some "pizzaria_do_ze".toList with
              | some s => if s = [] then 500 else 73 * s.length
              | none => 500) + j) 50000 ∧
      100 ≤ estimateFollowers (some "pizzaria_do_ze".toList) (randomInt (1 / 2) 2000) ∧
      estimateFollowers (some "pizzaria_do_ze".toList) (randomInt (1 / 2) 2000) ≤ 50000 :=
  estimateFollowers_bounds (some "pizzaria_do_ze".toList) (1 / 2) (by norm_num) (by norm_num)

/-! ### `isValidCNPJ` and `validateCNPJ` -/

theorem validateCNPJ_eq_isValidCNPJ (s : JSString) (h : s.length = 14) :
    validateCNPJ s = (!repeatedDigit s && isValidCNPJ s) := by
  have hne : s.isEmpty = false := by
    cases s with
    | nil => simp at h
    | cons c t => rfl
  simp only [validateCNPJ, isValidCNPJ, hne, h]
  cases repeatedDigit s <;> simp

theorem repeatedDigit_iff (s : JSString) (h : s.length = 14) :
    repeatedDigit s = true ↔ ∃ c, isDigitChar c = true ∧ s = List.replicate 14 c := by
  obtain ⟨c0, c1, c2, c3, c4, c5, c6, c7, c8, c9, c10, c11, c12, c13, rfl⟩ := length14 s h
  constructor
  · intro hr
    simp [repeatedDigit] at hr
    refine ⟨c0, hr.1, ?_⟩
    simp [List.replicate, hr.2]
  · rintro ⟨c, hc, hs⟩
    simp [List.replicate] at hs
    simp [repeatedDigit, hs, hc]

theorem isValidCNPJ_replicate (c : Char) (hc : isDigitChar c = true) :
    isValidCNPJ (List.replicate 14 c) = true ↔ c = '0' := by
  have hd : digitValue c < 10 := by
    simp [isDigitChar] at hc
    simp only [digitValue]
    omega
  have h0 : digitValue c = 0 ↔ c = '0' := by
    constructor
    · intro h
      exact digitValue_injective c '0' hc (by decide) (by simpa [digitValue] using h)
    · rintro rfl
      rfl
  rw [← h0]
  simp only [isValidCNPJ, List.replicate, List.map, toNumber_digit c hc, List.length_cons,
    List.length_nil]
  generalize digitValue c = d at hd
  interval_cases d <;> decide

/-- C28: on a string of 14 decimal digits, the validator of the form
`isValidCNPJ` and the validator of the registry client `validateCNPJ` give
different results exactly for `00000000000000`; every other string of 14
identical digits is rejected by `isValidCNPJ` as well. -/
theorem isValidCNPJ_differs_only_on_zeros (s : JSString) (hlen : s.length = 14)
    (hdig : ∀ c ∈ s, isDigitChar c = true) :
    (isValidCNPJ s ≠ validateCNPJ s ↔ s = "00000000000000".toList) ∧
    (∀ c, s = List.replicate 14 c → c ≠ '0' → isValidCNPJ s = false) := by
  constructor
  · rw [validateCNPJ_eq_isValidCNPJ s hlen]
    constructor
    · intro hne
      have hr : repeatedDigit s = true := by
        cases hrd : repeatedDigit s
        · simp [hrd] at hne
        · rfl
      obtain ⟨c, hc, rfl⟩ := (repeatedDigit_iff s hlen).mp hr
      have hv : isValidCNPJ (List.replicate 14 c) = true := by
        cases hv : isValidCNPJ (List.replicate 14 c)
        · rw [hr, hv] at hne
          exact absurd rfl hne
        · rfl
      rw [(isValidCNPJ_replicate c hc).mp hv]
      rfl
    · rintro rfl
      decide
  · rintro c rfl hc0
    have hc : isDigitChar c = true := hdig c (by simp [List.replicate])
    cases hv : isValidCNPJ (List.replicate 14 c)
    · rfl
    · exact absurd ((isValidCNPJ_replicate c hc).mp hv) hc0

/-- C28 at concrete inputs: the form accepts fourteen zeros and the registry
client rejects them; fourteen ones are rejected by the form. -/
theorem isValidCNPJ_differs_only_on_zeros_witness :
    (isValidCNPJ "00000000000000".toList ≠ validateCNPJ "00000000000000".toList ↔
      "00000000000000".toList = "00000000000000".toList) ∧
    isValidCNPJ "11111111111111".toList = false :=
  ⟨(isValidCNPJ_differs_only_on_zeros "00000000000000".toList (by decide) (by decide)).1,
   (isValidCNPJ_differs_only_on_zeros "11111111111111".toList (by decide) (by decide)).2
     '1' (by decide) (by decide)⟩

/-! ### `generateCacheKey` -/

theorem jsonEscape_digit (x : Char) (h : isDigitChar x = true) : jsonEscape x = [x] := by
  simp [isDigitChar] at h
  simp only [jsonEscape]
  rw [if_neg (by omega), if_neg (by omega), if_neg (by omega), if_neg (by omega),
    if_neg (by omega), if_neg (by omega), if_neg (by omega), if_neg (by omega)]

theorem flatMap_jsonEscape_digits (r : JSString) (h : ∀ x ∈ r, isDigitChar x = true) :
    r.flatMap jsonEscape = r := by
  induction r with
  | nil => rfl
  | cons x r ih =>
    rw [List.flatMap_cons, jsonEscape_digit x (h x (by simp)),
      ih (fun y hy => h y (by simp [hy]))]
    rfl

theorem generateCacheKey_digits (f : FormData) (a b c : Char) (r : JSString)
    (hf : f.cnpj = some (a :: b :: c :: r))
    (hd : ∀ x ∈ a :: b :: c :: r, isDigitChar x = true) :
    generateCacheKey f =
      .ok (base64 (("\x7b\"cnpj\":\"".toList ++ [a, b, c]).map Char.toNat)) := by
  have hall : ∀ x ∈ a :: b :: c :: r, x.toNat ≤ 255 := by
    intro x hx
    have := hd x hx
    simp [isDigitChar] at this
    omega
  have hesc := flatMap_jsonEscape_digits (a :: b :: c :: r) hd
  have hok : ∀ m s : Bool,
      btoa (stringifyKeyData (some (a :: b :: c :: r)) m s) =
        .ok (base64 ((stringifyKeyData (some (a :: b :: c :: r)) m s).map Char.toNat)) := by
    intro m s
    unfold btoa
    rw [if_pos]
    simp only [stringifyKeyData, jsonQuote, hesc, List.all_append, List.all_cons, List.all_nil,
      Bool.and_eq_true, decide_eq_true_eq, List.all_eq_true, String.toList]
    have ha := hall a (by simp)
    have hb := hall b (by simp)
    have hc := hall c (by simp)
    have hr : ∀ x ∈ r, x.toNat ≤ 255 := fun x hx => hall x (by simp [hx])
    cases m <;> cases s <;> simp [jsonBool, ha, hb, hc] <;> exact hr
  simp only [generateCacheKey, hf, hok]
  simp [stringifyKeyData, jsonQuote, hesc, base64]

/-- C29: two forms whose `cnpj` fields are strings of decimal digits with the
same first three digits get the same cache key from `generateCacheKey`,
whatever the other digits and the menu and social fields are: the key is the
base64 text of the twelve code units `{"cnpj":"abc`, 16 characters long. -/
theorem generateCacheKey_first_three_digits (f g : FormData) (a b c : Char)
    (r1 r2 : JSString) (hf : f.cnpj = some (a :: b :: c :: r1))
    (hg : g.cnpj = some (a :: b :: c :: r2))
    (hd1 : ∀ x ∈ a :: b :: c :: r1, isDigitChar x = true)
    (hd2 : ∀ x ∈ r2, isDigitChar x = true) :
    generateCacheKey f = generateCacheKey g ∧
    ∃ key : JSString, generateCacheKey f = .ok key ∧ key.length = 16 ∧
      key = base64 (("\x7b\"cnpj\":\"".toList ++ [a, b, c]).map Char.toNat) := by
  have hd2full : ∀ x ∈ a :: b :: c :: r2, isDigitChar x = true := by
    intro x hx
    simp only [List.mem_cons] at hx
    rcases hx with rfl | rfl | rfl | hx
    · exact hd1 _ (by simp)
    · exact hd1 _ (by simp)
    · exact hd1 _ (by simp)
    · exact hd2 x hx
  rw [generateCacheKey_digits f a b c r1 hf hd1, generateCacheKey_digits g a b c r2 hg hd2full]
  exact ⟨rfl, _, rfl, by simp [base64], rfl⟩

/-- C29 at concrete inputs: the forms of two different companies whose numbers
both start with `112` share the key `eyJjbnBqIjoiMTEy`. -/
theorem generateCacheKey_first_three_digits_witness :
    generateCacheKey acmeForm = generateCacheKey otherForm ∧
    ∃ key : JSString, generateCacheKey acmeForm = .ok key ∧ key.length = 16 ∧
      key = base64 (("\x7b\"cnpj\":\"".toList ++ ['1', '1', '2']).map Char.toNat) :=
  generateCacheKey_first_three_digits acmeForm otherForm '1' '1' '2'
    "22333000181".toList "99999000100".toList rfl rfl (by decide) (by decide)

/-! ### `getCompanyData` when every provider fails -/

theorem providerLoop_failed_frame {ρ : Type} (env : Env ρ) (api : CNPJApi ρ)
    (c k : JSString) (urls : List JSString) (le : Option JsError) (q : List RegistryEffect)
    (hq : ∀ e ∈ q, e ≠ .record ∧ ∀ key, e ≠ .cacheSet key)
    (hfail : allProvidersFailed (providerLoop env api c k urls le q).result = true) :
    (providerLoop env api c k urls le q).api = api ∧
    ∀ e ∈ (providerLoop env api c k urls le q).effects, e ≠ .record ∧ ∀ key, e ≠ .cacheSet key := by
  induction urls generalizing le q with
  | nil => exact ⟨rfl, hq⟩
  | cons u rest ih =>
    have hq1 : ∀ e ∈ q ++ [RegistryEffect.fetch (u ++ c)],
        e ≠ .record ∧ ∀ key, e ≠ .cacheSet key := by
      intro e he
      rw [List.mem_append, List.mem_singleton] at he
      rcases he with he | rfl
      · exact hq e he
      · exact ⟨by simp, by simp⟩
    rw [providerLoop] at hfail ⊢
    cases hquery : queryAPI env u c with
    | error err =>
      rw [hquery] at hfail
      exact ih _ _ hq1 hfail
    | ok data =>
      rw [hquery] at hfail
      simp only at hfail ⊢
      by_cases hdata : (data.truthy && !(data.getField "erro".toList).truthy) = true
      · rw [if_pos hdata] at hfail ⊢
        cases hproc : env.processCompanyData data with
        | error err =>
          rw [hproc] at hfail
          exact ih _ _ hq1 hfail
        | ok processed =>
          rw [hproc] at hfail
          simp [allProvidersFailed] at hfail
      · rw [if_neg hdata] at hfail ⊢
        exact ih _ _ hq1 hfail

theorem allProvidersFailed_invalid {ρ : Type} :
    allProvidersFailed (.error (mkError "CNPJ inválido".toList) : Except JsError ρ) = false :=
  rfl

theorem allProvidersFailed_denied {ρ : Type} :
    allProvidersFailed (.error
      (mkError "Limite de consultas excedido. Aguarde alguns minutos.".toList) :
        Except JsError ρ) = false :=
  rfl

theorem getCompanyData_failed_frame {ρ : Type} (env : Env ρ) (api : CNPJApi ρ)
    (cnpj : JSString) (hempty : api.rateLimiter.requests = [])
    (hfail : allProvidersFailed (getCompanyData env api cnpj).result = true) :
    (getCompanyData env api cnpj).api = api ∧
    0 < api.rateLimiter.maxRequests ∧
    ∀ e ∈ (getCompanyData env api cnpj).effects, e ≠ .record ∧ ∀ key, e ≠ .cacheSet key := by
  have hlim : (api.rateLimiter.canMakeRequest env.tCheck).1 = api.rateLimiter := by
    cases hr : api.rateLimiter with
    | mk m w reqs =>
      rw [hr] at hempty
      simp only at hempty
      subst hempty
      rfl
  have hapi : { api with rateLimiter := (api.rateLimiter.canMakeRequest env.tCheck).1 } = api := by
    rw [hlim]
  cases hvalid : validateCNPJ (cleanDigits cnpj) with
  | false =>
    have h : (getCompanyData env api cnpj).result = .error (mkError "CNPJ inválido".toList) := by
      simp only [getCompanyData, hvalid]
      rfl
    rw [h, allProvidersFailed_invalid] at hfail
    cases hfail
  | true =>
    cases hget : api.cache.get ("cnpj_".toList ++ cleanDigits cnpj) env.tGet with
    | some cached =>
      have h : (getCompanyData env api cnpj).result = .ok cached := by
        simp only [getCompanyData, hvalid, hget]
        rfl
      rw [h] at hfail
      cases hfail
    | none =>
      cases hallow : (api.rateLimiter.canMakeRequest env.tCheck).2 with
      | false =>
        have h : (getCompanyData env api cnpj).result = .error
            (mkError "Limite de consultas excedido. Aguarde alguns minutos.".toList) := by
          simp only [getCompanyData, hvalid, hget, hallow]
          rfl
        rw [h, allProvidersFailed_denied] at hfail
        cases hfail
      | true =>
        have hrun : getCompanyData env api cnpj =
            providerLoop env api (cleanDigits cnpj) ("cnpj_".toList ++ cleanDigits cnpj)
              api.apis none
              [.cacheGet ("cnpj_".toList ++ cleanDigits cnpj), .limiterCheck] := by
          simp only [getCompanyData, hvalid, hget, hallow, hapi]
          rfl
        rw [hrun] at hfail ⊢
        have hq : ∀ e ∈ [RegistryEffect.cacheGet ("cnpj_".toList ++ cleanDigits cnpj),
            RegistryEffect.limiterCheck], e ≠ .record ∧ ∀ key, e ≠ .cacheSet key := by
          intro e he
          simp only [List.mem_cons, List.mem_singleton, List.not_mem_nil, or_false] at he
          rcases he with rfl | rfl <;> exact ⟨by simp, by simp⟩
        obtain ⟨h1, h2⟩ := providerLoop_failed_frame env api _ _ api.apis none _ hq hfail
        refine ⟨h1, ?_, h2⟩
        simp only [RateLimiter.canMakeRequest, hempty, List.filter_nil, List.length_nil,
          decide_eq_true_eq] at hallow
        exact_mod_cast hallow

/-- C30: starting from a limiter with no recorded timestamp, after any number
of consecutive `getCompanyData` calls that all end in the error thrown after
the loop over the providers, the object is unchanged (the limiter records
nothing, the cache is not written), no call has a cache write or a
`recordRequest()` among its effects, and when at least one call was made
`canMakeRequest()` answers `true` at every clock value. -/
theorem getCompanyData_all_failed_records_nothing {ρ : Type} (api : CNPJApi ρ)
    (calls : List (Env ρ × JSString)) (hempty : api.rateLimiter.requests = [])
    (hfail : ∀ run ∈ (getCompanyDataCalls api calls).2,
      allProvidersFailed run.result = true) :
    (getCompanyDataCalls api calls).1 = api ∧
    (getCompanyDataCalls api calls).1.rateLimiter.requests = [] ∧
    (getCompanyDataCalls api calls).1.cache = api.cache ∧
    (∀ run ∈ (getCompanyDataCalls api calls).2, ∀ e ∈ run.effects,
      e ≠ .record ∧ ∀ key, e ≠ .cacheSet key) ∧
    (calls ≠ [] → ∀ now : Int,
      ((getCompanyDataCalls api calls).1.rateLimiter.canMakeRequest now).2 = true) := by
  have main : (getCompanyDataCalls api calls).1 = api ∧
      (∀ run ∈ (getCompanyDataCalls api calls).2, ∀ e ∈ run.effects,
        e ≠ .record ∧ ∀ key, e ≠ .cacheSet key) ∧
      (calls ≠ [] → 0 < api.rateLimiter.maxRequests) := by
    induction calls with
    | nil => exact ⟨rfl, fun run hrun => (by cases hrun), fun h => absurd rfl h⟩
    | cons call rest ih =>
      simp only [getCompanyDataCalls, List.mem_cons, forall_eq_or_imp] at hfail ⊢
      obtain ⟨h1, h2, h3⟩ := getCompanyData_failed_frame call.1 api call.2 hempty hfail.1
      rw [h1] at hfail ⊢
      obtain ⟨i1, i2, -⟩ := ih hfail.2
      exact ⟨i1, ⟨h3, i2⟩, fun _ => h2⟩
  obtain ⟨m1, m2, m3⟩ := main
  refine ⟨m1, by rw [m1, hempty], by rw [m1], m2, fun hne now => ?_⟩
  rw [m1]
  simp only [RateLimiter.canMakeRequest, hempty, List.filter_nil, List.length_nil,
    decide_eq_true_eq]
  exact_mod_cast m3 hne

/-- C30 at a concrete registry: three consecutive calls on a client whose only
mirror answers 500 and whose limiter allows 2 requests per minute. -/
theorem getCompanyData_all_failed_records_nothing_witness :
    (getCompanyDataCalls demoApiDown threeCalls).1 = demoApiDown ∧
    (getCompanyDataCalls demoApiDown threeCalls).1.rateLimiter.requests = [] ∧
    (getCompanyDataCalls demoApiDown threeCalls).1.cache = demoApiDown.cache ∧
    (∀ run ∈ (getCompanyDataCalls demoApiDown threeCalls).2, ∀ e ∈ run.effects,
      e ≠ .record ∧ ∀ key, e ≠ .cacheSet key) ∧
    (threeCalls ≠ [] → ∀ now : Int,
      ((getCompanyDataCalls demoApiDown threeCalls).1.rateLimiter.canMakeRequest now).2 = true) :=
  getCompanyData_all_failed_records_nothing demoApiDown threeCalls rfl (by decide)

/-! ### `categorizeItems` -/

theorem foldl_pushItem (f : MenuItem → JSString) (items : List MenuItem)
    (cats : List (JSString × List MenuItem)) :
    items.foldl (fun cats item => pushItem cats (f item) item) cats =
      cats.map (fun entry => (entry.1, entry.2 ++ items.filter (fun i => f i == entry.1))) := by
  induction items generalizing cats with
  | nil => simp
  | cons x items ih =>
    rw [List.foldl_cons, ih, pushItem, List.map_map]
    apply List.map_congr_left
    intro entry _
    by_cases h : entry.1 = f x
    · simp [h, List.filter_cons]
    · have h2 : ¬ f x = entry.1 := fun e => h e.symm
      simp [h, h2, List.filter_cons]

theorem categorizeItems_eq (toLowerCase : JSString → JSString) (items : List MenuItem) :
    categorizeItems toLowerCase items =
      (categoryNames.map (fun key =>
        (key, items.filter (fun i => categoryOfItem toLowerCase i == key)))).filter
          (fun entry => entry.2.length != 0) := by
  rw [categorizeItems, foldl_pushItem, List.map_map]
  rfl

theorem find?_first {α : Type} (p : α → Bool) (l : List α) :
    (∃ pre b post, l = pre ++ b :: post ∧ p b = true ∧ l.find? p = some b ∧
      ∀ a ∈ pre, p a = false) ∨
    (l.find? p = none ∧ ∀ a ∈ l, p a = false) := by
  induction l with
  | nil => exact Or.inr ⟨rfl, fun a ha => by cases ha⟩
  | cons x l ih =>
    by_cases hx : p x = true
    · exact Or.inl ⟨[], x, l, rfl, hx, by simp [List.find?, hx], fun a ha => by cases ha⟩
    · have hx0 : p x = false := by simpa using hx
      rcases ih with ⟨pre, b, post, hl, hb, hf, hpre⟩ | ⟨hf, hall⟩
      · refine Or.inl ⟨x :: pre, b, post, by rw [hl]; rfl, hb, by simp [List.find?, hx0, hf], ?_⟩
        intro a ha
        rcases List.mem_cons.mp ha with rfl | ha
        · exact hx0
        · exact hpre a ha
      · refine Or.inr ⟨by simp [List.find?, hx0, hf], ?_⟩
        intro a ha
        rcases List.mem_cons.mp ha with rfl | ha
        · exact hx0
        · exact hall a ha

theorem categoryOfItem_mem (toLowerCase : JSString → JSString) (item : MenuItem) :
    categoryOfItem toLowerCase item ∈ categoryNames := by
  have hkeys : ∀ entry ∈ categoryKeywords, entry.1 ∈ categoryNames := by decide
  unfold categoryOfItem
  simp only
  cases h : categoryKeywords.find?
      (fun entry => entry.2.any (fun keyword => includes (toLowerCase item.name) keyword)) with
  | none => decide
  | some entry => exact hkeys entry (List.mem_of_find?_eq_some h)

theorem filter_or_perm {α : Type} (p q : α → Bool) (hdisj : ∀ x, p x = true → q x = true → False)
    (l : List α) :
    List.Perm (l.filter (fun x => p x || q x)) (l.filter p ++ l.filter q) := by
  induction l with
  | nil => exact List.Perm.refl _
  | cons x l ih =>
    cases hp : p x <;> cases hq : q x
    · simpa [List.filter_cons, hp, hq] using ih
    · simp only [List.filter_cons, hp, hq, Bool.or_true, if_true, Bool.false_eq_true, if_false]
      exact (List.Perm.cons x ih).trans List.perm_middle.symm
    · simp only [List.filter_cons, hp, hq, Bool.or_false, if_true, Bool.false_eq_true, if_false,
        List.cons_append]
      exact List.Perm.cons x ih
    · exact absurd hq (fun h => hdisj x hp h)

theorem flatMap_filter_perm {α : Type} (f : α → JSString) (names : List JSString)
    (hnodup : names.Nodup) (items : List α) :
    List.Perm (names.flatMap (fun key => items.filter (fun i => f i == key)))
      (items.filter (fun i => decide (f i ∈ names))) := by
  induction names with
  | nil => simp
  | cons k ks ih =>
    rw [List.nodup_cons] at hnodup
    rw [List.flatMap_cons]
    have h1 : items.filter (fun i => decide (f i ∈ k :: ks)) =
        items.filter (fun i => (f i == k) || decide (f i ∈ ks)) := by
      apply List.filter_congr
      intro x _
      by_cases hxk : f x = k <;> simp [List.mem_cons, hxk]
    rw [h1]
    refine List.Perm.trans ?_ (filter_or_perm _ _ ?_ items).symm
    · exact List.Perm.append_left _ (ih hnodup.2)
    · intro x hx hk
      simp only [beq_iff_eq] at hx
      simp only [decide_eq_true_eq] at hk
      exact hnodup.1 (hx ▸ hk)

theorem flatMap_snd_filter_nonempty {α : Type} (l : List (JSString × List α)) :
    (l.filter (fun entry => entry.2.length != 0)).flatMap Prod.snd = l.flatMap Prod.snd := by
  induction l with
  | nil => rfl
  | cons e l ih =>
    rcases e with ⟨k, v⟩
    cases v with
    | nil => simpa [List.filter_cons] using ih
    | cons a v => simp [List.filter_cons, ih]

/-- C21: for every list of items, `categorizeItems` returns, under the keys in
the fixed order pizzas, hambúrgueres, massas, carnes, frutos_do_mar,
sobremesas, bebidas, entradas, outros, the items of each category in input
order, where the category of an item is the first entry of `categoryKeywords`
one of whose keywords is a substring of the lower-cased name, and `outros`
when no keyword of any entry is; no key has an empty list, every item is in
the list of its category and in no other, and the lists together are a
permutation of the input. -/
theorem categorizeItems_partition (toLowerCase : JSString → JSString)
    (items : List MenuItem) :
    categoryKeywords.map Prod.fst ++ ["outros".toList] =
      ["pizzas".toList, "hambúrgueres".toList, "massas".toList, "carnes".toList,
       "frutos_do_mar".toList, "sobremesas".toList, "bebidas".toList, "entradas".toList,
       "outros".toList] ∧
    (∀ item : MenuItem,
      (∃ pre kws post, categoryKeywords = pre ++ (categoryOfItem toLowerCase item, kws) :: post ∧
        (∃ keyword ∈ kws, keyword <:+: toLowerCase item.name) ∧
        ∀ entry ∈ pre, ∀ keyword ∈ entry.2, ¬ keyword <:+: toLowerCase item.name) ∨
      (categoryOfItem toLowerCase item = "outros".toList ∧
        ∀ entry ∈ categoryKeywords, ∀ keyword ∈ entry.2,
          ¬ keyword <:+: toLowerCase item.name)) ∧
    List.Sublist ((categorizeItems toLowerCase items).map Prod.fst)
      (categoryKeywords.map Prod.fst ++ ["outros".toList]) ∧
    (∀ entry ∈ categorizeItems toLowerCase items,
      entry.2 ≠ [] ∧
      entry.2 = items.filter (fun i => categoryOfItem toLowerCase i == entry.1) ∧
      ∀ item ∈ entry.2, categoryOfItem toLowerCase item = entry.1) ∧
    (∀ item ∈ items, ∃ list, (categoryOfItem toLowerCase item, list) ∈
      categorizeItems toLowerCase items ∧ item ∈ list) ∧
    List.Perm ((categorizeItems toLowerCase items).flatMap Prod.snd) items := by
  have hnames : categoryKeywords.map Prod.fst ++ ["outros".toList] = categoryNames := by decide
  refine ⟨by decide, fun item => ?_, ?_, ?_, ?_, ?_⟩
  · rcases find?_first
      (fun entry : JSString × List JSString =>
        entry.2.any (fun keyword => includes (toLowerCase item.name) keyword))
      categoryKeywords with ⟨pre, b, post, hl, hb, hf, hpre⟩ | ⟨hf, hall⟩
    · left
      have hcat : categoryOfItem toLowerCase item = b.1 := by
        simp only [categoryOfItem, hf]
      refine ⟨pre, b.2, post, by rw [hcat]; exact hl, ?_, ?_⟩
      · simp only [List.any_eq_true] at hb
        obtain ⟨keyword, hk, hinc⟩ := hb
        exact ⟨keyword, hk, (includes_iff _ _).mp hinc⟩
      · intro entry he keyword hk hsub
        have := hpre entry he
        simp only [List.any_eq_false] at this
        exact this keyword hk ((includes_iff _ _).mpr hsub)
    · right
      refine ⟨by simp only [categoryOfItem, hf], ?_⟩
      intro entry he keyword hk hsub
      have := hall entry he
      simp only [List.any_eq_false] at this
      exact this keyword hk ((includes_iff _ _).mpr hsub)
  · rw [hnames, categorizeItems_eq]
    have h := List.filter_sublist (p := fun entry : JSString × List MenuItem =>
        entry.2.length != 0)
      (categoryNames.map (fun key =>
        (key, items.filter (fun i => categoryOfItem toLowerCase i == key))))
    have h2 := h.map Prod.fst
    rw [List.map_map] at h2
    simpa [Function.comp_def] using h2
  · intro entry he
    rw [categorizeItems_eq, List.mem_filter, List.mem_map] at he
    obtain ⟨⟨key, -, rfl⟩, hne⟩ := he
    refine ⟨?_, rfl, ?_⟩
    · intro h0
      simp only at h0
      simp [h0] at hne
    · intro item hi
      simp only [List.mem_filter, beq_iff_eq] at hi
      exact hi.2
  · intro item hi
    refine ⟨items.filter (fun i => categoryOfItem toLowerCase i == categoryOfItem toLowerCase item),
      ?_, ?_⟩
    · rw [categorizeItems_eq, List.mem_filter, List.mem_map]
      refine ⟨⟨_, categoryOfItem_mem toLowerCase item, rfl⟩, ?_⟩
      have hmem : item ∈ items.filter
          (fun i => categoryOfItem toLowerCase i == categoryOfItem toLowerCase item) := by
        simp [List.mem_filter, hi]
      cases hl : items.filter
          (fun i => categoryOfItem toLowerCase i == categoryOfItem toLowerCase item) with
      | nil => rw [hl] at hmem; cases hmem
      | cons a l => rfl
    · simp [List.mem_filter, hi]
  · rw [categorizeItems_eq, flatMap_snd_filter_nonempty, List.flatMap_map]
    have hperm := flatMap_filter_perm (categoryOfItem toLowerCase) categoryNames (by decide) items
    have hall : items.filter (fun i => decide (categoryOfItem toLowerCase i ∈ categoryNames)) =
        items := by
      rw [List.filter_eq_self]
      intro a _
      simpa using categoryOfItem_mem toLowerCase a
    rw [hall] at hperm
    exact hperm

/-! ### `analyzePricing` -/

theorem round2_mono (x y : ℚ) (h : x ≤ y) : round2 x ≤ round2 y := by
  unfold round2
  have hfl : ⌊x * 100 + 1 / 2⌋ ≤ ⌊y * 100 + 1 / 2⌋ := Int.floor_mono (by linarith)
  have hq : ((⌊x * 100 + 1 / 2⌋ : ℤ) : ℚ) ≤ ((⌊y * 100 + 1 / 2⌋ : ℤ) : ℚ) := by
    exact_mod_cast hfl
  exact div_le_div_of_nonneg_right hq (by norm_num)

theorem round2_near (x : ℚ) :
    (∃ n : ℤ, round2 x = n / 100) ∧ x - 1 / 200 < round2 x ∧ round2 x ≤ x + 1 / 200 := by
  refine ⟨⟨_, rfl⟩, ?_, ?_⟩
  · unfold round2
    have h := Int.lt_floor_add_one (x * 100 + 1 / 2)
    rw [lt_div_iff₀ (by norm_num)]
    linarith
  · unfold round2
    have h := Int.floor_le (x * 100 + 1 / 2)
    rw [div_le_iff₀ (by norm_num)]
    linarith

theorem foldl_min_spec (ps : List ℚ) (p : ℚ) :
    ps.foldl min p ∈ p :: ps ∧ ∀ x ∈ p :: ps, ps.foldl min p ≤ x := by
  induction ps generalizing p with
  | nil => exact ⟨List.mem_singleton_self _, fun x hx => by rw [List.mem_singleton.mp hx]; rfl⟩
  | cons a ps ih =>
    obtain ⟨h1, h2⟩ := ih (min p a)
    rw [List.foldl_cons]
    refine ⟨?_, ?_⟩
    · rcases List.mem_cons.mp h1 with h | h
      · rw [h]
        rcases min_choice p a with hm | hm <;> rw [hm] <;> simp
      · exact List.mem_cons_of_mem _ (List.mem_cons_of_mem _ h)
    · intro x hx
      have hmin := h2 (min p a) (List.mem_cons_self _ _)
      rcases List.mem_cons.mp hx with rfl | hx
      · exact hmin.trans (min_le_left _ _)
      · rcases List.mem_cons.mp hx with rfl | hx
        · exact hmin.trans (min_le_right _ _)
        · exact h2 x (List.mem_cons_of_mem _ hx)

theorem foldl_max_spec (ps : List ℚ) (p : ℚ) :
    ps.foldl max p ∈ p :: ps ∧ ∀ x ∈ p :: ps, x ≤ ps.foldl max p := by
  induction ps generalizing p with
  | nil => exact ⟨List.mem_singleton_self _, fun x hx => by rw [List.mem_singleton.mp hx]; rfl⟩
  | cons a ps ih =>
    obtain ⟨h1, h2⟩ := ih (max p a)
    rw [List.foldl_cons]
    refine ⟨?_, ?_⟩
    · rcases List.mem_cons.mp h1 with h | h
      · rw [h]
        rcases max_choice p a with hm | hm <;> rw [hm] <;> simp
      · exact List.mem_cons_of_mem _ (List.mem_cons_of_mem _ h)
    · intro x hx
      have hmax := h2 (max p a) (List.mem_cons_self _ _)
      rcases List.mem_cons.mp hx with rfl | hx
      · exact (le_max_left _ _).trans hmax
      · rcases List.mem_cons.mp hx with rfl | hx
        · exact (le_max_right _ _).trans hmax
        · exact h2 x (List.mem_cons_of_mem _ hx)

theorem foldl_add_eq_sum (l : List ℚ) (s : ℚ) :
    l.foldl (fun sum price => sum + price) s = s + l.sum := by
  induction l generalizing s with
  | nil => simp
  | cons a l ih => rw [List.foldl_cons, ih, List.sum_cons, add_assoc]

theorem sum_between (l : List ℚ) (lo hi : ℚ) (h : ∀ x ∈ l, lo ≤ x ∧ x ≤ hi) :
    l.length * lo ≤ l.sum ∧ l.sum ≤ l.length * hi := by
  induction l with
  | nil => simp
  | cons a l ih =>
    obtain ⟨i1, i2⟩ := ih (fun x hx => h x (List.mem_cons_of_mem _ hx))
    obtain ⟨a1, a2⟩ := h a (List.mem_cons_self _ _)
    simp only [List.sum_cons, List.length_cons, Nat.cast_add, Nat.cast_one]
    constructor <;> linarith

theorem getD_mem_of_lt (l : List ℚ) (i : Nat) (h : i < l.length) : l.getD i 0 ∈ l := by
  rw [List.getD_eq_getElem _ _ h]
  exact List.getElem_mem _

/-- C22: for every non-empty list of items with rational prices,
`analyzePricing` reports as `min` and `max` the smallest and the largest
price, as `average` the sum of the prices over their number, and as `median`
the middle price of the prices in ascending order when their number is odd and
the mean of the two middle ones when it is even, each rounded to 2 decimals
(a multiple of 1/100 nearest to the value); hence `min ≤ median ≤ max` and
`min ≤ average ≤ max`. For the prices 35.00 and 38.50 the report is min 35,
max 38.5, average 36.75 and median 36.75. -/
theorem analyzePricing_statistics :
    (∀ {ι : Type} (price : ι → ℚ) (items : List ι), items ≠ [] →
      ∃ (lo hi : ℚ) (sorted : List ℚ),
        lo ∈ items.map price ∧ hi ∈ items.map price ∧
        (∀ p ∈ items.map price, lo ≤ p ∧ p ≤ hi) ∧
        List.Perm sorted (items.map price) ∧ sorted.Pairwise (fun a b => a ≤ b) ∧
        (analyzePricing price items).min = round2 lo ∧
        (analyzePricing price items).max = round2 hi ∧
        (analyzePricing price items).average =
          round2 ((items.map price).sum / items.length) ∧
        (analyzePricing price items).median =
          round2 (if items.length % 2 = 1 then sorted.getD (items.length / 2) 0
            else (sorted.getD (items.length / 2 - 1) 0 + sorted.getD (items.length / 2) 0) / 2) ∧
        (analyzePricing price items).min ≤ (analyzePricing price items).median ∧
        (analyzePricing price items).median ≤ (analyzePricing price items).max ∧
        (analyzePricing price items).min ≤ (analyzePricing price items).average ∧
        (analyzePricing price items).average ≤ (analyzePricing price items).max) ∧
    (∀ x : ℚ, (∃ n : ℤ, round2 x = n / 100) ∧ x - 1 / 200 < round2 x ∧
      round2 x ≤ x + 1 / 200) ∧
    ((analyzePricing id [(35 : ℚ), 77 / 2]).min = 35 ∧
      (analyzePricing id [(35 : ℚ), 77 / 2]).max = 77 / 2 ∧
      (analyzePricing id [(35 : ℚ), 77 / 2]).average = 147 / 4 ∧
      (analyzePricing id [(35 : ℚ), 77 / 2]).median = 147 / 4) := by
  refine ⟨?_, round2_near, ?_⟩
  · intro ι price items hne
    have hlen : items.length ≠ 0 := fun h => hne (List.length_eq_zero.mp h)
    have hpos : 0 < items.length := Nat.pos_of_ne_zero hlen
    let le : ℚ → ℚ → Bool := fun a b => decide (a - b ≤ 0)
    have hle : ∀ a b, le a b = true ↔ a ≤ b := by
      intro a b
      simp only [le, decide_eq_true_eq]
      constructor <;> intro h <;> linarith
    have hsorted : ((items.map price).mergeSort le).Pairwise (fun a b => a ≤ b) :=
      (List.sorted_mergeSort
        (fun a b c hab hbc => (hle a c).mpr (((hle a b).mp hab).trans ((hle b c).mp hbc)))
        (fun a b => by
          rw [Bool.or_eq_true, hle, hle]
          exact le_total a b)
        (items.map price)).imp (fun h => (hle _ _).mp h)
    have hperm : List.Perm ((items.map price).mergeSort le) (items.map price) :=
      List.mergeSort_perm _ _
    have hlenS : ((items.map price).mergeSort le).length = items.length := by
      rw [List.length_mergeSort, List.length_map]
    have hrun : analyzePricing price items =
        { min := round2 (mathMin ((items.map price).mergeSort le)),
          max := round2 (mathMax ((items.map price).mergeSort le)),
          average := round2
            (((items.map price).mergeSort le).foldl (fun sum price => sum + price) 0 /
              ((items.map price).mergeSort le).length),
          median := round2
            (if ((items.map price).mergeSort le).length % 2 = 0 then
              (((items.map price).mergeSort le).getD
                  (((items.map price).mergeSort le).length / 2 - 1) 0 +
                ((items.map price).mergeSort le).getD
                  (((items.map price).mergeSort le).length / 2) 0) / 2
            else ((items.map price).mergeSort le).getD
              (((items.map price).mergeSort le).length / 2) 0),
          distribution := some (calculatePriceDistribution ((items.map price).mergeSort le)) } := by
      simp only [analyzePricing, hlen, if_false]
    generalize hS : (items.map price).mergeSort le = S at hsorted hperm hlenS hrun
    have hSne : S ≠ [] := fun h => by rw [h] at hlenS; exact hlen hlenS.symm
    obtain ⟨p, ps, rfl⟩ := List.exists_cons_of_ne_nil hSne
    obtain ⟨m1, m2⟩ := foldl_min_spec ps p
    obtain ⟨M1, M2⟩ := foldl_max_spec ps p
    have hmemS : ∀ x, x ∈ p :: ps ↔ x ∈ items.map price := fun x => hperm.mem_iff
    have hbounds : ∀ x ∈ p :: ps, ps.foldl min p ≤ x ∧ x ≤ ps.foldl max p :=
      fun x hx => ⟨m2 x hx, M2 x hx⟩
    have hmedian : ps.foldl min p ≤
          (if items.length % 2 = 1 then (p :: ps).getD (items.length / 2) 0
            else ((p :: ps).getD (items.length / 2 - 1) 0 +
              (p :: ps).getD (items.length / 2) 0) / 2) ∧
        (if items.length % 2 = 1 then (p :: ps).getD (items.length / 2) 0
            else ((p :: ps).getD (items.length / 2 - 1) 0 +
              (p :: ps).getD (items.length / 2) 0) / 2) ≤ ps.foldl max p := by
      have h1 := hbounds _ (getD_mem_of_lt (p :: ps) (items.length / 2) (by omega))
      have h2 := hbounds _ (getD_mem_of_lt (p :: ps) (items.length / 2 - 1) (by omega))
      split
      · exact h1
      · constructor <;> linarith [h1.1, h1.2, h2.1, h2.2]
    have hsum := sum_between (p :: ps) _ _ hbounds
    have hsumeq : (p :: ps).sum = (items.map price).sum := hperm.sum_eq
    have hcast : (0 : ℚ) < items.length := by exact_mod_cast hpos
    have havg : ps.foldl min p ≤ (items.map price).sum / items.length ∧
        (items.map price).sum / items.length ≤ ps.foldl max p := by
      rw [hsumeq, hlenS] at hsum
      constructor
      · rw [le_div_iff₀ hcast]
        linarith [hsum.1]
      · rw [div_le_iff₀ hcast]
        linarith [hsum.2]
    have hmed_eq : (analyzePricing price items).median =
        round2 (if items.length % 2 = 1 then (p :: ps).getD (items.length / 2) 0
            else ((p :: ps).getD (items.length / 2 - 1) 0 +
              (p :: ps).getD (items.length / 2) 0) / 2) := by
      rw [hrun]
      simp only [hlenS]
      by_cases hpar : items.length % 2 = 0
      · rw [if_pos hpar, if_neg (by omega)]
      · rw [if_neg hpar, if_pos (by omega)]
    have havg_eq : (analyzePricing price items).average =
        round2 ((items.map price).sum / items.length) := by
      rw [hrun]
      simp only [hlenS, foldl_add_eq_sum, zero_add, hsumeq]
    have hmin_eq : (analyzePricing price items).min = round2 (ps.foldl min p) := by
      rw [hrun]
      rfl
    have hmax_eq : (analyzePricing price items).max = round2 (ps.foldl max p) := by
      rw [hrun]
      rfl
    refine ⟨ps.foldl min p, ps.foldl max p, p :: ps, (hmemS _).mp m1, (hmemS _).mp M1,
      fun x hx => hbounds x ((hmemS x).mpr hx), hperm, hsorted, hmin_eq, hmax_eq, havg_eq,
      hmed_eq, ?_, ?_, ?_, ?_⟩
    · rw [hmin_eq, hmed_eq]
      exact round2_mono _ _ hmedian.1
    · rw [hmax_eq, hmed_eq]
      exact round2_mono _ _ hmedian.2
    · rw [hmin_eq, havg_eq]
      exact round2_mono _ _ havg.1
    · rw [hmax_eq, havg_eq]
      exact round2_mono _ _ havg.2
  · have hsort : ([(35 : ℚ), 77 / 2].map id).mergeSort (fun a b => decide (a - b ≤ 0)) =
        [35, 77 / 2] := by
      norm_num [List.mergeSort, List.merge]
    simp only [analyzePricing, hsort]
    norm_num [mathMin, mathMax, round2]

/-- C22 at the prices 35.00 and 38.50 of the two-line menu. -/
theorem analyzePricing_statistics_witness :
    ∃ (lo hi : ℚ) (sorted : List ℚ),
      lo ∈ [(35 : ℚ), 77 / 2].map id ∧ hi ∈ [(35 : ℚ), 77 / 2].map id ∧
      (∀ p ∈ [(35 : ℚ), 77 / 2].map id, lo ≤ p ∧ p ≤ hi) ∧
      List.Perm sorted ([(35 : ℚ), 77 / 2].map id) ∧ sorted.Pairwise (fun a b => a ≤ b) ∧
      (analyzePricing id [(35 : ℚ), 77 / 2]).min = round2 lo ∧
      (analyzePricing id [(35 : ℚ), 77 / 2]).max = round2 hi ∧
      (analyzePricing id [(35 : ℚ), 77 / 2]).average =
        round2 (([(35 : ℚ), 77 / 2].map id).sum / [(35 : ℚ), 77 / 2].length) ∧
      (analyzePricing id [(35 : ℚ), 77 / 2]).median =
        round2 (if [(35 : ℚ), 77 / 2].length % 2 = 1 then
            sorted.getD ([(35 : ℚ), 77 / 2].length / 2) 0
          else (sorted.getD ([(35 : ℚ), 77 / 2].length / 2 - 1) 0 +
            sorted.getD ([(35 : ℚ), 77 / 2].length / 2) 0) / 2) ∧
      (analyzePricing id [(35 : ℚ), 77 / 2]).min ≤ (analyzePricing id [(35 : ℚ), 77 / 2]).median ∧
      (analyzePricing id [(35 : ℚ), 77 / 2]).median ≤ (analyzePricing id [(35 : ℚ), 77 / 2]).max ∧
      (analyzePricing id [(35 : ℚ), 77 / 2]).min ≤ (analyzePricing id [(35 : ℚ), 77 / 2]).average ∧
      (analyzePricing id [(35 : ℚ), 77 / 2]).average ≤ (analyzePricing id [(35 : ℚ), 77 / 2]).max :=
  analyzePricing_statistics.1 id [(35 : ℚ), 77 / 2] (List.cons_ne_nil _ _)

/-! ### `getSuggestions` -/

theorem ranked_above (l : List ScoredSuggestion)
    (hs : l.Pairwise (fun a b => b.score ≤ a.score)) (i k : Nat) (x z : ScoredSuggestion)
    (hi : l[i]? = some x) (hk : l[k]? = some z) (hlt : z.score < x.score) : i < k := by
  obtain ⟨hil, hix⟩ := List.getElem?_eq_some_iff.mp hi
  obtain ⟨hkl, hkz⟩ := List.getElem?_eq_some_iff.mp hk
  by_contra hcon
  rcases Nat.eq_or_lt_of_le (Nat.le_of_not_lt hcon) with heq | hlt2
  · subst heq
    rw [hix] at hkz
    rw [hkz] at hlt
    exact lt_irrefl _ hlt
  · have := (List.pairwise_iff_getElem.mp hs) k i hkl hil hlt2
    rw [hix, hkz] at this
    exact absurd hlt (not_lt.mpr this)

theorem rankSuggestions_short (l : List Suggestion) (h : l.length ≤ 12) :
    (rankSuggestions l).Pairwise (fun a b => b.score ≤ a.score) ∧
    ∀ x, x ∈ rankSuggestions l ↔ x ∈ l.map withScore := by
  have hlen : ((l.map withScore).mergeSort scoreOrder).length ≤ 12 := by
    rw [List.length_mergeSort, List.length_map]
    exact h
  rw [rankSuggestions, List.take_of_length_le hlen]
  exact ⟨(List.sorted_mergeSort scoreOrder_trans scoreOrder_total (l.map withScore)).imp
      (fun h => (scoreOrder_iff _ _).mp h), fun x => List.mem_mergeSort⟩

theorem getBusinessTypeSuggestions_restaurante (env : MlEnv)
    (hlower : env.toLowerCase "restaurante".toList = "restaurante".toList) :
    getBusinessTypeSuggestions env "restaurante".toList =
      [Suggestion.mk "334".toList (some 9) "Queijo para pratos principais".toList (some 0.8)
         .business_type,
       Suggestion.mk "5167".toList (some 8) "Carne bovina de qualidade".toList (some 0.8)
         .business_type,
       Suggestion.mk "597".toList (some 7) "Farinha multiuso".toList (some 0.8)
         .business_type] := by
  have hfind : businessRules.find? (fun entry => includes "restaurante".toList entry.1) =
      businessRules.head? := by rfl
  rw [getBusinessTypeSuggestions]
  simp only [hlower, hfind]
  rfl

theorem predictProducts_pizzas (env : MlEnv) (activity : Option JSString)
    (categories : List JSString) (hp : "pizzas".toList ∈ categories) :
    predictProducts env initialProductAssociations
        { activity := activity, categories := some categories } =
      ["597".toList, "334".toList, "277".toList].map (fun code =>
        Suggestion.mk code (some 8) "Produto recomendado para pizzaria".toList
          (some (min (0.9 * 0.9) 0.95)) .ml_prediction) := by
  have hc : categories.contains "pizzas".toList = true := by
    simpa using hp
  have hinfer : inferBusinessType env categories (activity.getD []) = "pizzaria".toList := by
    simp only [inferBusinessType, hc, if_true]
  have hfind : initialProductAssociations.find? (fun a => a.input == "pizzaria".toList) =
      initialProductAssociations.head? := by rfl
  simp only [predictProducts, ProductMatcher.predict, Option.getD_some, hinfer, hfind]
  rfl

theorem menuSuggestionsLoop_pizzas (env : MlEnv) (categories : List JSString)
    (hother : ∀ c ∈ categories, c ≠ "pizzas".toList →
      c ≠ "hambúrgueres".toList ∧ c ≠ "massas".toList ∧ c ∉ objectPrototypeProperties)
    (acc : List Suggestion) :
    ∃ menu, menuSuggestionsLoop env categories acc = .ok (acc ++ menu) ∧
      menu.length = 3 * categories.count "pizzas".toList ∧
      (∀ s ∈ menu, s.source = .menu_analysis ∧
        s.code ∈ ["597".toList, "334".toList, "277".toList]) ∧
      (1 ≤ categories.count "pizzas".toList →
        Suggestion.mk "597".toList (some 10) "Farinha para pizza".toList (some 0.95)
          .menu_analysis ∈ menu) := by
  induction categories generalizing acc with
  | nil => exact ⟨[], by simp [menuSuggestionsLoop], rfl, fun s hs => (by cases hs),
      fun h => (by simp at h)⟩
  | cons c rest ih =>
    have hrest := fun d hd => hother d (List.mem_cons_of_mem _ hd)
    by_cases hc : c = "pizzas".toList
    · subst hc
      obtain ⟨menu, hm, hlen, hall, -⟩ := ih hrest
        (acc ++ [Suggestion.mk "597".toList (some 10) "Farinha para pizza".toList (some 0.95)
            .menu_analysis,
          Suggestion.mk "334".toList (some 9) "Queijo mozzarella".toList (some 0.90)
            .menu_analysis,
          Suggestion.mk "277".toList (some 8) "Molho de tomate".toList (some 0.85)
            .menu_analysis])
      have hlookup : menuRules.lookup "pizzas".toList = menuRules.head?.map Prod.snd := by
        rfl
      refine ⟨[Suggestion.mk "597".toList (some 10) "Farinha para pizza".toList (some 0.95)
            .menu_analysis,
          Suggestion.mk "334".toList (some 9) "Queijo mozzarella".toList (some 0.90)
            .menu_analysis,
          Suggestion.mk "277".toList (some 8) "Molho de tomate".toList (some 0.85)
            .menu_analysis] ++ menu, ?_, ?_, ?_, ?_⟩
      · rw [menuSuggestionsLoop, hlookup]
        simp only [menuRules, List.head?, Option.map, List.map]
        rw [hm, List.append_assoc]
      · simp only [List.length_append, List.length_cons, List.length_nil, hlen,
          List.count_cons_self]
        omega
      · intro s hs
        rcases List.mem_append.mp hs with h | h
        · simp only [List.mem_cons, List.mem_singleton, List.not_mem_nil, or_false] at h
          rcases h with rfl | rfl | rfl <;> exact ⟨rfl, by decide⟩
        · exact hall s h
      · intro _
        exact List.mem_append_left _ (List.mem_cons_self _ _)
    · obtain ⟨h1, h2, h3⟩ := hother c (List.mem_cons_self _ _) hc
      obtain ⟨menu, hm, hlen, hall, hmem⟩ := ih hrest acc
      have hlookup : menuRules.lookup c = none := by
        have e1 : (c == "pizzas".toList) = false := by simpa using hc
        have e2 : (c == "hambúrgueres".toList) = false := by simpa using h1
        have e3 : (c == "massas".toList) = false := by simpa using h2
        simp only [String.toList] at e1 e2 e3
        simp [menuRules, List.lookup, e1, e2, e3]
      have hproto : objectPrototypeProperties.contains c = false := by
        simpa using h3
      have hcount : (c :: rest).count "pizzas".toList = rest.count "pizzas".toList :=
        List.count_cons_of_ne (fun h => hc h.symm) rest
      refine ⟨menu, ?_, by rw [hcount]; exact hlen, hall, by rw [hcount]; exact hmem⟩
      rw [menuSuggestionsLoop, hlookup]
      simp only [hproto]
      exact hm

/-- C23, as the code has it: for a restaurant (`company.activity` is
`restaurante`) whose `menu.categories` hold `pizzas` once or twice and
otherwise only names without menu rules (neither `hambúrgueres` nor `massas`,
nor a property name inherited from `Object.prototype`), `getSuggestions`
returns a ranked list in which a `business_type` suggestion and a
`menu_analysis` suggestion for a pizza ingredient (codes 597, 334, 277) stand
in front of every suggestion for another product. -/
theorem getSuggestions_pizza_scenario (env : MlEnv) (categories : List JSString)
    (hlower : env.toLowerCase "restaurante".toList = "restaurante".toList)
    (h1 : 1 ≤ categories.count "pizzas".toList)
    (h2 : categories.count "pizzas".toList ≤ 2)
    (hother : ∀ c ∈ categories, c ≠ "pizzas".toList →
      c ≠ "hambúrgueres".toList ∧ c ≠ "massas".toList ∧ c ∉ objectPrototypeProperties) :
    ∃ ranked, getSuggestions env initialProductAssociations
        { activity := some "restaurante".toList, categories := some categories } =
          .ok ranked ∧
      ∃ (i j : Nat) (b m : ScoredSuggestion),
        ranked[i]? = some b ∧ b.source = .business_type ∧
        b.code ∈ ["597".toList, "334".toList, "277".toList] ∧
        ranked[j]? = some m ∧ m.source = .menu_analysis ∧
        m.code ∈ ["597".toList, "334".toList, "277".toList] ∧
        ∀ (k : Nat) (z : ScoredSuggestion), ranked[k]? = some z →
          z.code ∉ ["597".toList, "334".toList, "277".toList] → i < k ∧ j < k := by
  obtain ⟨menu, hmenu, hlen, hall, hmem⟩ := menuSuggestionsLoop_pizzas env categories hother []
  have hp : "pizzas".toList ∈ categories := List.count_pos_iff.mp h1
  have hrun : getSuggestions env initialProductAssociations
      { activity := some "restaurante".toList, categories := some categories } =
      .ok (rankSuggestions (getBusinessTypeSuggestions env "restaurante".toList ++ menu ++
        predictProducts env initialProductAssociations
          { activity := some "restaurante".toList, categories := some categories })) := by
    simp only [getSuggestions, getMenuBasedSuggestions, hmenu, List.nil_append]
    rfl
  rw [getBusinessTypeSuggestions_restaurante env hlower,
    predictProducts_pizzas env _ categories hp] at hrun
  refine ⟨_, hrun, ?_⟩
  obtain ⟨hsorted, hmemr⟩ := rankSuggestions_short
    ([Suggestion.mk "334".toList (some 9) "Queijo para pratos principais".toList (some 0.8)
         .business_type,
       Suggestion.mk "5167".toList (some 8) "Carne bovina de qualidade".toList (some 0.8)
         .business_type,
       Suggestion.mk "597".toList (some 7) "Farinha multiuso".toList (some 0.8)
         .business_type] ++ menu ++
      ["597".toList, "334".toList, "277".toList].map (fun code =>
        Suggestion.mk code (some 8) "Produto recomendado para pizzaria".toList
          (some (min (0.9 * 0.9) 0.95)) .ml_prediction))
    (by simp only [List.length_append, List.length_cons, List.length_nil, List.length_map, hlen]
        omega)
  have hb : withScore (Suggestion.mk "334".toList (some 9)
      "Queijo para pratos principais".toList (some 0.8) .business_type) ∈ rankSuggestions _ :=
    (hmemr _).mpr (List.mem_map_of_mem _ (by simp))
  have hm : withScore (Suggestion.mk "597".toList (some 10) "Farinha para pizza".toList
      (some 0.95) .menu_analysis) ∈ rankSuggestions _ :=
    (hmemr _).mpr (List.mem_map_of_mem _
      (List.mem_append_left _ (List.mem_append_right _ (hmem h1))))
  obtain ⟨i, hi⟩ := List.mem_iff_getElem?.mp hb
  obtain ⟨j, hj⟩ := List.mem_iff_getElem?.mp hm
  refine ⟨i, j, _, _, hi, rfl, by decide, hj, rfl, by decide, ?_⟩
  intro k z hk hz
  have hzmem := (hmemr z).mp (List.mem_iff_getElem?.mpr ⟨k, hk⟩)
  obtain ⟨s, hs, rfl⟩ := List.mem_map.mp hzmem
  have hscore : (withScore s).score = 32 / 5 := by
    rcases List.mem_append.mp hs with hs | hs
    · rcases List.mem_append.mp hs with hs | hs
      · simp only [List.mem_cons, List.mem_singleton, List.not_mem_nil, or_false] at hs
        rcases hs with rfl | rfl | rfl
        · exact absurd (by decide) hz
        · norm_num [withScore, calculateScore, orDefault, sourceBoosts]
        · exact absurd (by decide) hz
      · exact absurd (hall s hs).2 hz
    · simp only [List.map, List.mem_cons, List.mem_singleton, List.not_mem_nil, or_false] at hs
      rcases hs with rfl | rfl | rfl <;> exact absurd (by decide) hz
  constructor
  · refine ranked_above _ hsorted i k _ _ hi hk ?_
    rw [hscore]
    norm_num [withScore, calculateScore, orDefault, sourceBoosts]
  · refine ranked_above _ hsorted j k _ _ hj hk ?_
    rw [hscore]
    norm_num [withScore, calculateScore, orDefault, sourceBoosts]

/-- C23 at a concrete analysis: a restaurant whose categories are `pizzas` and
`bebidas`. -/
theorem getSuggestions_pizza_scenario_witness :
    ∃ ranked, getSuggestions demoMlEnv initialProductAssociations
        { activity := some "restaurante".toList,
          categories := some ["pizzas".toList, "bebidas".toList] } = .ok ranked ∧
      ∃ (i j : Nat) (b m : ScoredSuggestion),
        ranked[i]? = some b ∧ b.source = .business_type ∧
        b.code ∈ ["597".toList, "334".toList, "277".toList] ∧
        ranked[j]? = some m ∧ m.source = .menu_analysis ∧
        m.code ∈ ["597".toList, "334".toList, "277".toList] ∧
        ∀ (k : Nat) (z : ScoredSuggestion), ranked[k]? = some z →
          z.code ∉ ["597".toList, "334".toList, "277".toList] → i < k ∧ j < k :=
  getSuggestions_pizza_scenario demoMlEnv ["pizzas".toList, "bebidas".toList] (by decide)
    (by decide) (by decide) (by decide)

/-- C23, the scenario as stated: for a restaurant whose categories are
`pizzas` and `hambúrgueres`, every `business_type` suggestion of the ranked
list stands behind a suggestion for a product that is not a pizza ingredient
(the `menu_analysis` suggestion of code 5167, score 8.91). -/
theorem getSuggestions_pizza_burger_ranking :
    ∃ ranked, getSuggestions demoMlEnv initialProductAssociations pizzaBurgerResults =
        .ok ranked ∧
      (∃ b ∈ ranked, b.source = .business_type) ∧
      ∀ (i : Nat) (b : ScoredSuggestion), ranked[i]? = some b → b.source = .business_type →
        ∃ (k : Nat) (z : ScoredSuggestion), ranked[k]? = some z ∧
          z.code ∉ ["597".toList, "334".toList, "277".toList] ∧ k < i := by
  have hrun : getSuggestions demoMlEnv initialProductAssociations pizzaBurgerResults =
      .ok (rankSuggestions
        ([Suggestion.mk "334".toList (some 9) "Queijo para pratos principais".toList (some 0.8)
            .business_type,
          Suggestion.mk "5167".toList (some 8) "Carne bovina de qualidade".toList (some 0.8)
            .business_type,
          Suggestion.mk "597".toList (some 7) "Farinha multiuso".toList (some 0.8)
            .business_type] ++
         [Suggestion.mk "597".toList (some 10) "Farinha para pizza".toList (some 0.95)
            .menu_analysis,
          Suggestion.mk "334".toList (some 9) "Queijo mozzarella".toList (some 0.90)
            .menu_analysis,
          Suggestion.mk "277".toList (some 8) "Molho de tomate".toList (some 0.85)
            .menu_analysis,
          Suggestion.mk "5167".toList (some 9) "Carne bovina".toList (some 0.90)
            .menu_analysis,
          Suggestion.mk "271".toList (some 8) "Bacon".toList (some 0.85) .menu_analysis,
          Suggestion.mk "334".toList (some 7) "Queijo".toList (some 0.80) .menu_analysis] ++
         ["597".toList, "334".toList, "277".toList].map (fun code =>
            Suggestion.mk code (some 8) "Produto recomendado para pizzaria".toList
              (some (min (0.9 * 0.9) 0.95)) .ml_prediction))) := by
    rfl
  refine ⟨_, hrun, ?_⟩
  obtain ⟨hsorted, hmemr⟩ := rankSuggestions_short _
    (show ([Suggestion.mk "334".toList (some 9) "Queijo para pratos principais".toList (some 0.8)
            .business_type,
          Suggestion.mk "5167".toList (some 8) "Carne bovina de qualidade".toList (some 0.8)
            .business_type,
          Suggestion.mk "597".toList (some 7) "Farinha multiuso".toList (some 0.8)
            .business_type] ++
         [Suggestion.mk "597".toList (some 10) "Farinha para pizza".toList (some 0.95)
            .menu_analysis,
          Suggestion.mk "334".toList (some 9) "Queijo mozzarella".toList (some 0.90)
            .menu_analysis,
          Suggestion.mk "277".toList (some 8) "Molho de tomate".toList (some 0.85)
            .menu_analysis,
          Suggestion.mk "5167".toList (some 9) "Carne bovina".toList (some 0.90)
            .menu_analysis,
          Suggestion.mk "271".toList (some 8) "Bacon".toList (some 0.85) .menu_analysis,
          Suggestion.mk "334".toList (some 7) "Queijo".toList (some 0.80) .menu_analysis] ++
         ["597".toList, "334".toList, "277".toList].map (fun code =>
            Suggestion.mk code (some 8) "Produto recomendado para pizzaria".toList
              (some (min (0.9 * 0.9) 0.95)) .ml_prediction)).length ≤ 12 by decide)
  have hz : withScore (Suggestion.mk "5167".toList (some 9) "Carne bovina".toList (some 0.90)
      .menu_analysis) ∈ rankSuggestions _ :=
    (hmemr _).mpr (List.mem_map_of_mem _ (by simp))
  obtain ⟨k, hk⟩ := List.mem_iff_getElem?.mp hz
  refine ⟨⟨_, (hmemr _).mpr (List.mem_map_of_mem _
    (List.mem_append_left _ (List.mem_append_left _ (List.mem_cons_self _ _)))), rfl⟩, ?_⟩
  intro i b hi hsrc
  refine ⟨k, _, hk, by decide, ?_⟩
  have hbmem := (hmemr b).mp (List.mem_iff_getElem?.mpr ⟨i, hi⟩)
  obtain ⟨s, hs, rfl⟩ := List.mem_map.mp hbmem
  refine ranked_above _ hsorted k i _ _ hk hi ?_
  simp only [List.map, List.mem_append, List.mem_cons, List.mem_singleton, List.not_mem_nil,
    or_false] at hs
  rcases hs with (((rfl | rfl | rfl) | (rfl | rfl | rfl | rfl | rfl | rfl)) | (rfl | rfl | rfl))
  all_goals first
    | (simp [withScore] at hsrc; done)
    | norm_num [withScore, calculateScore, orDefault, sourceBoosts]

/-! ### `calculateDistance` -/

/-- C24, as the code has it: when both endpoints are resolved (the calls of
`getCoordinates` return) and one of them is `null` (an address that
`getCoordinates` cannot geocode, or a `null` passed as coordinates),
`calculateDistance` returns `null`; and no call of `calculateDistance` throws:
whenever it returns, it returns a value. -/
theorem calculateDistance_unresolved (env : MapsEnv) (fuel : Nat) (cache : Cache Coordinates)
    (origin destination : Endpoint) (o d : GeoRun)
    (ho : resolveEndpoint env fuel cache origin = some o)
    (hd : resolveEndpoint env fuel o.cache destination = some d)
    (hnull : o.result = .ok none ∨ d.result = .ok none) :
    (∃ run, calculateDistance env fuel cache origin destination = some run ∧
      run.result = .ok none) ∧
    (∀ run, calculateDistance env fuel cache origin destination = some run →
      ∃ value, run.result = .ok value) := by
  unfold calculateDistance
  rw [ho]
  simp only
  cases hor : o.result with
  | error e =>
    simp only
    exact ⟨⟨_, rfl, rfl⟩, fun run hrun => ⟨none, by cases hrun; rfl⟩⟩
  | ok originCoords =>
    simp only [hd]
    cases hdr : d.result with
    | error e =>
      simp only
      exact ⟨⟨_, rfl, rfl⟩, fun run hrun => ⟨none, by cases hrun; rfl⟩⟩
    | ok destCoords =>
      simp only
      rw [hor, hdr] at hnull
      cases originCoords with
      | none => exact ⟨⟨_, rfl, rfl⟩, fun run hrun => ⟨none, by cases hrun; rfl⟩⟩
      | some oc =>
        cases destCoords with
        | none => exact ⟨⟨_, rfl, rfl⟩, fun run hrun => ⟨none, by cases hrun; rfl⟩⟩
        | some dc =>
          rcases hnull with h | h <;> cases h

/-- C24 at a concrete input: from the address `Rua Sem Nome`, for which the
geocoder finds nothing, to a pair of coordinates. -/
theorem calculateDistance_unresolved_witness :
    (∃ run, calculateDistance demoMapsEnv 1 [] (.address "Rua Sem Nome".toList)
        (.coordinates (some rioCoordinates)) = some run ∧ run.result = .ok none) ∧
    (∀ run, calculateDistance demoMapsEnv 1 [] (.address "Rua Sem Nome".toList)
        (.coordinates (some rioCoordinates)) = some run → ∃ value, run.result = .ok value) :=
  calculateDistance_unresolved demoMapsEnv 1 [] (.address "Rua Sem Nome".toList)
    (.coordinates (some rioCoordinates)) { result := .ok none, cache := [], nested := [] }
    { result := .ok (some rioCoordinates), cache := [], nested := [] } rfl rfl (Or.inl rfl)

/-- C24, the claim as stated: with `null` passed as the origin,
`calculateDistance` does not fail; it returns `null` to the caller. -/
theorem calculateDistance_null_origin_returns :
    ∃ run, calculateDistance demoMapsEnv 1 [] (.coordinates none)
        (.coordinates (some rioCoordinates)) = some run ∧
      run.result = .ok none ∧ ∀ e, run.result ≠ .error e :=
  ⟨{ result := .ok none, cache := [] }, rfl, rfl, fun e h => by cases h⟩

/-! ### `getCoordinates` and the postal-code fallback -/

theorem getCoordinates_loopAddress (fuel : Nat) :
    getCoordinates demoMapsEnv fuel [] loopAddress = none := by
  induction fuel with
  | zero => rfl
  | succ n ih =>
    have hbtoa : ∃ encoded, btoa loopAddress = .ok encoded := ⟨_, rfl⟩
    obtain ⟨encoded, hbtoa⟩ := hbtoa
    have htry : ∃ e, getCoordinatesTry demoMapsEnv loopAddress = .error e := ⟨_, rfl⟩
    obtain ⟨e, htry⟩ := htry
    have hcep : extractCEP loopAddress = some "01310100".toList := by rfl
    have hfull : fullAddressOfCEP demoMapsEnv "01310100".toList = .ok loopAddress := by rfl
    have hne : loopAddress.isEmpty = false := rfl
    rw [getCoordinates]
    simp only [hne, hbtoa, htry, hcep, getCoordinatesByCEP, hfull, ih, Cache.get, List.find?]
    rfl

/-- C25: the postal-code fallback of `getCoordinates` is not limited to one
nested call. With a geocoder that cannot be reached, the address
`Loja 2, 30000-000` leads to two nested calls of `getCoordinates`, one inside
the other (the canonical address of the first postal code holds eight digits,
which the nested call takes for a postal code), before the third address is
found; and for `Av. Paulista 1000, 01310-100`, whose canonical address leads
back to itself, the call never returns, whatever bound on the depth is
allowed. -/
theorem getCoordinates_fallback_unbounded :
    (∃ run, getCoordinates demoMapsEnv 3 [] "Loja 2, 30000-000".toList = some run ∧
      run.nested = ["Travessa 20040002, Centro, Belo Horizonte, MG, Brasil".toList,
        "Avenida Rio Branco, Centro, Rio de Janeiro, RJ, Brasil".toList] ∧
      (∃ c, run.result = .ok (some c)) ∧
      getCoordinates demoMapsEnv 2 [] "Loja 2, 30000-000".toList = none) ∧
    (extractCEP "Av. Paulista 1000, 01310-100".toList = some "01310-100".toList ∧
      fullAddressOfCEP demoMapsEnv "01310-100".toList = .ok loopAddress ∧
      extractCEP loopAddress = some "01310100".toList ∧
      fullAddressOfCEP demoMapsEnv "01310100".toList = .ok loopAddress ∧
      ∀ fuel, getCoordinates demoMapsEnv fuel [] "Av. Paulista 1000, 01310-100".toList =
        none) := by
  refine ⟨⟨_, rfl, rfl, ⟨_, rfl⟩, rfl⟩, rfl, rfl, rfl, rfl, ?_⟩
  intro fuel
  cases fuel with
  | zero => rfl
  | succ n =>
    have hbtoa : ∃ encoded, btoa "Av. Paulista 1000, 01310-100".toList = .ok encoded :=
      ⟨_, rfl⟩
    obtain ⟨encoded, hbtoa⟩ := hbtoa
    have htry : ∃ e, getCoordinatesTry demoMapsEnv "Av. Paulista 1000, 01310-100".toList =
        .error e := ⟨_, rfl⟩
    obtain ⟨e, htry⟩ := htry
    have hcep : extractCEP "Av. Paulista 1000, 01310-100".toList = some "01310-100".toList := by
      rfl
    have hfull : fullAddressOfCEP demoMapsEnv "01310-100".toList = .ok loopAddress := by rfl
    have hne : "Av. Paulista 1000, 01310-100".toList.isEmpty = false := rfl
    rw [getCoordinates]
    simp only [hne, hbtoa, htry, hcep, getCoordinatesByCEP, hfull, getCoordinates_loopAddress,
      Cache.get, List.find?]
    rfl

end Prospetor
